import Mathlib

/-!
# Order-processing handlers: validation, pricing, inventory

A shallow embedding of `middleware/handlers/{validation,pricing,inventory}.go`.

* The HTTP exchange is a function from the decoded body (`none` when the JSON
  decoder fails) to a `Reply`: the status code and the body, which is the
  payload given to `respondWithError` or `respondWithJSON`, or nothing when
  `json.Marshal` rejects that payload.
* The Redis client is explicit state (`Client`): the key space, the outcome of
  every forthcoming command (so that an unreachable store can be described) and
  the list of commands issued so far.
* Every call of `math/rand` and of the clock is an input of the handler.
  The `time.Sleep` delays and the `Printf` line have no effect on the reply or
  on the store and are left out.
* A `float64` is a rational number or one of the special values, and every
  operation rounds its exact result to the nearest `float64` (`F64`).
-/

namespace Handlers

/-! ## The Go `int` type and its decimal text -/

/-- Smallest value of the 64-bit `int`. -/
def minInt64 : Int := -9223372036854775808

/-- Largest value of the 64-bit `int`. -/
def maxInt64 : Int := 9223372036854775807

/-- Result of an `int` operation: the exact result reduced to 64 bits (two's complement). -/
def wrapInt64 (n : Int) : Int := (n + 9223372036854775808) % 18446744073709551616 - 9223372036854775808

/-- The character of a decimal digit. -/
def digitChar (d : Nat) : Char := Char.ofNat (48 + d)

/-- Decimal digits of `n`, most significant first, put in front of `acc`
(the division loop of `strconv.FormatInt`; `fuel` bounds the number of digits). -/
def formatBits : Nat → Nat → List Char → List Char
  | 0, _, acc => acc
  | fuel + 1, n, acc =>
    if n < 10 then digitChar n :: acc
    else formatBits fuel (n / 10) (digitChar (n % 10) :: acc)

/-- Decimal text of an integer, as `strconv.Itoa` writes it: a minus sign for a negative
number, no leading zero. go-redis sends the `int` argument of `Set` in this form, and Redis
stores the result of `INCRBY` in this form. Twenty digits cover every 64-bit value. -/
def Itoa (n : Int) : String :=
  if n < 0 then String.mk ('-' :: formatBits 20 n.natAbs [])
  else String.mk (formatBits 20 n.natAbs [])

/-- Value of a decimal digit character, `none` for any other character. -/
def digitVal (ch : Char) : Option Nat :=
  if 48 ≤ ch.toNat ∧ ch.toNat ≤ 57 then some (ch.toNat - 48) else none

/-- Largest value of a `uint64`. -/
def maxUint64 : Nat := 18446744073709551615

/-- Outcome of `strconv.ParseUint`: a value, the error of a character that is not a digit
(or of an empty text), or the range error. -/
inductive ParseResult
  | ok (n : Nat)
  | invalid
  | overflow
  deriving DecidableEq, Repr

/-- The digit loop of `strconv.ParseUint` in base 10 with 64 bits. A character that is not
a digit ends the loop with the error of an invalid text; a value that leaves the `uint64`
range ends it at once with the range error, before the characters that follow are looked at.
The cutoff `1844674407370955162` is `maxUint64 / 10 + 1`. -/
def parseUintLoop : List Char → Nat → ParseResult
  | [], n => ParseResult.ok n
  | ch :: rest, n =>
    match digitVal ch with
    | none => ParseResult.invalid
    | some d =>
      if 1844674407370955162 ≤ n then ParseResult.overflow
      else if maxUint64 < n * 10 + d then ParseResult.overflow
      else parseUintLoop rest (n * 10 + d)

/-- Sign of the text given to `strconv.Atoi` and the characters after it. -/
def splitSign : List Char → Bool × List Char
  | [] => (false, [])
  | ch :: rest =>
    if ch = '-' then (true, rest)
    else if ch = '+' then (false, rest)
    else (false, ch :: rest)

/-- The function `strconv.Atoi`: the value and whether the error is non-nil. An optional
sign and at least one digit are expected. An invalid text gives value 0; a value outside the
64-bit range gives the nearest bound together with the range error. -/
def Atoi (s : String) : Int × Bool :=
  let neg := (splitSign s.data).1
  let ds := (splitSign s.data).2
  if ds = [] then (0, true)
  else
    match parseUintLoop ds 0 with
    | ParseResult.invalid => (0, true)
    | ParseResult.overflow => if neg = true then (minInt64, true) else (maxInt64, true)
    | ParseResult.ok un =>
      if neg = false ∧ 9223372036854775808 ≤ un then (maxInt64, true)
      else if neg = true ∧ 9223372036854775808 < un then (minInt64, true)
      else (if neg = true then -(un : Int) else (un : Int), false)

/-! ## The constants compared with a `rand.Float32()` draw

A draw is a `float32` in `[0, 1)`, held here as the rational number it denotes. In
`rand.Float32() < 0.8` Go converts the constant to `float32`, the type of the other operand,
so the draw is compared with the `float32` nearest to the decimal constant. -/

/-- The constant `0.02` as a `float32`: `0x3CA3D70A`. -/
def float32_0_02 : ℚ := 10737418 / 536870912

/-- The constant `0.8` as a `float32`: `0x3F4CCCCD`. -/
def float32_0_8 : ℚ := 13421773 / 16777216

/-- The constant `0.1` as a `float32`: `0x3DCCCCCD`. -/
def float32_0_1 : ℚ := 13421773 / 134217728

/-! ## The Go type `float64`

A finite `float64` is held as the rational number it denotes; the two zeros are one value
(the handlers compare a zero only with `<=` and `==`, for which the two agree). An operation
gives its exact result rounded to the nearest `float64`, a tie going to the even significand,
with gradual underflow below `2^-1022` and overflow to infinity from `2^1024 - 2^970` on
(IEEE 754 binary64, the arithmetic of Go on every platform). -/

/-- A value of type `float64`. -/
inductive F64
  | finite (x : ℚ)
  | posInf
  | negInf
  | nan
  deriving DecidableEq, Repr

/-- Whether the value is a number (neither infinite nor NaN). -/
def F64.isFinite : F64 → Bool
  | F64.finite _ => true
  | _ => false

/-- The nearest integer, a tie going to the even one. -/
def roundHalfEven (y : ℚ) : ℤ :=
  if y - (⌊y⌋ : ℤ) < 1 / 2 then ⌊y⌋
  else if 1 / 2 < y - (⌊y⌋ : ℤ) then ⌊y⌋ + 1
  else if ⌊y⌋ % 2 = 0 then ⌊y⌋
  else ⌊y⌋ + 1

/-- Exponent of the binade of `x`: the `e` with `2^e <= |x| < 2^(e+1)`, and `-1022` for
every `x` below the normal range. -/
def F64.binade (x : ℚ) : ℤ := max (Int.log 2 |x|) (-1022)

/-- Spacing of the `float64` values in the binade of `x`: 52 bits below the exponent. -/
def F64.quantum (x : ℚ) : ℚ := (2 : ℚ) ^ (F64.binade x - 52)

/-- The `float64` nearest to the exact result `x`. -/
def F64.round (x : ℚ) : F64 :=
  if (2 : ℚ) ^ (1024 : ℕ) ≤ |((roundHalfEven (x / F64.quantum x) : ℤ) : ℚ) * F64.quantum x| then
    (if x < 0 then F64.negInf else F64.posInf)
  else F64.finite (((roundHalfEven (x / F64.quantum x) : ℤ) : ℚ) * F64.quantum x)

/-- The conversion `float64(n)` of an `int`. -/
def F64.ofInt (n : Int) : F64 := F64.round (n : ℚ)

/-- The product `a * b`. -/
def F64.mul : F64 → F64 → F64
  | F64.finite x, F64.finite y => F64.round (x * y)
  | F64.finite x, F64.posInf =>
    if x = 0 then F64.nan else if 0 < x then F64.posInf else F64.negInf
  | F64.finite x, F64.negInf =>
    if x = 0 then F64.nan else if 0 < x then F64.negInf else F64.posInf
  | F64.posInf, F64.finite y =>
    if y = 0 then F64.nan else if 0 < y then F64.posInf else F64.negInf
  | F64.negInf, F64.finite y =>
    if y = 0 then F64.nan else if 0 < y then F64.negInf else F64.posInf
  | F64.posInf, F64.posInf => F64.posInf
  | F64.posInf, F64.negInf => F64.negInf
  | F64.negInf, F64.posInf => F64.negInf
  | F64.negInf, F64.negInf => F64.posInf
  | F64.nan, _ => F64.nan
  | _, F64.nan => F64.nan

/-- The difference `a - b`. -/
def F64.sub : F64 → F64 → F64
  | F64.finite x, F64.finite y => F64.round (x - y)
  | F64.finite _, F64.posInf => F64.negInf
  | F64.finite _, F64.negInf => F64.posInf
  | F64.posInf, F64.finite _ => F64.posInf
  | F64.negInf, F64.finite _ => F64.negInf
  | F64.posInf, F64.negInf => F64.posInf
  | F64.negInf, F64.posInf => F64.negInf
  | F64.posInf, F64.posInf => F64.nan
  | F64.negInf, F64.negInf => F64.nan
  | F64.nan, _ => F64.nan
  | _, F64.nan => F64.nan

/-- The quotient `a / b`. A division by zero gives the infinity of the sign of `a` (the
zero taken as positive) and `0 / 0` gives NaN. -/
def F64.div : F64 → F64 → F64
  | F64.finite x, F64.finite y =>
    if y = 0 then (if x = 0 then F64.nan else if 0 < x then F64.posInf else F64.negInf)
    else F64.round (x / y)
  | F64.finite _, F64.posInf => F64.finite 0
  | F64.finite _, F64.negInf => F64.finite 0
  | F64.posInf, F64.finite y => if 0 ≤ y then F64.posInf else F64.negInf
  | F64.negInf, F64.finite y => if 0 ≤ y then F64.negInf else F64.posInf
  | F64.posInf, F64.posInf => F64.nan
  | F64.posInf, F64.negInf => F64.nan
  | F64.negInf, F64.posInf => F64.nan
  | F64.negInf, F64.negInf => F64.nan
  | F64.nan, _ => F64.nan
  | _, F64.nan => F64.nan

/-- The constant `0.15` as a `float64`: `0x3FC3333333333333`. -/
def float64_0_15 : ℚ := 5404319552844595 / 36028797018963968

/-- The constant `0.1` as a `float64`: `0x3FB999999999999A`. -/
def float64_0_1 : ℚ := 3602879701896397 / 36028797018963968

/-- The constant `1.1` as a `float64`: `0x3FF199999999999A`. -/
def float64_1_1 : ℚ := 2476979795053773 / 2251799813685248

/-- The constant `1.2` as a `float64`: `0x3FF3333333333333`. -/
def float64_1_2 : ℚ := 5404319552844595 / 4503599627370496

/-! ## The Redis client -/

/-- The key space of the store: the string held at each key, `none` for an absent key. -/
abbrev Data := String → Option String

/-- The key space after `value` is written at `key`. -/
def Data.put (d : Data) (key value : String) : Data :=
  fun k => if k = key then some value else d k

/-- Commands the handlers send to the store. -/
inductive Cmd
  | GET (key : String)
  | SET (key : String) (value : Int)
  | INCRBY (key : String) (n : Int)
  | EXISTS (key : String)
  deriving DecidableEq, Repr

/-- State of the shared `redisClient`. `faults` gives the outcome of the forthcoming
commands in the order they are issued: `true` means the command fails with an error other
than `redis.Nil` and is not applied; a command beyond the end of the list succeeds, so
`faults = []` is a reachable store. (A write that is applied while its reply is lost is a
success here: the handlers drop the reply of every write.) `calls` records every command
issued. -/
structure Client where
  data : Data
  faults : List Bool
  calls : List Cmd

/-- Issue one command: it is recorded, and the next outcome is taken from `faults`. -/
def Client.issue (c : Client) (cmd : Cmd) : Bool × Client :=
  match c.faults with
  | [] => (false, { c with calls := c.calls ++ [cmd] })
  | f :: fs => (f, { c with faults := fs, calls := c.calls ++ [cmd] })

/-- What `Get(ctx, key).Result()` returns: the string with a nil error, the error
`redis.Nil` of an absent key, or any other error. -/
inductive GetResult
  | value (s : String)
  | Nil
  | err
  deriving DecidableEq, Repr

/-- The call `redisClient.Get(ctx, key).Result()`. -/
def Client.Get (c : Client) (key : String) : GetResult × Client :=
  if (c.issue (Cmd.GET key)).1 = true then (GetResult.err, (c.issue (Cmd.GET key)).2)
  else
    match c.data key with
    | none => (GetResult.Nil, (c.issue (Cmd.GET key)).2)
    | some v => (GetResult.value v, (c.issue (Cmd.GET key)).2)

/-- The call `redisClient.Set(ctx, key, value, 0)` with an `int` value. Its reply is dropped
by every caller, so only the effect on the client is kept. -/
def Client.Set (c : Client) (key : String) (value : Int) : Client :=
  if (c.issue (Cmd.SET key value)).1 = true then (c.issue (Cmd.SET key value)).2
  else { (c.issue (Cmd.SET key value)).2 with data := c.data.put key (Itoa value) }

/-- The integer Redis reads in a stored string (`string2ll`): only the canonical decimal text
of a 64-bit integer is accepted. -/
def string2ll (v : String) : Option Int :=
  if (Atoi v).2 = false ∧ Itoa (Atoi v).1 = v then some (Atoi v).1 else none

/-- Effect of `INCRBY key n` on the key space: an absent key counts as 0; a value that is not
an integer, or a sum outside the 64-bit range, is an error and leaves the key as it is. -/
def incrData (d : Data) (key : String) (n : Int) : Data :=
  match d key with
  | none => d.put key (Itoa n)
  | some v =>
    match string2ll v with
    | none => d
    | some old =>
      if minInt64 ≤ old + n ∧ old + n ≤ maxInt64 then d.put key (Itoa (old + n)) else d

/-- The call `redisClient.IncrBy(ctx, key, n)`; its reply is dropped by the caller. -/
def Client.IncrBy (c : Client) (key : String) (n : Int) : Client :=
  if (c.issue (Cmd.INCRBY key n)).1 = true then (c.issue (Cmd.INCRBY key n)).2
  else { (c.issue (Cmd.INCRBY key n)).2 with data := incrData c.data key n }

/-- The call `redisClient.Exists(ctx, key).Result()`: the number of keys found and whether
the error is non-nil. A failed command gives the count 0 with its error. -/
def Client.Exists (c : Client) (key : String) : (Int × Bool) × Client :=
  if (c.issue (Cmd.EXISTS key)).1 = true then ((0, true), (c.issue (Cmd.EXISTS key)).2)
  else
    match c.data key with
    | none => ((0, false), (c.issue (Cmd.EXISTS key)).2)
    | some _ => ((1, false), (c.issue (Cmd.EXISTS key)).2)

/-! ## Replies -/

/-- Payload of a reply: the `error` map of `respondWithError`, a response struct, or
nothing at all, which is what is written when `json.Marshal` fails. -/
inductive Payload (α : Type)
  | error (message : String)
  | json (value : α)
  | empty
  deriving DecidableEq, Repr

/-- Whether `json.Marshal` accepts a value of a response type: it fails on a struct that
holds a `float64` which is infinite or NaN, and on nothing else that the handlers build. -/
class Marshals (α : Type) where
  ok : α → Bool

/-- What a handler writes: the status code and the JSON payload. -/
structure Reply (α : Type) where
  code : Nat
  payload : Payload α
  deriving DecidableEq, Repr

/-- The helper `respondWithJSON`. The error of `json.Marshal` is dropped: when it fails the
status is written all the same and the body is empty. -/
def respondWithJSON {α : Type} [Marshals α] (code : Nat) (value : α) : Reply α :=
  if Marshals.ok value = true then { code := code, payload := Payload.json value }
  else { code := code, payload := Payload.empty }

/-- The helper `respondWithError`: `respondWithJSON` of a map of strings, which always
marshals. -/
def respondWithError {α : Type} (code : Nat) (message : String) : Reply α :=
  { code := code, payload := Payload.error message }

/-! ## inventory.go -/

/-- Decoded body of `/check-inventory`. -/
structure CheckInventoryRequest where
  ItemID : String
  Quantity : Int
  deriving DecidableEq, Repr

/-- Response struct of `/check-inventory`. -/
structure CheckInventoryResponse where
  Available : Bool
  CurrentStock : Int
  RequestedAmount : Int
  Message : String
  deriving DecidableEq, Repr

/-- A `CheckInventoryResponse` holds no `float64`: it always marshals. -/
instance : Marshals CheckInventoryResponse := ⟨fun _ => true⟩

/-- Random draws of one inventory check: `replenish` is the `rand.Float32()` of the
replenishment test, `amount` the `rand.Intn(101)` of the replenishment amount. -/
structure Draws where
  replenish : ℚ
  amount : Fin 101

/-- The key of an item: `fmt.Sprintf("inventory:%s", itemID)`. -/
def inventoryKey (itemID : String) : String := "inventory:" ++ itemID

/-- Second half of `CheckInventoryHandler` (the availability test, the deduction with its
replenishment, and the response), entered with the stock found in the first half. -/
def deductAndRespond (req : CheckInventoryRequest) (rnd : Draws) (key : String)
    (currentStock : Int) (c : Client) : Reply CheckInventoryResponse × Client :=
  let available : Bool := decide (currentStock ≥ req.Quantity)
  let newStock := wrapInt64 (currentStock - req.Quantity)
  let c1 :=
    if available = true then
      if newStock < 50 then
        if rnd.replenish < float32_0_8 then
          (c.Set key newStock).IncrBy key (wrapInt64 (100 + (rnd.amount.val : Int)))
        else c.Set key newStock
      else c.Set key newStock
    else c
  (respondWithJSON 200
    { Available := available
      CurrentStock := currentStock
      RequestedAmount := req.Quantity
      Message := if available = true then "Inventory available" else "Insufficient inventory" },
   c1)

/-- The handler `CheckInventoryHandler`. -/
def CheckInventoryHandler (body : Option CheckInventoryRequest) (rnd : Draws) (c : Client) :
    Reply CheckInventoryResponse × Client :=
  match body with
  | none => (respondWithError 400 "Invalid request body", c)
  | some req =>
    if req.ItemID = "" then (respondWithError 400 "Item ID is required", c)
    else if req.Quantity ≤ 0 then (respondWithError 400 "Quantity must be greater than 0", c)
    else
      match c.Get (inventoryKey req.ItemID) with
      | (GetResult.Nil, c1) =>
        deductAndRespond req rnd (inventoryKey req.ItemID) 250
          (c1.Set (inventoryKey req.ItemID) 250)
      | (GetResult.err, c1) =>
        (respondWithJSON 200
          { Available := true
            CurrentStock := 999
            RequestedAmount := req.Quantity
            Message := "Inventory check bypassed (Redis unavailable)" },
         c1)
      | (GetResult.value stockStr, c1) =>
        deductAndRespond req rnd (inventoryKey req.ItemID) (Atoi stockStr).1 c1

/-- The seed items of `initializeInventory`. -/
def seedItems : List String :=
  ["nebula-latte", "supernova-espresso", "galaxy-mocha", "asteroid-americano",
   "lunar-cappuccino", "starlight-frappe", "comet-cold-brew", "rocket-fuel"]

/-- One turn of the loop of `initializeInventory`. The state is the client and the number of
`rand.Intn(101)` draws taken so far; `rng j` is the draw number `j` of the run. The error of
`Exists` is dropped, so a failed `Exists` counts as an absent key. -/
def initializeItem (rng : Nat → Fin 101) (st : Client × Nat) (itemID : String) :
    Client × Nat :=
  if (st.1.Exists (inventoryKey itemID)).1.1 = 0 then
    ((st.1.Exists (inventoryKey itemID)).2.Set (inventoryKey itemID)
        (wrapInt64 (200 + ((rng st.2).val : Int))),
      st.2 + 1)
  else ((st.1.Exists (inventoryKey itemID)).2, st.2)

/-- The function `initializeInventory`, run by `InitHandlers` at start-up. -/
def initializeInventory (rng : Nat → Fin 101) (c : Client) : Client :=
  (seedItems.foldl (initializeItem rng) (c, 0)).1

/-! ## validation.go -/

/-- Decoded body of `/validate`. -/
structure ValidateOrderRequest where
  ItemID : String
  Quantity : Int
  CustomerName : String
  deriving DecidableEq, Repr

/-- Response struct of `/validate`; a field left out by the handler holds the empty string. -/
structure ValidateOrderResponse where
  Valid : Bool
  Error : String
  Message : String
  deriving DecidableEq, Repr

/-- A `ValidateOrderResponse` holds no `float64`: it always marshals. -/
instance : Marshals ValidateOrderResponse := ⟨fun _ => true⟩

/-- The handler `ValidateOrderHandler`; `draw` is the `rand.Float32()` of the synthetic
failure. -/
def ValidateOrderHandler (body : Option ValidateOrderRequest) (draw : ℚ) :
    Reply ValidateOrderResponse :=
  match body with
  | none => respondWithError 400 "Invalid request body"
  | some req =>
    if req.CustomerName = "" then
      respondWithJSON 200 { Valid := false, Error := "Customer name is required", Message := "" }
    else if req.ItemID = "" then
      respondWithJSON 200 { Valid := false, Error := "Item ID is required", Message := "" }
    else if req.Quantity ≤ 0 then
      respondWithJSON 200
        { Valid := false, Error := "Quantity must be greater than 0", Message := "" }
    else if req.Quantity > 10 then
      respondWithJSON 200
        { Valid := false, Error := "Quantity cannot exceed 10 items", Message := "" }
    else if draw < float32_0_02 then
      respondWithJSON 200
        { Valid := false, Error := "Validation temporarily unavailable", Message := "" }
    else
      respondWithJSON 200 { Valid := true, Error := "", Message := "Order validation successful" }

/-! ## pricing.go

The prices are `float64` values: every product, difference and quotient below is rounded
(`F64`). The decoded `basePrice` is a number (the decoder rejects a literal outside the range
of `float64`), so the request holds it as a rational. -/

/-- Decoded body of `/calculate-price`. -/
structure CalculatePriceRequest where
  ItemID : String
  Quantity : Int
  BasePrice : ℚ
  deriving DecidableEq, Repr

/-- Response struct of `/calculate-price`. -/
structure CalculatePriceResponse where
  TotalPrice : F64
  BasePrice : ℚ
  Quantity : Int
  Discount : F64
  PriceMultiplier : F64
  Message : String
  deriving DecidableEq, Repr

/-- A `CalculatePriceResponse` marshals when each of its computed `float64` fields is a
number. -/
instance : Marshals CalculatePriceResponse :=
  ⟨fun r => r.TotalPrice.isFinite && r.Discount.isFinite && r.PriceMultiplier.isFinite⟩

/-- The function `math.Round` on a number: the nearest integer, a half rounded away from
zero. -/
def mathRound (x : ℚ) : ℚ :=
  if 0 ≤ x then (⌊x + 1 / 2⌋ : ℤ) else (⌈x - 1 / 2⌉ : ℤ)

/-- The function `math.Round` on a `float64`; the result is an integer, which needs no
further rounding, and the special values are returned as they are. -/
def F64.mathRound : F64 → F64
  | F64.finite x => F64.finite (Handlers.mathRound x)
  | F64.posInf => F64.posInf
  | F64.negInf => F64.negInf
  | F64.nan => F64.nan

/-- The value of `totalPrice` when `CalculatePriceHandler` reaches the rounding (line 85),
for a request that has passed both guards: lines 47 to 82. -/
def unroundedTotal (req : CalculatePriceRequest) (hour : Nat) (surge : ℚ) : F64 :=
  let total0 : F64 := F64.mul (F64.finite req.BasePrice) (F64.ofInt req.Quantity)
  let multiplier0 : F64 :=
    if (hour ≥ 7 ∧ hour < 9) ∨ (hour ≥ 12 ∧ hour < 13) then F64.finite float64_1_1
    else F64.finite 1
  let discount1 : F64 :=
    if hour ≥ 14 ∧ hour < 16 then F64.finite float64_0_15 else F64.finite 0
  let total1 : F64 :=
    if hour ≥ 14 ∧ hour < 16 then F64.mul total0 (F64.sub (F64.finite 1) discount1)
    else F64.mul total0 multiplier0
  let total2 : F64 :=
    if req.Quantity ≥ 5 then
      F64.mul total1 (F64.sub (F64.finite 1) (F64.finite float64_0_1))
    else total1
  if surge < float32_0_1 then F64.mul total2 (F64.finite float64_1_2) else total2

/-- The handler `CalculatePriceHandler`; `hour` is `time.Now().Hour()` and `surge` the
`rand.Float32()` of the surge test. -/
def CalculatePriceHandler (body : Option CalculatePriceRequest) (hour : Nat) (surge : ℚ) :
    Reply CalculatePriceResponse :=
  match body with
  | none => respondWithError 400 "Invalid request body"
  | some req =>
    if req.BasePrice ≤ 0 then respondWithError 400 "Base price must be greater than 0"
    else if req.Quantity ≤ 0 then respondWithError 400 "Quantity must be greater than 0"
    else
      let total0 : F64 := F64.mul (F64.finite req.BasePrice) (F64.ofInt req.Quantity)
      let multiplier0 : F64 :=
        if (hour ≥ 7 ∧ hour < 9) ∨ (hour ≥ 12 ∧ hour < 13) then F64.finite float64_1_1
        else F64.finite 1
      let discount1 : F64 :=
        if hour ≥ 14 ∧ hour < 16 then F64.finite float64_0_15 else F64.finite 0
      let total1 : F64 :=
        if hour ≥ 14 ∧ hour < 16 then F64.mul total0 (F64.sub (F64.finite 1) discount1)
        else F64.mul total0 multiplier0
      let total2 : F64 :=
        if req.Quantity ≥ 5 then
          F64.mul total1 (F64.sub (F64.finite 1) (F64.finite float64_0_1))
        else total1
      let discount2 : F64 :=
        if req.Quantity ≥ 5 then
          (if discount1 = F64.finite 0 then F64.finite float64_0_1 else discount1)
        else discount1
      let total3 : F64 :=
        if surge < float32_0_1 then F64.mul total2 (F64.finite float64_1_2) else total2
      let multiplier3 : F64 :=
        if surge < float32_0_1 then F64.mul multiplier0 (F64.finite float64_1_2)
        else multiplier0
      respondWithJSON 200
        { TotalPrice :=
            F64.div (F64.mathRound (F64.mul total3 (F64.finite 100))) (F64.finite 100)
          BasePrice := req.BasePrice
          Quantity := req.Quantity
          Discount := discount2
          PriceMultiplier := multiplier3
          Message := "Price calculated successfully" }

/-! ## Vocabulary of the statements -/

/-- The stock an inventory check works with when its read succeeds: 250 for an absent key,
otherwise the number `strconv.Atoi` finds in the stored string. -/
def readStock (d : Data) (key : String) : Int :=
  match d key with
  | none => 250
  | some v => (Atoi v).1

/-- The response of the bypass path (the read failed). -/
def bypassResponse (quantity : Int) : CheckInventoryResponse :=
  { Available := true
    CurrentStock := 999
    RequestedAmount := quantity
    Message := "Inventory check bypassed (Redis unavailable)" }

/-- Every counter of the key space reads as a number that is not negative. -/
def CountersNonNegative (d : Data) : Prop :=
  ∀ k v, d k = some v → 0 ≤ (Atoi v).1

/-- Every counter of the key space is the decimal text of a 64-bit integer that is not
negative. -/
def CountersAreStock (d : Data) : Prop :=
  ∀ k v, d k = some v → ∃ n : Int, 0 ≤ n ∧ n ≤ maxInt64 ∧ v = Itoa n

/-- The key space `d2` is `d1`, or `d1` with the text of a 64-bit integer that is not negative
written at `key`. -/
def NonNegativeWrite (d1 d2 : Data) (key : String) : Prop :=
  d2 = d1 ∨ ∃ n : Int, 0 ≤ n ∧ n ≤ maxInt64 ∧ d2 = d1.put key (Itoa n)

/-- Time-of-day factor of the total, in the words of the specification: 0.85 in the off-peak
window, 1.1 in the rush windows, 1 otherwise. -/
def timeFactor (h : Nat) : ℚ :=
  if 14 ≤ h ∧ h < 16 then 85 / 100
  else if (7 ≤ h ∧ h < 9) ∨ (12 ≤ h ∧ h < 13) then 11 / 10
  else 1

/-- Bulk factor of the total: 0.9 from five items on. -/
def bulkFactor (quantity : Int) : ℚ := if 5 ≤ quantity then 9 / 10 else 1

/-- Surge factor: 1.2 when the surge draw fires. -/
def surgeFactor (surge : ℚ) : ℚ := if surge < float32_0_1 then 12 / 10 else 1

/-- Rounding to two decimals, a half rounded up. -/
def round2 (x : ℚ) : ℚ := ((⌊x * 100 + 1 / 2⌋ : ℤ) : ℚ) / 100

/-- The key a command is about. -/
def Cmd.key : Cmd → String
  | Cmd.GET key => key
  | Cmd.SET key _ => key
  | Cmd.INCRBY key _ => key
  | Cmd.EXISTS key => key

/-- The commands a valid inventory check issues, in order, on a store whose next outcomes are
`faults` and which holds `stored` at `key`: the read; then, unless the read fails, the lazy
seed of an absent key, the Set of the new stock when the stock covers the quantity, and the
increment when the new stock is below 50 and the replenish draw fires. -/
def checkCommands (key : String) (quantity : Int) (rnd : Draws) (faults : List Bool)
    (stored : Option String) : List Cmd :=
  Cmd.GET key ::
    (if faults.headD false = true then []
     else
      (match stored with
        | none => [Cmd.SET key 250]
        | some _ => []) ++
      (if quantity ≤ (match stored with | none => 250 | some v => (Atoi v).1) then
        Cmd.SET key ((match stored with | none => 250 | some v => (Atoi v).1) - quantity) ::
          (if (match stored with | none => 250 | some v => (Atoi v).1) - quantity < 50 ∧
              rnd.replenish < float32_0_8 then
            [Cmd.INCRBY key (100 + (rnd.amount.val : Int))]
           else [])
       else []))

/-- Whether a reply of the inventory check says available=true. -/
def answersAvailable (r : Reply CheckInventoryResponse) : Bool :=
  match r.payload with
  | Payload.json resp => resp.Available
  | Payload.error _ => false
  | Payload.empty => false

/-- Two consecutive checks of the same item, of `q1` then `q2` units: the two replies and
the client after the second. -/
def checkTwice (itemID : String) (q1 q2 : Int) (rnd1 rnd2 : Draws) (c : Client) :
    (Reply CheckInventoryResponse × Reply CheckInventoryResponse) × Client :=
  (((CheckInventoryHandler (some { ItemID := itemID, Quantity := q1 }) rnd1 c).1,
    (CheckInventoryHandler (some { ItemID := itemID, Quantity := q2 }) rnd2
      (CheckInventoryHandler (some { ItemID := itemID, Quantity := q1 }) rnd1 c).2).1),
   (CheckInventoryHandler (some { ItemID := itemID, Quantity := q2 }) rnd2
      (CheckInventoryHandler (some { ItemID := itemID, Quantity := q1 }) rnd1 c).2).2)

/-- The text is an integer in syntax: an optional sign, then one digit or more and nothing
else. -/
def IntegerText (v : String) : Prop :=
  (splitSign v.data).2 ≠ [] ∧ ∀ ch ∈ (splitSign v.data).2, digitVal ch ≠ none

/-- The number written by the digits at the head of a list of characters, up to the first
character that is not a digit, continuing from `n`. -/
def leadingValue : List Char → Nat → Nat
  | [], n => n
  | ch :: rest, n =>
    match digitVal ch with
    | none => n
    | some d => leadingValue rest (n * 10 + d)

/-- The constant `0.85` as a `float64`: `0x3FEB333333333333`. -/
def float64_0_85 : ℚ := 7656119366529843 / 9007199254740992

/-- The constant `0.9` as a `float64`: `0x3FECCCCCCCCCCCCD`. -/
def float64_0_9 : ℚ := 8106479329266893 / 9007199254740992

/-- The constant `1.32` as a `float64`: `0x3FF51EB851EB851F`. -/
def float64_1_32 : ℚ := 5944751508129055 / 4503599627370496

/-- The unit roundoff of `float64`: half the spacing of the values next to 1. -/
def unitRoundoff : ℚ := 1 / 2 ^ (53 : ℕ)

/-- The time-of-day factor as the code applies it: the `float64` values of 0.85 and 1.1. -/
def timeFactor64 (h : Nat) : ℚ :=
  if 14 ≤ h ∧ h < 16 then float64_0_85
  else if (7 ≤ h ∧ h < 9) ∨ (12 ≤ h ∧ h < 13) then float64_1_1
  else 1

/-- The bulk factor as the code applies it: the `float64` value of 0.9. -/
def bulkFactor64 (quantity : Int) : ℚ := if 5 ≤ quantity then float64_0_9 else 1

/-- The surge factor as the code applies it: the `float64` value of 1.2. -/
def surgeFactor64 (surge : ℚ) : ℚ := if surge < float32_0_1 then float64_1_2 else 1

/-- A client whose store holds `value` at the key of `itemID` and nothing else. -/
def stockedClient (itemID value : String) (faults : List Bool) : Client :=
  { data := fun k => if k = inventoryKey itemID then some value else none
    faults := faults
    calls := [] }

/-- A client whose store holds no key. -/
def emptyClient (faults : List Bool) : Client :=
  { data := fun _ => none
    faults := faults
    calls := [] }

/-- The value of `totalPrice` after the rounding of line 85,
`math.Round(totalPrice*100)/100`, for a request that has passed both guards. -/
def roundedTotal (req : CalculatePriceRequest) (hour : Nat) (surge : ℚ) : F64 :=
  F64.div (F64.mathRound (F64.mul (unroundedTotal req hour surge) (F64.finite 100)))
    (F64.finite 100)

/-- The discount field of the response struct, as lemma `CalculatePriceHandler_valid` finds
it: the `float64` of 0.15 in the off-peak window, else the `float64` of 0.1 from five items
on, else 0. -/
def discount64 (h : Nat) (quantity : Int) : ℚ :=
  if 14 ≤ h ∧ h < 16 then float64_0_15 else if 5 ≤ quantity then float64_0_1 else 0

/-- The priceMultiplier field of the response struct, as lemma
`CalculatePriceHandler_valid` finds it: the `float64` of 1.1 in the rush windows, else 1,
times 1.2 in `float64` when the surge draw fires. -/
def multiplier64 (h : Nat) (surge : ℚ) : ℚ :=
  if (7 ≤ h ∧ h < 9) ∨ (12 ≤ h ∧ h < 13) then
    (if surge < float32_0_1 then float64_1_32 else float64_1_1)
  else (if surge < float32_0_1 then float64_1_2 else 1)

/-- The response struct that lines 87 to 94 build for a request that has passed both guards,
as lemma `CalculatePriceHandler_valid` finds it: the rounded total, the echo of basePrice and
quantity, the reported discount and the reported multiplier. -/
def priceResponse (req : CalculatePriceRequest) (hour : Nat) (surge : ℚ) :
    CalculatePriceResponse :=
  { TotalPrice := roundedTotal req hour surge
    BasePrice := req.BasePrice
    Quantity := req.Quantity
    Discount := F64.finite (discount64 hour req.Quantity)
    PriceMultiplier := F64.finite (multiplier64 hour surge)
    Message := "Price calculated successfully" }

/-- The decimal product of the specification: basePrice * quantity * T * B * S. -/
def decimalTotal (req : CalculatePriceRequest) (h : Nat) (surge : ℚ) : ℚ :=
  req.BasePrice * (req.Quantity : ℚ) * timeFactor h * bulkFactor req.Quantity *
    surgeFactor surge

/-- The product of the base total and the three `float64` factors, taken exactly. -/
def exactTotal64 (req : CalculatePriceRequest) (h : Nat) (surge : ℚ) : ℚ :=
  req.BasePrice * (req.Quantity : ℚ) * timeFactor64 h * bulkFactor64 req.Quantity *
    surgeFactor64 surge

/-! ## Responses that always marshal -/

theorem respondWithJSON_check (code : Nat) (v : CheckInventoryResponse) :
    respondWithJSON code v = { code := code, payload := Payload.json v } := rfl

theorem respondWithJSON_validate (code : Nat) (v : ValidateOrderResponse) :
    respondWithJSON code v = { code := code, payload := Payload.json v } := rfl

/-- The status is written whether or not the payload marshals. -/
theorem respondWithJSON_code {α : Type} [Marshals α] (code : Nat) (v : α) :
    (respondWithJSON code v).code = code := by
  unfold respondWithJSON
  split_ifs <;> rfl

/-! ## Decimal text: what is written is read back -/

theorem digitVal_digitChar (d : Nat) (h : d < 10) : digitVal (digitChar d) = some d := by
  interval_cases d <;> decide

theorem digitChar_ne_sign (d : Nat) (h : d < 10) :
    digitChar d ≠ '-' ∧ digitChar d ≠ '+' := by
  interval_cases d <;> decide

theorem formatBits_acc (fuel : Nat) : ∀ (n : Nat) (acc : List Char),
    formatBits fuel n acc = formatBits fuel n [] ++ acc := by
  induction fuel with
  | zero => intro n acc; simp [formatBits]
  | succ fuel ih =>
    intro n acc
    by_cases h : n < 10
    · simp [formatBits, h]
    · simp only [formatBits, h, if_false]
      rw [ih (n / 10) (digitChar (n % 10) :: acc), ih (n / 10) [digitChar (n % 10)]]
      simp

theorem parseUintLoop_append (l1 : List Char) : ∀ (l2 : List Char) (n : Nat),
    parseUintLoop (l1 ++ l2) n =
      match parseUintLoop l1 n with
      | ParseResult.ok m => parseUintLoop l2 m
      | ParseResult.invalid => ParseResult.invalid
      | ParseResult.overflow => ParseResult.overflow := by
  induction l1 with
  | nil => intro l2 n; simp [parseUintLoop]
  | cons ch rest ih =>
    intro l2 n
    simp only [List.cons_append, parseUintLoop]
    cases digitVal ch with
    | none => simp
    | some d =>
      simp only
      split_ifs
      · rfl
      · rfl
      · exact ih l2 (n * 10 + d)

theorem parseUintLoop_formatBits (fuel : Nat) : ∀ n : Nat, n < 10 ^ fuel → n ≤ maxUint64 →
    parseUintLoop (formatBits fuel n []) 0 = ParseResult.ok n := by
  induction fuel with
  | zero => intro n h _; simp at h; subst h; simp [formatBits, parseUintLoop]
  | succ fuel ih =>
    intro n h hmax
    simp only [maxUint64] at hmax
    by_cases h10 : n < 10
    · have h2 : ¬ (maxUint64 < n) := by simp only [maxUint64]; omega
      simp [formatBits, h10, parseUintLoop, digitVal_digitChar n h10, h2]
    · simp only [formatBits, h10, if_false]
      rw [formatBits_acc, parseUintLoop_append]
      have hdiv : n / 10 < 10 ^ fuel := by
        rw [Nat.div_lt_iff_lt_mul (by norm_num)]
        rw [pow_succ] at h
        exact h
      rw [ih (n / 10) hdiv (by simp only [maxUint64]; omega)]
      have h1 : ¬ (1844674407370955162 ≤ n / 10) := by omega
      have h2 : ¬ (maxUint64 < n / 10 * 10 + n % 10) := by simp only [maxUint64]; omega
      simp only [parseUintLoop, digitVal_digitChar (n % 10) (Nat.mod_lt _ (by norm_num)), h1,
        h2, if_false]
      congr 1
      omega

theorem formatBits_head (fuel : Nat) : ∀ n : Nat,
    ∃ d rest, d < 10 ∧ formatBits (fuel + 1) n [] = digitChar d :: rest := by
  induction fuel with
  | zero =>
    intro n
    by_cases h10 : n < 10
    · exact ⟨n, [], h10, by simp [formatBits, h10]⟩
    · exact ⟨n % 10, [], Nat.mod_lt _ (by norm_num), by simp [formatBits, h10]⟩
  | succ fuel ih =>
    intro n
    by_cases h10 : n < 10
    · exact ⟨n, [], h10, by simp [formatBits, h10]⟩
    · obtain ⟨d, rest, hd, hr⟩ := ih (n / 10)
      refine ⟨d, rest ++ [digitChar (n % 10)], hd, ?_⟩
      rw [formatBits, if_neg h10, formatBits_acc, hr]
      simp

theorem splitSign_formatBits (fuel n : Nat) :
    splitSign (formatBits (fuel + 1) n []) = (false, formatBits (fuel + 1) n []) ∧
      formatBits (fuel + 1) n [] ≠ [] := by
  obtain ⟨d, rest, hd, hr⟩ := formatBits_head fuel n
  rw [hr]
  simp [splitSign, (digitChar_ne_sign d hd).1, (digitChar_ne_sign d hd).2]

/-- Reading back the text of a 64-bit integer gives the integer, without error. -/
theorem Atoi_Itoa (n : Int) (hlo : minInt64 ≤ n) (hhi : n ≤ maxInt64) :
    Atoi (Itoa n) = (n, false) := by
  have hpow : n.natAbs < 10 ^ 20 := by
    simp only [minInt64, maxInt64] at hlo hhi
    omega
  have hparse := parseUintLoop_formatBits 20 n.natAbs hpow (by
    simp only [minInt64, maxInt64] at hlo hhi
    simp only [maxUint64]
    omega)
  obtain ⟨hsplit, hne⟩ := splitSign_formatBits 19 n.natAbs
  by_cases hneg : n < 0
  · have hs : splitSign (Itoa n).data = (true, formatBits 20 n.natAbs []) := by
      simp [Itoa, hneg, splitSign]
    simp only [Atoi, hs, hne, if_false, hparse]
    simp only [minInt64, maxInt64] at hlo hhi
    have h1 : ¬ (9223372036854775808 < n.natAbs) := by omega
    have h2 : -(n.natAbs : Int) = n := by omega
    simp only [h1, h2, and_false, and_true, false_and, if_false, if_true, Bool.true_eq_false]
  · have hs : splitSign (Itoa n).data = (false, formatBits 20 n.natAbs []) := by
      simp [Itoa, hneg, hsplit]
    simp only [Atoi, hs, hne, if_false, hparse]
    simp only [minInt64, maxInt64] at hlo hhi
    have h1 : ¬ (9223372036854775808 ≤ n.natAbs) := by omega
    have h2 : (n.natAbs : Int) = n := by omega
    simp only [h1, h2, and_false, and_true, false_and, if_false, Bool.false_eq_true]

/-- The value `strconv.Atoi` returns is a 64-bit integer, whatever the text. -/
theorem Atoi_range (s : String) : minInt64 ≤ (Atoi s).1 ∧ (Atoi s).1 ≤ maxInt64 := by
  unfold Atoi
  simp only [minInt64, maxInt64]
  by_cases h1 : (splitSign s.data).2 = []
  · simp [h1]
  · rw [if_neg h1]
    cases parseUintLoop (splitSign s.data).2 0 with
    | invalid => simp
    | overflow => cases (splitSign s.data).1 <;> simp
    | ok un =>
      cases (splitSign s.data).1 with
      | false =>
        by_cases h2 : 9223372036854775808 ≤ un
        · simp [h2]
        · simp only [h2, and_false, and_true, false_and, if_false, Bool.false_eq_true, true_and]
          omega
      | true =>
        by_cases h2 : 9223372036854775808 < un
        · simp [h2]
        · simp only [h2, and_false, and_true, if_false, if_true, Bool.true_eq_false, false_and]
          omega

theorem string2ll_Itoa (n : Int) (hlo : minInt64 ≤ n) (hhi : n ≤ maxInt64) :
    string2ll (Itoa n) = some n := by
  simp [string2ll, Atoi_Itoa n hlo hhi]

theorem string2ll_eq_some (v : String) (x : Int) (h : string2ll v = some x) :
    x = (Atoi v).1 ∧ v = Itoa x := by
  unfold string2ll at h
  split_ifs at h with hc
  simp only [Option.some.injEq] at h
  subst h
  exact ⟨rfl, hc.2.symm⟩

/-! ## The `float32` constants -/

/-- Each constant has a 24-bit significand and lies within half a unit in the last place of
its decimal: it is the `float32` nearest to the decimal. -/
theorem float32_constants_nearest :
    (float32_0_02 = 10737418 / 2 ^ 29 ∧ |float32_0_02 - 2 / 100| < 1 / 2 ^ 30) ∧
      (float32_0_8 = 13421773 / 2 ^ 24 ∧ |float32_0_8 - 8 / 10| < 1 / 2 ^ 25) ∧
      (float32_0_1 = 13421773 / 2 ^ 27 ∧ |float32_0_1 - 1 / 10| < 1 / 2 ^ 28) := by
  simp only [float32_0_02, float32_0_8, float32_0_1, abs_lt]
  norm_num

/-! ## The client operations, field by field -/

theorem issue_fst (c : Client) (cmd : Cmd) : (c.issue cmd).1 = c.faults.headD false := by
  unfold Client.issue
  cases c.faults <;> rfl

theorem issue_data (c : Client) (cmd : Cmd) : (c.issue cmd).2.data = c.data := by
  unfold Client.issue
  cases c.faults <;> rfl

theorem issue_faults (c : Client) (cmd : Cmd) : (c.issue cmd).2.faults = c.faults.tail := by
  unfold Client.issue
  cases c.faults <;> rfl

theorem issue_calls (c : Client) (cmd : Cmd) : (c.issue cmd).2.calls = c.calls ++ [cmd] := by
  unfold Client.issue
  cases c.faults <;> rfl

theorem Get_fst (c : Client) (key : String) :
    (c.Get key).1 =
      if c.faults.headD false = true then GetResult.err
      else match c.data key with
        | none => GetResult.Nil
        | some v => GetResult.value v := by
  unfold Client.Get
  rw [issue_fst]
  split_ifs
  · rfl
  · cases c.data key <;> rfl

theorem Get_snd (c : Client) (key : String) : (c.Get key).2 = (c.issue (Cmd.GET key)).2 := by
  unfold Client.Get
  split_ifs
  · rfl
  · cases c.data key <;> rfl

theorem Get_data (c : Client) (key : String) : (c.Get key).2.data = c.data := by
  rw [Get_snd, issue_data]

theorem Get_faults (c : Client) (key : String) : (c.Get key).2.faults = c.faults.tail := by
  rw [Get_snd, issue_faults]

theorem Get_calls (c : Client) (key : String) :
    (c.Get key).2.calls = c.calls ++ [Cmd.GET key] := by
  rw [Get_snd, issue_calls]

theorem Set_data (c : Client) (key : String) (n : Int) :
    (c.Set key n).data =
      if c.faults.headD false = true then c.data else c.data.put key (Itoa n) := by
  unfold Client.Set
  rw [issue_fst]
  split_ifs
  · rw [issue_data]
  · rfl

theorem Set_faults (c : Client) (key : String) (n : Int) :
    (c.Set key n).faults = c.faults.tail := by
  unfold Client.Set
  split_ifs
  · rw [issue_faults]
  · simp only [issue_faults]

theorem Set_calls (c : Client) (key : String) (n : Int) :
    (c.Set key n).calls = c.calls ++ [Cmd.SET key n] := by
  unfold Client.Set
  split_ifs
  · rw [issue_calls]
  · simp only [issue_calls]

theorem IncrBy_data (c : Client) (key : String) (n : Int) :
    (c.IncrBy key n).data =
      if c.faults.headD false = true then c.data else incrData c.data key n := by
  unfold Client.IncrBy
  rw [issue_fst]
  split_ifs
  · rw [issue_data]
  · rfl

theorem IncrBy_faults (c : Client) (key : String) (n : Int) :
    (c.IncrBy key n).faults = c.faults.tail := by
  unfold Client.IncrBy
  split_ifs
  · rw [issue_faults]
  · simp only [issue_faults]

theorem IncrBy_calls (c : Client) (key : String) (n : Int) :
    (c.IncrBy key n).calls = c.calls ++ [Cmd.INCRBY key n] := by
  unfold Client.IncrBy
  split_ifs
  · rw [issue_calls]
  · simp only [issue_calls]

theorem put_same (d : Data) (key value : String) : d.put key value key = some value := by
  simp [Data.put]

theorem put_other (d : Data) (key value k : String) (h : k ≠ key) :
    d.put key value k = d k := by
  simp [Data.put, h]

theorem put_put (d : Data) (key v w : String) : (d.put key v).put key w = d.put key w := by
  funext k
  by_cases h : k = key <;> simp [Data.put, h]

theorem wrapInt64_of_range (n : Int) (hlo : minInt64 ≤ n) (hhi : n ≤ maxInt64) :
    wrapInt64 n = n := by
  simp only [minInt64, maxInt64] at hlo hhi
  unfold wrapInt64
  omega

/-! ## The inventory check, path by path -/

/-- A valid request reaches the read, and the rest of the handler is decided by its result. -/
theorem CheckInventoryHandler_valid (req : CheckInventoryRequest) (rnd : Draws) (c : Client)
    (hid : req.ItemID ≠ "") (hq : 0 < req.Quantity) :
    CheckInventoryHandler (some req) rnd c =
      if c.faults.headD false = true then
        (respondWithJSON 200 (bypassResponse req.Quantity),
          (c.issue (Cmd.GET (inventoryKey req.ItemID))).2)
      else
        match c.data (inventoryKey req.ItemID) with
        | none =>
          deductAndRespond req rnd (inventoryKey req.ItemID) 250
            ((c.issue (Cmd.GET (inventoryKey req.ItemID))).2.Set (inventoryKey req.ItemID) 250)
        | some v =>
          deductAndRespond req rnd (inventoryKey req.ItemID) (Atoi v).1
            (c.issue (Cmd.GET (inventoryKey req.ItemID))).2 := by
  have hq2 : ¬ req.Quantity ≤ 0 := not_le.2 hq
  unfold CheckInventoryHandler
  simp only [hid, hq2, if_false]
  have h1 := Get_fst c (inventoryKey req.ItemID)
  have h2 := Get_snd c (inventoryKey req.ItemID)
  rcases hG : c.Get (inventoryKey req.ItemID) with ⟨r, c1⟩
  rw [hG] at h1 h2
  simp only at h1 h2
  subst h2
  by_cases hf : c.faults.headD false = true
  · rw [if_pos hf] at h1
    subst h1
    simp only [hf, if_true, bypassResponse]
  · rw [if_neg hf] at h1
    rw [if_neg hf]
    cases hd : c.data (inventoryKey req.ItemID) with
    | none =>
      rw [hd] at h1
      subst h1
      rfl
    | some v =>
      rw [hd] at h1
      subst h1
      rfl

/-- The response of the second half of the handler depends only on the stock and the
quantity. -/
theorem deductAndRespond_fst (req : CheckInventoryRequest) (rnd : Draws) (key : String)
    (stock : Int) (c : Client) :
    (deductAndRespond req rnd key stock c).1 =
      respondWithJSON 200
        { Available := decide (req.Quantity ≤ stock)
          CurrentStock := stock
          RequestedAmount := req.Quantity
          Message :=
            if req.Quantity ≤ stock then "Inventory available" else "Insufficient inventory" } := by
  unfold deductAndRespond
  simp

/-- The response of a valid request whose read succeeds, whatever happens to the writes. -/
theorem CheckInventoryHandler_fst_of_read (req : CheckInventoryRequest) (rnd : Draws)
    (c : Client) (hid : req.ItemID ≠ "") (hq : 0 < req.Quantity)
    (hget : c.faults.headD false = false) :
    (CheckInventoryHandler (some req) rnd c).1 =
      respondWithJSON 200
        { Available := decide (req.Quantity ≤ readStock c.data (inventoryKey req.ItemID))
          CurrentStock := readStock c.data (inventoryKey req.ItemID)
          RequestedAmount := req.Quantity
          Message :=
            if req.Quantity ≤ readStock c.data (inventoryKey req.ItemID)
            then "Inventory available" else "Insufficient inventory" } := by
  rw [CheckInventoryHandler_valid req rnd c hid hq, hget]
  simp only [Bool.false_eq_true, if_false]
  unfold readStock
  cases c.data (inventoryKey req.ItemID) with
  | none => exact deductAndRespond_fst _ _ _ _ _
  | some v => exact deductAndRespond_fst _ _ _ _ _

/-- The client after the second half of the handler. -/
theorem deductAndRespond_snd (req : CheckInventoryRequest) (rnd : Draws) (key : String)
    (stock : Int) (c : Client) :
    (deductAndRespond req rnd key stock c).2 =
      if req.Quantity ≤ stock then
        if wrapInt64 (stock - req.Quantity) < 50 ∧ rnd.replenish < float32_0_8 then
          (c.Set key (wrapInt64 (stock - req.Quantity))).IncrBy key
            (wrapInt64 (100 + (rnd.amount.val : Int)))
        else c.Set key (wrapInt64 (stock - req.Quantity))
      else c := by
  unfold deductAndRespond
  by_cases h1 : req.Quantity ≤ stock
  · by_cases h2 : wrapInt64 (stock - req.Quantity) < 50
    · by_cases h3 : rnd.replenish < float32_0_8 <;> simp [h1, h2, h3]
    · simp [h1, h2]
  · simp [h1]

theorem wrapInt64_amount (a : Fin 101) : wrapInt64 (100 + (a.val : Int)) = 100 + (a.val : Int) := by
  have h := a.isLt
  apply wrapInt64_of_range <;> simp only [minInt64, maxInt64] <;> omega

/-- An increment of a counter that holds the text of `n`. -/
theorem incrData_put (d : Data) (key : String) (n r : Int)
    (hlo : minInt64 ≤ n) (hhi : n ≤ maxInt64)
    (hlo2 : minInt64 ≤ n + r) (hhi2 : n + r ≤ maxInt64) :
    incrData (d.put key (Itoa n)) key r = d.put key (Itoa (n + r)) := by
  unfold incrData
  rw [put_same]
  simp only [string2ll_Itoa n hlo hhi, hlo2, hhi2, and_self, if_true, put_put]

/-- On a reachable store the second half of the handler leaves the store untouched when the
stock is short, and otherwise writes the new stock, replenished or not. -/
theorem deductAndRespond_data_reachable (req : CheckInventoryRequest) (rnd : Draws)
    (key : String) (stock : Int) (c : Client) (hreach : c.faults = [])
    (hq : 0 < req.Quantity) (hhi : stock ≤ maxInt64) :
    (deductAndRespond req rnd key stock c).2.data =
      if req.Quantity ≤ stock then
        if stock - req.Quantity < 50 ∧ rnd.replenish < float32_0_8 then
          c.data.put key (Itoa (stock - req.Quantity + (100 + (rnd.amount.val : Int))))
        else c.data.put key (Itoa (stock - req.Quantity))
      else c.data := by
  rw [deductAndRespond_snd]
  by_cases h1 : req.Quantity ≤ stock
  · have hlo : minInt64 ≤ stock - req.Quantity := by simp only [minInt64]; omega
    have hhi1 : stock - req.Quantity ≤ maxInt64 := by omega
    rw [wrapInt64_of_range _ hlo hhi1, wrapInt64_amount]
    simp only [h1, if_true]
    by_cases h2 : stock - req.Quantity < 50 ∧ rnd.replenish < float32_0_8
    · have ha := rnd.amount.isLt
      simp only [h2, and_self, if_true, IncrBy_data, Set_faults, Set_data, hreach, List.tail_nil,
        List.headD_nil, Bool.false_eq_true, if_false]
      apply incrData_put _ _ _ _ hlo hhi1
      · simp only [minInt64] at hlo ⊢; omega
      · simp only [maxInt64]; omega
    · simp only [h2, if_false, Set_data, hreach, List.headD_nil, Bool.false_eq_true]
  · simp only [h1, if_false]

/-- CLAIM C1. On a reachable store with replenishment off, a check of a quantity that the
stored stock `s` covers answers 200 with available=true, currentStock=s (the value before
the deduction), requestedAmount=quantity and "Inventory available", and leaves exactly
`s - quantity` at the item's key. -/
theorem check_available_decrements (req : CheckInventoryRequest) (rnd : Draws) (c : Client)
    (s : Int) (hid : req.ItemID ≠ "") (hq : 0 < req.Quantity) (hreach : c.faults = [])
    (hstored : c.data (inventoryKey req.ItemID) = some (Itoa s))
    (hle : req.Quantity ≤ s) (hs : s ≤ maxInt64)
    (hoff : ¬ rnd.replenish < float32_0_8) :
    (CheckInventoryHandler (some req) rnd c).1 =
        respondWithJSON 200
          { Available := true
            CurrentStock := s
            RequestedAmount := req.Quantity
            Message := "Inventory available" } ∧
      (CheckInventoryHandler (some req) rnd c).2.data (inventoryKey req.ItemID) =
        some (Itoa (s - req.Quantity)) := by
  have hlo : minInt64 ≤ s := by simp only [minInt64]; omega
  have hread : readStock c.data (inventoryKey req.ItemID) = s := by
    simp [readStock, hstored, Atoi_Itoa s hlo hs]
  constructor
  · rw [CheckInventoryHandler_fst_of_read req rnd c hid hq (by simp [hreach]), hread]
    simp [hle]
  · rw [CheckInventoryHandler_valid req rnd c hid hq]
    simp only [hreach, List.headD_nil, Bool.false_eq_true, if_false, hstored,
      Atoi_Itoa s hlo hs]
    rw [deductAndRespond_data_reachable _ _ _ _ _ (by rw [issue_faults, hreach]; rfl) hq hs]
    simp only [hle, if_true, hoff, and_false, if_false, put_same]

/-- Witness of C1: stock 10, quantity 3, replenish draw 0.9. -/
theorem check_available_decrements_witness :
    (CheckInventoryHandler (some { ItemID := "a", Quantity := 3 })
          { replenish := 9 / 10, amount := 0 } (stockedClient "a" (Itoa 10) [])).1 =
        respondWithJSON 200
          { Available := true
            CurrentStock := 10
            RequestedAmount := 3
            Message := "Inventory available" } ∧
      (CheckInventoryHandler (some { ItemID := "a", Quantity := 3 })
          { replenish := 9 / 10, amount := 0 } (stockedClient "a" (Itoa 10) [])).2.data
          (inventoryKey "a") = some (Itoa (10 - 3)) :=
  check_available_decrements { ItemID := "a", Quantity := 3 }
    { replenish := 9 / 10, amount := 0 } (stockedClient "a" (Itoa 10) []) 10
    (by decide) (by decide) rfl (by simp [stockedClient]) (by decide) (by decide)
    (by norm_num [float32_0_8])

/-- The first half of the handler on a reachable store: the client handed to the second
half. -/
theorem CheckInventoryHandler_reachable (req : CheckInventoryRequest) (rnd : Draws) (c : Client)
    (hid : req.ItemID ≠ "") (hq : 0 < req.Quantity) (hreach : c.faults = []) :
    CheckInventoryHandler (some req) rnd c =
      match c.data (inventoryKey req.ItemID) with
      | none =>
        deductAndRespond req rnd (inventoryKey req.ItemID) 250
          { data := c.data.put (inventoryKey req.ItemID) (Itoa 250)
            faults := []
            calls := c.calls ++ [Cmd.GET (inventoryKey req.ItemID),
              Cmd.SET (inventoryKey req.ItemID) 250] }
      | some v =>
        deductAndRespond req rnd (inventoryKey req.ItemID) (Atoi v).1
          { data := c.data
            faults := []
            calls := c.calls ++ [Cmd.GET (inventoryKey req.ItemID)] } := by
  rw [CheckInventoryHandler_valid req rnd c hid hq]
  simp only [hreach, List.headD_nil, Bool.false_eq_true, if_false]
  have e1 : (c.issue (Cmd.GET (inventoryKey req.ItemID))).2 =
      { data := c.data, faults := [], calls := c.calls ++ [Cmd.GET (inventoryKey req.ItemID)] } := by
    simp [Client.issue, hreach]
  rw [e1]
  cases c.data (inventoryKey req.ItemID) with
  | none => simp [Client.Set, Client.issue]
  | some v => rfl

/-- COUNTEREXAMPLE to C2 as stated. On an empty store a check of 300 units of item "b" finds
300 > 250 and answers available=false, yet it has written: the key, absent before, holds
the text of 250 afterwards, so the store is not the store of before. -/
theorem check_short_absent_key_writes :
    (CheckInventoryHandler (some { ItemID := "b", Quantity := 300 })
          { replenish := 9 / 10, amount := 0 } (emptyClient [])).1 =
        respondWithJSON 200
          { Available := false
            CurrentStock := 250
            RequestedAmount := 300
            Message := "Insufficient inventory" } ∧
      (emptyClient []).data (inventoryKey "b") = none ∧
      (CheckInventoryHandler (some { ItemID := "b", Quantity := 300 })
          { replenish := 9 / 10, amount := 0 } (emptyClient [])).2.data (inventoryKey "b") =
        some "250" ∧
      (CheckInventoryHandler (some { ItemID := "b", Quantity := 300 })
          { replenish := 9 / 10, amount := 0 } (emptyClient [])).2.data ≠ (emptyClient []).data ∧
      (CheckInventoryHandler (some { ItemID := "b", Quantity := 300 })
          { replenish := 9 / 10, amount := 0 } (emptyClient [])).2.calls =
        [Cmd.GET (inventoryKey "b"), Cmd.SET (inventoryKey "b") 250] := by
  have h := CheckInventoryHandler_reachable { ItemID := "b", Quantity := 300 }
    { replenish := 9 / 10, amount := 0 } (emptyClient []) (by decide) (by decide) rfl
  have hdata : (emptyClient []).data (inventoryKey "b") = none := rfl
  simp only [hdata] at h
  rw [h]
  refine ⟨?_, rfl, ?_, ?_, ?_⟩
  · rw [deductAndRespond_fst]
    simp
  · rw [deductAndRespond_snd]
    simp only [show ¬ ((300 : Int) ≤ 250) by decide, if_false, put_same]
    decide
  · rw [deductAndRespond_snd]
    simp only [show ¬ ((300 : Int) ≤ 250) by decide, if_false]
    intro hEq
    have := congrFun hEq (inventoryKey "b")
    rw [put_same] at this
    simp [emptyClient] at this
  · rw [deductAndRespond_snd]
    simp only [show ¬ ((300 : Int) ≤ 250) by decide, if_false]
    rfl

/-- CLAIM C2 (amended). On a reachable store, a valid request for which the handler finds
quantity > currentStock is answered 200 with available=false, that currentStock and
"Insufficient inventory". When the key was present no write occurs: the store is the store
of before and the only command issued is the read. When the key was absent the only write
is the lazy seed: the commands are the read and the Set of 250, and the store differs from
the store of before by that key holding 250. -/
theorem check_short_leaves_store (req : CheckInventoryRequest) (rnd : Draws) (c : Client)
    (hid : req.ItemID ≠ "") (hq : 0 < req.Quantity) (hreach : c.faults = [])
    (hshort : readStock c.data (inventoryKey req.ItemID) < req.Quantity) :
    (CheckInventoryHandler (some req) rnd c).1 =
        respondWithJSON 200
          { Available := false
            CurrentStock := readStock c.data (inventoryKey req.ItemID)
            RequestedAmount := req.Quantity
            Message := "Insufficient inventory" } ∧
      (c.data (inventoryKey req.ItemID) ≠ none →
        (CheckInventoryHandler (some req) rnd c).2.data = c.data ∧
        (CheckInventoryHandler (some req) rnd c).2.calls =
          c.calls ++ [Cmd.GET (inventoryKey req.ItemID)]) ∧
      (c.data (inventoryKey req.ItemID) = none →
        (CheckInventoryHandler (some req) rnd c).2.data =
          c.data.put (inventoryKey req.ItemID) (Itoa 250) ∧
        (CheckInventoryHandler (some req) rnd c).2.calls =
          c.calls ++ [Cmd.GET (inventoryKey req.ItemID),
            Cmd.SET (inventoryKey req.ItemID) 250]) := by
  have hnot : ¬ req.Quantity ≤ readStock c.data (inventoryKey req.ItemID) := not_le.2 hshort
  refine ⟨?_, ?_, ?_⟩
  · rw [CheckInventoryHandler_fst_of_read req rnd c hid hq (by simp [hreach])]
    simp [hnot]
  · intro hpres
    rw [CheckInventoryHandler_reachable req rnd c hid hq hreach]
    cases hd : c.data (inventoryKey req.ItemID) with
    | none => exact absurd hd hpres
    | some v =>
      have hnot2 : ¬ req.Quantity ≤ (Atoi v).1 := by simpa [readStock, hd] using hnot
      simp only [deductAndRespond_snd, hnot2, if_false, and_self]
  · intro habs
    rw [CheckInventoryHandler_reachable req rnd c hid hq hreach]
    have hnot2 : ¬ req.Quantity ≤ 250 := by simpa [readStock, habs] using hnot
    simp only [habs, deductAndRespond_snd, hnot2, if_false, and_self]

/-- Witness of C2 (amended): stock 2, quantity 5. -/
theorem check_short_leaves_store_witness :
    (CheckInventoryHandler (some { ItemID := "a", Quantity := 5 })
          { replenish := 0, amount := 0 } (stockedClient "a" (Itoa 2) [])).1 =
        respondWithJSON 200
          { Available := false
            CurrentStock := readStock (stockedClient "a" (Itoa 2) []).data (inventoryKey "a")
            RequestedAmount := 5
            Message := "Insufficient inventory" } ∧
      (CheckInventoryHandler (some { ItemID := "a", Quantity := 5 })
          { replenish := 0, amount := 0 } (stockedClient "a" (Itoa 2) [])).2.data =
        (stockedClient "a" (Itoa 2) []).data :=
  have h := check_short_leaves_store { ItemID := "a", Quantity := 5 }
    { replenish := 0, amount := 0 } (stockedClient "a" (Itoa 2) [])
    (by decide) (by decide) rfl (by decide)
  ⟨h.1, (h.2.1 (by simp [stockedClient])).1⟩

/-- CLAIM C3. On a reachable store, a valid request whose key is absent is served with stock
250: the response is 200 with currentStock=250, requestedAmount=quantity and
available = (quantity <= 250). Afterwards the key is present: it holds 250 when
quantity > 250, 250 - quantity when quantity <= 250 and no replenishment fires, and
250 - quantity plus the replenishment amount when it fires. -/
theorem check_absent_key_seeds (req : CheckInventoryRequest) (rnd : Draws) (c : Client)
    (hid : req.ItemID ≠ "") (hq : 0 < req.Quantity) (hreach : c.faults = [])
    (habsent : c.data (inventoryKey req.ItemID) = none) :
    (CheckInventoryHandler (some req) rnd c).1 =
        respondWithJSON 200
          { Available := decide (req.Quantity ≤ 250)
            CurrentStock := 250
            RequestedAmount := req.Quantity
            Message :=
              if req.Quantity ≤ 250 then "Inventory available" else "Insufficient inventory" } ∧
      (CheckInventoryHandler (some req) rnd c).2.data (inventoryKey req.ItemID) ≠ none ∧
      (250 < req.Quantity →
        (CheckInventoryHandler (some req) rnd c).2.data (inventoryKey req.ItemID) =
          some (Itoa 250)) ∧
      (req.Quantity ≤ 250 → ¬ (250 - req.Quantity < 50 ∧ rnd.replenish < float32_0_8) →
        (CheckInventoryHandler (some req) rnd c).2.data (inventoryKey req.ItemID) =
          some (Itoa (250 - req.Quantity))) ∧
      (req.Quantity ≤ 250 → 250 - req.Quantity < 50 ∧ rnd.replenish < float32_0_8 →
        (CheckInventoryHandler (some req) rnd c).2.data (inventoryKey req.ItemID) =
          some (Itoa (250 - req.Quantity + (100 + (rnd.amount.val : Int))))) := by
  have hdata : (CheckInventoryHandler (some req) rnd c).2.data (inventoryKey req.ItemID) =
      if req.Quantity ≤ 250 then
        if 250 - req.Quantity < 50 ∧ rnd.replenish < float32_0_8 then
          some (Itoa (250 - req.Quantity + (100 + (rnd.amount.val : Int))))
        else some (Itoa (250 - req.Quantity))
      else some (Itoa 250) := by
    rw [CheckInventoryHandler_reachable req rnd c hid hq hreach]
    simp only [habsent]
    rw [deductAndRespond_data_reachable _ _ _ _ _ rfl hq (by decide)]
    split_ifs <;> simp only [put_same]
  refine ⟨?_, ?_, ?_, ?_, ?_⟩
  · rw [CheckInventoryHandler_fst_of_read req rnd c hid hq (by simp [hreach])]
    simp only [readStock, habsent]
  · rw [hdata]
    split_ifs <;> simp
  · intro h
    rw [hdata, if_neg (not_le.2 h)]
  · intro h1 h2
    rw [hdata, if_pos h1, if_neg h2]
  · intro h1 h2
    rw [hdata, if_pos h1, if_pos h2]

/-- Witness of C3: an empty store, quantity 4 of item "a". -/
theorem check_absent_key_seeds_witness :
    (CheckInventoryHandler (some { ItemID := "a", Quantity := 4 })
          { replenish := 0, amount := 0 } (emptyClient [])).1 =
        respondWithJSON 200
          { Available := true
            CurrentStock := 250
            RequestedAmount := 4
            Message := "Inventory available" } ∧
      (CheckInventoryHandler (some { ItemID := "a", Quantity := 4 })
          { replenish := 0, amount := 0 } (emptyClient [])).2.data (inventoryKey "a") =
        some (Itoa (250 - 4)) :=
  have h := check_absent_key_seeds { ItemID := "a", Quantity := 4 }
    { replenish := 0, amount := 0 } (emptyClient []) (by decide) (by decide) rfl rfl
  ⟨h.1, h.2.2.2.1 (by decide) (by decide)⟩

/-- CLAIM C4. For a valid request whose read fails with an error other than "key absent",
the response is 200 with available=true, currentStock=999, requestedAmount=quantity and the
bypass message; the read is the only command issued (no Set, no IncrBy) and the store is
left as it was, whatever the random draws. -/
theorem check_read_error_bypasses (req : CheckInventoryRequest) (rnd : Draws) (c : Client)
    (hid : req.ItemID ≠ "") (hq : 0 < req.Quantity)
    (hfail : c.faults.headD false = true) :
    (CheckInventoryHandler (some req) rnd c).1 =
        respondWithJSON 200
          { Available := true
            CurrentStock := 999
            RequestedAmount := req.Quantity
            Message := "Inventory check bypassed (Redis unavailable)" } ∧
      (CheckInventoryHandler (some req) rnd c).2.calls =
        c.calls ++ [Cmd.GET (inventoryKey req.ItemID)] ∧
      (CheckInventoryHandler (some req) rnd c).2.data = c.data := by
  rw [CheckInventoryHandler_valid req rnd c hid hq, if_pos hfail]
  exact ⟨rfl, issue_calls _ _, issue_data _ _⟩

/-- Witness of C4: the read of a stocked item fails. -/
theorem check_read_error_bypasses_witness :
    (CheckInventoryHandler (some { ItemID := "a", Quantity := 4 })
          { replenish := 0, amount := 7 } (stockedClient "a" (Itoa 10) [true])).1 =
        respondWithJSON 200
          { Available := true
            CurrentStock := 999
            RequestedAmount := 4
            Message := "Inventory check bypassed (Redis unavailable)" } ∧
      (CheckInventoryHandler (some { ItemID := "a", Quantity := 4 })
          { replenish := 0, amount := 7 } (stockedClient "a" (Itoa 10) [true])).2.calls =
        [Cmd.GET (inventoryKey "a")] :=
  have h := check_read_error_bypasses { ItemID := "a", Quantity := 4 }
    { replenish := 0, amount := 7 } (stockedClient "a" (Itoa 10) [true])
    (by decide) (by decide) rfl
  ⟨h.1, h.2.1⟩

/-- COUNTEREXAMPLE to C5 as stated. The key of item "b" is absent, the read succeeds and the
lazy-seed Set of 250 fails (the key is still absent afterwards). The response to a check of
300 units is the normal one, available=false with currentStock=250, not the bypass response
(available=true, currentStock=999). -/
theorem check_seed_write_error_not_bypassed :
    (CheckInventoryHandler (some { ItemID := "b", Quantity := 300 })
          { replenish := 0, amount := 0 } (emptyClient [false, true])).1 =
        respondWithJSON 200
          { Available := false
            CurrentStock := 250
            RequestedAmount := 300
            Message := "Insufficient inventory" } ∧
      (CheckInventoryHandler (some { ItemID := "b", Quantity := 300 })
          { replenish := 0, amount := 0 } (emptyClient [false, true])).1 ≠
        respondWithJSON 200 (bypassResponse 300) ∧
      (CheckInventoryHandler (some { ItemID := "b", Quantity := 300 })
          { replenish := 0, amount := 0 } (emptyClient [false, true])).2.calls =
        [Cmd.GET (inventoryKey "b"), Cmd.SET (inventoryKey "b") 250] ∧
      (CheckInventoryHandler (some { ItemID := "b", Quantity := 300 })
          { replenish := 0, amount := 0 } (emptyClient [false, true])).2.data
          (inventoryKey "b") = none := by
  have h1 := CheckInventoryHandler_fst_of_read { ItemID := "b", Quantity := 300 }
    { replenish := 0, amount := 0 } (emptyClient [false, true]) (by decide) (by decide) rfl
  have hstock : readStock (emptyClient [false, true]).data (inventoryKey "b") = 250 := rfl
  simp only [hstock] at h1
  have h2 := CheckInventoryHandler_valid { ItemID := "b", Quantity := 300 }
    { replenish := 0, amount := 0 } (emptyClient [false, true]) (by decide) (by decide)
  refine ⟨?_, ?_, ?_, ?_⟩
  · rw [h1]; simp
  · rw [h1]; simp [respondWithJSON_check, bypassResponse]
  · rw [h2]
    simp only [emptyClient, List.headD_cons, Bool.false_eq_true, if_false, deductAndRespond_snd,
      show ¬ ((300 : Int) ≤ 250) by decide, Set_calls, issue_calls, List.nil_append,
      List.cons_append]
  · rw [h2]
    simp only [emptyClient, List.headD_cons, Bool.false_eq_true, if_false, deductAndRespond_snd,
      show ¬ ((300 : Int) ≤ 250) by decide, Set_data, issue_faults, issue_data, List.tail_cons,
      if_true]

/-- CLAIM C5 (amended). A write error on the main check path is ignored. For a valid request
whose read succeeds, whatever the outcome `writes` of the commands that follow (the lazy-seed
Set, the Set of the new stock, the increment), the response is the normal availability
response computed from the stock that was read (250 for an absent key): it is the response
given when every write succeeds, and it is not the bypass response. -/
theorem check_write_error_ignored (req : CheckInventoryRequest) (rnd : Draws) (c : Client)
    (writes : List Bool) (hid : req.ItemID ≠ "") (hq : 0 < req.Quantity)
    (hread : c.faults = false :: writes) :
    (CheckInventoryHandler (some req) rnd c).1 =
        respondWithJSON 200
          { Available := decide (req.Quantity ≤ readStock c.data (inventoryKey req.ItemID))
            CurrentStock := readStock c.data (inventoryKey req.ItemID)
            RequestedAmount := req.Quantity
            Message :=
              if req.Quantity ≤ readStock c.data (inventoryKey req.ItemID)
              then "Inventory available" else "Insufficient inventory" } ∧
      (CheckInventoryHandler (some req) rnd c).1 =
        (CheckInventoryHandler (some req) rnd { c with faults := [] }).1 ∧
      (CheckInventoryHandler (some req) rnd c).1 ≠
        respondWithJSON 200 (bypassResponse req.Quantity) := by
  have h1 := CheckInventoryHandler_fst_of_read req rnd c hid hq (by simp [hread])
  have h2 := CheckInventoryHandler_fst_of_read req rnd { c with faults := [] } hid hq rfl
  refine ⟨h1, ?_, ?_⟩
  · rw [h1, h2]
  · rw [h1]
    simp only [respondWithJSON_check, bypassResponse, ne_eq, Reply.mk.injEq, Payload.json.injEq,
      CheckInventoryResponse.mk.injEq, true_and, not_and]
    intro _ _ hmsg
    split_ifs at hmsg <;> exact absurd hmsg (by decide)

/-- Witness of C5 (amended): the Set of the new stock fails after a successful read. -/
theorem check_write_error_ignored_witness :
    (CheckInventoryHandler (some { ItemID := "a", Quantity := 4 })
          { replenish := 0, amount := 0 } (stockedClient "a" (Itoa 10) [false, true])).1 =
        (CheckInventoryHandler (some { ItemID := "a", Quantity := 4 })
          { replenish := 0, amount := 0 }
          { stockedClient "a" (Itoa 10) [false, true] with faults := [] }).1 ∧
      (CheckInventoryHandler (some { ItemID := "a", Quantity := 4 })
          { replenish := 0, amount := 0 } (stockedClient "a" (Itoa 10) [false, true])).1 ≠
        respondWithJSON 200 (bypassResponse 4) :=
  (check_write_error_ignored { ItemID := "a", Quantity := 4 }
    { replenish := 0, amount := 0 } (stockedClient "a" (Itoa 10) [false, true]) [true]
    (by decide) (by decide) rfl).2

/-! ## Every write of the inventory check is a number that is not negative -/

theorem NonNegativeWrite.refl (d : Data) (key : String) : NonNegativeWrite d d key :=
  Or.inl rfl

theorem NonNegativeWrite.trans {d1 d2 d3 : Data} {key : String}
    (h12 : NonNegativeWrite d1 d2 key) (h23 : NonNegativeWrite d2 d3 key) :
    NonNegativeWrite d1 d3 key := by
  rcases h23 with h | ⟨n, h0, h1, h⟩
  · rw [h]; exact h12
  · rcases h12 with h' | ⟨m, _, _, h'⟩
    · exact Or.inr ⟨n, h0, h1, by rw [h, h']⟩
    · exact Or.inr ⟨n, h0, h1, by rw [h, h', put_put]⟩

theorem Atoi_Itoa_fst (n : Int) (h0 : 0 ≤ n) (h1 : n ≤ maxInt64) : (Atoi (Itoa n)).1 = n := by
  rw [Atoi_Itoa n (by simp only [minInt64]; omega) h1]

/-- What is read at `key` after such a write is not negative if it was not before. -/
theorem NonNegativeWrite.read {d1 d2 : Data} {key : String} (h : NonNegativeWrite d1 d2 key)
    (hb : ∀ v, d1 key = some v → 0 ≤ (Atoi v).1) :
    ∀ v, d2 key = some v → 0 ≤ (Atoi v).1 := by
  intro v hv
  rcases h with h | ⟨n, h0, h1, h⟩
  · rw [h] at hv; exact hb v hv
  · rw [h, put_same] at hv
    simp only [Option.some.injEq] at hv
    rw [← hv, Atoi_Itoa_fst n h0 h1]
    exact h0

theorem Set_NonNegativeWrite (c : Client) (key : String) (n : Int) (h0 : 0 ≤ n)
    (h1 : n ≤ maxInt64) : NonNegativeWrite c.data (c.Set key n).data key := by
  rw [Set_data]
  split_ifs
  · exact Or.inl rfl
  · exact Or.inr ⟨n, h0, h1, rfl⟩

theorem incrData_NonNegativeWrite (d : Data) (key : String) (r : Int) (h0 : 0 ≤ r)
    (h1 : r ≤ maxInt64) (hb : ∀ v, d key = some v → 0 ≤ (Atoi v).1) :
    NonNegativeWrite d (incrData d key r) key := by
  unfold incrData
  cases hd : d key with
  | none => exact Or.inr ⟨r, h0, h1, rfl⟩
  | some v =>
    simp only
    cases hv : string2ll v with
    | none => exact Or.inl rfl
    | some old =>
      simp only
      have hold := (string2ll_eq_some v old hv).1
      have hnn := hb v hd
      split_ifs with hr
      · exact Or.inr ⟨old + r, by rw [hold]; omega, hr.2, rfl⟩
      · exact Or.inl rfl

theorem IncrBy_NonNegativeWrite (c : Client) (key : String) (r : Int) (h0 : 0 ≤ r)
    (h1 : r ≤ maxInt64) (hb : ∀ v, c.data key = some v → 0 ≤ (Atoi v).1) :
    NonNegativeWrite c.data (c.IncrBy key r).data key := by
  rw [IncrBy_data]
  split_ifs
  · exact Or.inl rfl
  · exact incrData_NonNegativeWrite c.data key r h0 h1 hb

/-- The second half of the handler, entered with the stock read at the key, writes at most
numbers that are not negative, whatever the outcome of each write. -/
theorem deductAndRespond_NonNegativeWrite (req : CheckInventoryRequest) (rnd : Draws)
    (key : String) (stock : Int) (c : Client) (hq : 0 < req.Quantity)
    (hhi : stock ≤ maxInt64) (hstock : ∀ v, c.data key = some v → (Atoi v).1 = stock) :
    NonNegativeWrite c.data (deductAndRespond req rnd key stock c).2.data key := by
  rw [deductAndRespond_snd]
  by_cases h1 : req.Quantity ≤ stock
  · have hlo : minInt64 ≤ stock - req.Quantity := by simp only [minInt64]; omega
    have hhi1 : stock - req.Quantity ≤ maxInt64 := by omega
    have hset := Set_NonNegativeWrite c key (stock - req.Quantity) (by omega) hhi1
    rw [wrapInt64_of_range _ hlo hhi1, wrapInt64_amount]
    simp only [h1, if_true]
    split_ifs with h2
    · have ha := rnd.amount.isLt
      refine hset.trans (IncrBy_NonNegativeWrite _ key _ (by omega)
        (by simp only [maxInt64]; omega) ?_)
      exact hset.read (fun v hv => by rw [hstock v hv]; omega)
    · exact hset
  · simp only [h1, if_false]
    exact Or.inl rfl

/-- The inventory check writes at most numbers that are not negative, and only at the key of
the requested item, for every body, draw, store and outcome of the store commands. -/
theorem CheckInventoryHandler_NonNegativeWrite (req : CheckInventoryRequest)
    (rnd : Draws) (c : Client) :
    NonNegativeWrite c.data (CheckInventoryHandler (some req) rnd c).2.data
      (inventoryKey req.ItemID) := by
  by_cases hid : req.ItemID = ""
  · simp only [CheckInventoryHandler, hid, if_true]
    exact Or.inl rfl
  · by_cases hq : req.Quantity ≤ 0
    · simp only [CheckInventoryHandler, hid, hq, if_true, if_false]
      exact Or.inl rfl
    · have hq1 : 0 < req.Quantity := not_le.1 hq
      rw [CheckInventoryHandler_valid req rnd c hid hq1]
      split_ifs
      · rw [issue_data]
        exact Or.inl rfl
      · cases hd : c.data (inventoryKey req.ItemID) with
        | none =>
          simp only
          have hseed := Set_NonNegativeWrite
            (c.issue (Cmd.GET (inventoryKey req.ItemID))).2 (inventoryKey req.ItemID) 250
            (by decide) (by decide)
          rw [issue_data] at hseed
          refine hseed.trans (deductAndRespond_NonNegativeWrite _ _ _ _ _ hq1 (by decide) ?_)
          intro v hv
          rw [Set_data, issue_data] at hv
          split_ifs at hv with hf
          · rw [hd] at hv; exact absurd hv (by simp)
          · rw [put_same] at hv
            simp only [Option.some.injEq] at hv
            rw [← hv]
            exact Atoi_Itoa_fst 250 (by decide) (by decide)
        | some v0 =>
          simp only
          have h := deductAndRespond_NonNegativeWrite req rnd (inventoryKey req.ItemID)
            (Atoi v0).1 (c.issue (Cmd.GET (inventoryKey req.ItemID))).2 hq1
            (Atoi_range v0).2 (by
              intro v hv
              rw [issue_data, hd] at hv
              simp only [Option.some.injEq] at hv
              rw [hv])
          rw [issue_data] at h
          exact h

/-- Counters that read as numbers not negative stay so under such a write. -/
theorem NonNegativeWrite.preserves {d1 d2 : Data} {key : String}
    (h : NonNegativeWrite d1 d2 key) (hinv : CountersNonNegative d1) :
    CountersNonNegative d2 := by
  intro k v hv
  by_cases hk : k = key
  · subst hk
    exact h.read (fun w hw => hinv k w hw) v hv
  · rcases h with h | ⟨n, _, _, h⟩
    · rw [h] at hv; exact hinv k v hv
    · rw [h, put_other _ _ _ _ hk] at hv; exact hinv k v hv

/-- Counters that are texts of integers not negative stay so under such a write. -/
theorem NonNegativeWrite.preserves_stock {d1 d2 : Data} {key : String}
    (h : NonNegativeWrite d1 d2 key) (hinv : CountersAreStock d1) :
    CountersAreStock d2 := by
  intro k v hv
  rcases h with h | ⟨n, h0, h1, h⟩
  · rw [h] at hv; exact hinv k v hv
  · by_cases hk : k = key
    · subst hk
      rw [h, put_same] at hv
      simp only [Option.some.injEq] at hv
      exact ⟨n, h0, h1, hv.symm⟩
    · rw [h, put_other _ _ _ _ hk] at hv; exact hinv k v hv

/-- CLAIM C6. In sequential execution, for every store, valid request, random draw and
outcome of the store commands: if the handler answers available=true on the non-bypass path
(message "Inventory available"), whatever it leaves at the item's key reads as a number
>= 0, and on a reachable store the key then holds the text of an integer >= 0.
Consequently "every inventory counter reads >= 0" is preserved by every check, whatever the
body of the request, and so is "every inventory counter is the text of an integer >= 0". -/
theorem counter_never_negative (req : CheckInventoryRequest) (rnd : Draws) (c : Client)
    (hid : req.ItemID ≠ "") (hq : 0 < req.Quantity) :
    (∀ resp : CheckInventoryResponse,
        (CheckInventoryHandler (some req) rnd c).1 = respondWithJSON 200 resp →
        resp.Available = true → resp.Message = "Inventory available" →
        (∀ v, (CheckInventoryHandler (some req) rnd c).2.data (inventoryKey req.ItemID) = some v →
          0 ≤ (Atoi v).1) ∧
        (c.faults = [] → ∃ n : Int, 0 ≤ n ∧
          (CheckInventoryHandler (some req) rnd c).2.data (inventoryKey req.ItemID) =
            some (Itoa n))) ∧
      (∀ body : Option CheckInventoryRequest, CountersNonNegative c.data →
        CountersNonNegative (CheckInventoryHandler body rnd c).2.data) ∧
      (∀ body : Option CheckInventoryRequest, CountersAreStock c.data →
        CountersAreStock (CheckInventoryHandler body rnd c).2.data) := by
  refine ⟨?_, ?_, ?_⟩
  · intro resp hresp havail hmsg
    by_cases hf : c.faults.headD false = true
    · rw [CheckInventoryHandler_valid req rnd c hid hq, if_pos hf] at hresp
      simp only [respondWithJSON_check, Reply.mk.injEq, Payload.json.injEq, true_and] at hresp
      rw [← hresp] at hmsg
      simp only [bypassResponse] at hmsg
      exact absurd hmsg (by decide)
    · have hf2 : c.faults.headD false = false := by simpa using hf
      rw [CheckInventoryHandler_fst_of_read req rnd c hid hq hf2] at hresp
      simp only [respondWithJSON_check, Reply.mk.injEq, Payload.json.injEq, true_and] at hresp
      rw [← hresp] at havail
      simp only [decide_eq_true_eq] at havail
      constructor
      · refine (CheckInventoryHandler_NonNegativeWrite req rnd c).read ?_
        intro v hv
        simp only [readStock, hv] at havail
        omega
      · intro hreach
        rw [CheckInventoryHandler_reachable req rnd c hid hq hreach]
        cases hd : c.data (inventoryKey req.ItemID) with
        | none =>
          simp only [readStock, hd] at havail
          simp only
          rw [deductAndRespond_data_reachable _ _ _ _ _ rfl hq (by decide)]
          simp only [havail, if_true]
          have ha := rnd.amount.isLt
          split_ifs
          · exact ⟨_, by omega, put_same _ _ _⟩
          · exact ⟨_, by omega, put_same _ _ _⟩
        | some v =>
          simp only [readStock, hd] at havail
          simp only
          rw [deductAndRespond_data_reachable _ _ _ _ _ rfl hq (Atoi_range v).2]
          simp only [havail, if_true]
          have ha := rnd.amount.isLt
          split_ifs
          · exact ⟨_, by omega, put_same _ _ _⟩
          · exact ⟨_, by omega, put_same _ _ _⟩
  · intro body hinv
    cases body with
    | none => exact hinv
    | some req2 => exact (CheckInventoryHandler_NonNegativeWrite req2 rnd c).preserves hinv
  · intro body hinv
    cases body with
    | none => exact hinv
    | some req2 =>
      exact (CheckInventoryHandler_NonNegativeWrite req2 rnd c).preserves_stock hinv

/-- Witness of C6: stock 10, quantity 3, replenishment firing with amount 5. -/
theorem counter_never_negative_witness :
    ∃ n : Int, 0 ≤ n ∧
      (CheckInventoryHandler (some { ItemID := "a", Quantity := 3 })
          { replenish := 0, amount := 5 } (stockedClient "a" (Itoa 10) [])).2.data
          (inventoryKey "a") = some (Itoa n) :=
  ((counter_never_negative { ItemID := "a", Quantity := 3 } { replenish := 0, amount := 5 }
      (stockedClient "a" (Itoa 10) []) (by decide) (by decide)).1
    { Available := true
      CurrentStock := 10
      RequestedAmount := 3
      Message := "Inventory available" }
    (by
      rw [CheckInventoryHandler_fst_of_read { ItemID := "a", Quantity := 3 }
        { replenish := 0, amount := 5 } (stockedClient "a" (Itoa 10) []) (by decide)
        (by decide) rfl]
      have hs : readStock (stockedClient "a" (Itoa 10) []).data (inventoryKey "a") = 10 := by
        decide
      simp [hs])
    rfl rfl).2 rfl

/-! ## Rejected requests -/

/-- CLAIM C7. A request with an empty itemId or a quantity <= 0 is answered 400, with
"Item ID is required" when the itemId is empty and "Quantity must be greater than 0"
otherwise; the client is left exactly as it was (no command is issued, so the store is
neither read nor written), and a second identical request gets the same answer, whatever
the draws. -/
theorem check_invalid_request_rejected (req : CheckInventoryRequest) (rnd rnd2 : Draws)
    (c : Client) (hbad : req.ItemID = "" ∨ req.Quantity ≤ 0) :
    (CheckInventoryHandler (some req) rnd c).1 =
        respondWithError 400
          (if req.ItemID = "" then "Item ID is required"
            else "Quantity must be greater than 0") ∧
      (CheckInventoryHandler (some req) rnd c).2 = c ∧
      (CheckInventoryHandler (some req) rnd2 (CheckInventoryHandler (some req) rnd c).2).1 =
        (CheckInventoryHandler (some req) rnd c).1 := by
  by_cases hid : req.ItemID = ""
  · simp [CheckInventoryHandler, hid]
  · have hq : req.Quantity ≤ 0 := hbad.resolve_left hid
    simp [CheckInventoryHandler, hid, hq]

/-- Witness of C7: quantity 0 against a stocked item. -/
theorem check_invalid_request_rejected_witness :
    (CheckInventoryHandler (some { ItemID := "a", Quantity := 0 })
          { replenish := 0, amount := 0 } (stockedClient "a" (Itoa 10) [])).1 =
        respondWithError 400 "Quantity must be greater than 0" ∧
      (CheckInventoryHandler (some { ItemID := "a", Quantity := 0 })
          { replenish := 0, amount := 0 } (stockedClient "a" (Itoa 10) [])).2 =
        stockedClient "a" (Itoa 10) [] :=
  have h := check_invalid_request_rejected { ItemID := "a", Quantity := 0 }
    { replenish := 0, amount := 0 } { replenish := 0, amount := 0 }
    (stockedClient "a" (Itoa 10) []) (Or.inr (by decide))
  ⟨h.1, h.2.1⟩

/-! ## Order validation -/

/-- CLAIM C8. First failure wins: when a check of a decoded request fails, the response is
200 with valid=false and the error of the first failing check in the order customerName,
itemId, quantity > 0, quantity <= 10, whatever the random draw. -/
theorem validate_first_failure_wins (req : ValidateOrderRequest) (draw : ℚ)
    (hfail : req.CustomerName = "" ∨ req.ItemID = "" ∨ req.Quantity ≤ 0 ∨ 10 < req.Quantity) :
    ValidateOrderHandler (some req) draw =
      respondWithJSON 200
        { Valid := false
          Error :=
            if req.CustomerName = "" then "Customer name is required"
            else if req.ItemID = "" then "Item ID is required"
            else if req.Quantity ≤ 0 then "Quantity must be greater than 0"
            else "Quantity cannot exceed 10 items"
          Message := "" } := by
  unfold ValidateOrderHandler
  by_cases h1 : req.CustomerName = ""
  · simp [h1]
  · by_cases h2 : req.ItemID = ""
    · simp [h1, h2]
    · by_cases h3 : req.Quantity ≤ 0
      · simp [h1, h2, h3]
      · have h4 : 10 < req.Quantity := by
          rcases hfail with h | h | h | h
          · exact absurd h h1
          · exact absurd h h2
          · exact absurd h h3
          · exact h
        simp [h1, h2, h3, h4]

/-- Witness of C8: an empty customer name together with a quantity of 50. -/
theorem validate_first_failure_wins_witness :
    ValidateOrderHandler (some { ItemID := "a", Quantity := 50, CustomerName := "" }) 0 =
      respondWithJSON 200
        { Valid := false, Error := "Customer name is required", Message := "" } :=
  validate_first_failure_wins { ItemID := "a", Quantity := 50, CustomerName := "" } 0
    (Or.inl rfl)

/-- CLAIM C9. The response to a decoded request is 200 with a body whose valid flag is true
if and only if customerName and itemId are not empty, 1 <= quantity <= 10 and the draw is
not below the constant 0.02 of the comparison; a valid body carries the message
"Order validation successful" and no error; and when the four checks pass and the draw is
below the constant, the body is valid=false with "Validation temporarily unavailable". -/
theorem validate_valid_iff (req : ValidateOrderRequest) (draw : ℚ) :
    ∃ resp : ValidateOrderResponse,
      ValidateOrderHandler (some req) draw = respondWithJSON 200 resp ∧
      (resp.Valid = true ↔
        (req.CustomerName ≠ "" ∧ req.ItemID ≠ "" ∧ 1 ≤ req.Quantity ∧ req.Quantity ≤ 10 ∧
          float32_0_02 ≤ draw)) ∧
      (resp.Valid = true →
        resp = { Valid := true, Error := "", Message := "Order validation successful" }) ∧
      (req.CustomerName ≠ "" ∧ req.ItemID ≠ "" ∧ 1 ≤ req.Quantity ∧ req.Quantity ≤ 10 ∧
          draw < float32_0_02 →
        resp = { Valid := false, Error := "Validation temporarily unavailable",
                 Message := "" }) := by
  unfold ValidateOrderHandler
  by_cases h1 : req.CustomerName = ""
  · exact ⟨_, by simp only [h1, if_true]; rfl, by simp [h1], by simp, by simp [h1]⟩
  · by_cases h2 : req.ItemID = ""
    · exact ⟨_, by simp only [h1, h2, if_true, if_false]; rfl, by simp [h2], by simp,
        by simp [h2]⟩
    · by_cases h3 : req.Quantity ≤ 0
      · refine ⟨_, by simp only [h1, h2, h3, if_true, if_false]; rfl, ?_, by simp, ?_⟩
        · simp only [Bool.false_eq_true, false_iff, not_and]
          intro _ _ h; omega
        · intro h; omega
      · by_cases h4 : req.Quantity > 10
        · refine ⟨_, by simp only [h1, h2, h3, h4, if_true, if_false]; rfl, ?_, by simp, ?_⟩
          · simp only [Bool.false_eq_true, false_iff, not_and]
            intro _ _ _ h; omega
          · intro h; omega
        · by_cases h5 : draw < float32_0_02
          · refine ⟨_, by simp only [h1, h2, h3, h4, h5, if_true, if_false]; rfl, ?_, by simp,
              by simp⟩
            simp only [Bool.false_eq_true, false_iff, not_and, not_le]
            intro _ _ _ _; exact h5
          · refine ⟨_, by simp only [h1, h2, h3, h4, h5, if_false]; rfl, ?_, by simp, ?_⟩
            · simp only [true_iff]
              exact ⟨h1, h2, by omega, by omega, not_lt.1 h5⟩
            · intro h; exact absurd h.2.2.2.2 h5

/-- Witness of C9: a well-formed order of 3 items with the draw at 0.5. -/
theorem validate_valid_iff_witness :
    ∃ resp : ValidateOrderResponse,
      ValidateOrderHandler (some { ItemID := "a", Quantity := 3, CustomerName := "x" })
          (1 / 2) = respondWithJSON 200 resp ∧
      resp.Valid = true :=
  (validate_valid_iff { ItemID := "a", Quantity := 3, CustomerName := "x" } (1 / 2)).elim
    fun resp h =>
      ⟨resp, h.1, h.2.1.2 ⟨by decide, by decide, by decide, by decide,
        by norm_num [float32_0_02]⟩⟩

/-! ## The arithmetic of `float64` -/

theorem roundHalfEven_sub_le (y : ℚ) : |((roundHalfEven y : ℤ) : ℚ) - y| ≤ 1 / 2 := by
  have h1 := Int.floor_le y
  have h2 := Int.lt_floor_add_one y
  unfold roundHalfEven
  rw [abs_le]
  split_ifs with a b c
  · constructor <;> linarith
  · push_cast; constructor <;> linarith
  · constructor <;> linarith
  · push_cast; constructor <;> linarith

theorem roundHalfEven_eq (y : ℚ) (n : ℤ) (h1 : (n : ℚ) - 1 / 2 < y)
    (h2 : y < (n : ℚ) + 1 / 2) : roundHalfEven y = n := by
  have hf1 := Int.floor_le y
  have hf2 := Int.lt_floor_add_one y
  by_cases hc : (n : ℚ) ≤ y
  · have hfl : ⌊y⌋ = n := by
      rw [Int.floor_eq_iff]
      exact ⟨hc, by linarith⟩
    unfold roundHalfEven
    rw [hfl, if_pos (by linarith)]
  · have hfl : ⌊y⌋ = n - 1 := by
      rw [Int.floor_eq_iff]
      push_cast
      exact ⟨by linarith, by linarith⟩
    unfold roundHalfEven
    rw [hfl]
    push_cast
    rw [if_neg (by linarith), if_pos (by linarith)]
    ring

theorem F64.binade_eq (x : ℚ) (e : ℤ) (h1 : (2 : ℚ) ^ e ≤ |x|)
    (h2 : |x| < (2 : ℚ) ^ (e + 1)) (he : -1022 ≤ e) : F64.binade x = e := by
  have hpos : 0 < |x| := lt_of_lt_of_le (by positivity) h1
  have ha : e ≤ Int.log 2 |x| :=
    (Int.zpow_le_iff_le_log (by norm_num) hpos).1 (by exact_mod_cast h1)
  have hb : Int.log 2 |x| < e + 1 :=
    (Int.lt_zpow_iff_log_lt (by norm_num) hpos).1 (by exact_mod_cast h2)
  unfold F64.binade
  omega

/-- One rounding, checked from its exponent `e` and significand `n`: `x` lies in the
binade of `e`, whose spacing is `q`, strictly nearer to `n * q` than to its neighbours. -/
theorem F64.round_eq (x r : ℚ) (e n : ℤ) (q : ℚ) (hq : (2 : ℚ) ^ (e - 52) = q)
    (h1 : q * 2 ^ (52 : ℕ) ≤ |x|) (h2 : |x| < q * 2 ^ (53 : ℕ)) (he : -1022 ≤ e)
    (hlo : ((n : ℚ) - 1 / 2) * q < x) (hhi : x < ((n : ℚ) + 1 / 2) * q)
    (hfin : |(n : ℚ) * q| < 2 ^ (1024 : ℕ)) (hr : (n : ℚ) * q = r) :
    F64.round x = F64.finite r := by
  have hqpos : 0 < q := by rw [← hq]; positivity
  have e1 : (2 : ℚ) ^ e = q * 2 ^ (52 : ℕ) := by
    rw [← hq, zpow_sub₀ (by norm_num)]
    have : (2 : ℚ) ^ (52 : ℤ) = 2 ^ (52 : ℕ) := by norm_cast
    rw [this]; field_simp
  have e2 : (2 : ℚ) ^ (e + 1) = q * 2 ^ (53 : ℕ) := by
    rw [zpow_add_one₀ (by norm_num), e1]; ring
  have hbin : F64.binade x = e :=
    F64.binade_eq x e (by rw [e1]; exact h1) (by rw [e2]; exact h2) he
  have hquant : F64.quantum x = q := by
    unfold F64.quantum; rw [hbin, hq]
  have hn : roundHalfEven (x / q) = n := by
    apply roundHalfEven_eq
    · rw [lt_div_iff₀ hqpos]; exact hlo
    · rw [div_lt_iff₀ hqpos]; exact hhi
  unfold F64.round
  rw [hquant, hn, if_neg (not_le.2 hfin), hr]

theorem F64.round_zero : F64.round 0 = F64.finite 0 := by
  unfold F64.round roundHalfEven
  norm_num

/-- A tie goes to the even neighbour. -/
theorem roundHalfEven_tie (y : ℚ) (n : ℤ) (hy : y = (n : ℚ) + 1 / 2) (hn : n % 2 = 0) :
    roundHalfEven y = n := by
  have hfl : ⌊y⌋ = n := by
    rw [Int.floor_eq_iff, hy]
    exact ⟨by linarith, by linarith⟩
  unfold roundHalfEven
  rw [hfl, hy]
  rw [if_neg (by norm_num), if_neg (by norm_num), if_pos hn]

/-- One rounding of an exact tie, checked from its exponent `e` and the even significand
`n` below it. -/
theorem F64.round_tie (x r : ℚ) (e n : ℤ) (q : ℚ) (hq : (2 : ℚ) ^ (e - 52) = q)
    (h1 : q * 2 ^ (52 : ℕ) ≤ |x|) (h2 : |x| < q * 2 ^ (53 : ℕ)) (he : -1022 ≤ e)
    (hx : x = ((n : ℚ) + 1 / 2) * q) (hn : n % 2 = 0)
    (hfin : |(n : ℚ) * q| < 2 ^ (1024 : ℕ)) (hr : (n : ℚ) * q = r) :
    F64.round x = F64.finite r := by
  have hqpos : 0 < q := by rw [← hq]; positivity
  have e1 : (2 : ℚ) ^ e = q * 2 ^ (52 : ℕ) := by
    rw [← hq, zpow_sub₀ (by norm_num)]
    have : (2 : ℚ) ^ (52 : ℤ) = 2 ^ (52 : ℕ) := by norm_cast
    rw [this]; field_simp
  have e2 : (2 : ℚ) ^ (e + 1) = q * 2 ^ (53 : ℕ) := by
    rw [zpow_add_one₀ (by norm_num), e1]; ring
  have hbin : F64.binade x = e :=
    F64.binade_eq x e (by rw [e1]; exact h1) (by rw [e2]; exact h2) he
  have hquant : F64.quantum x = q := by
    unfold F64.quantum; rw [hbin, hq]
  have hn : roundHalfEven (x / q) = n := by
    apply roundHalfEven_tie _ _ _ hn
    rw [hx, mul_div_assoc, div_self (ne_of_gt hqpos), mul_one]
  unfold F64.round
  rw [hquant, hn, if_neg (not_le.2 hfin), hr]

/-- A rounding that leaves the range of `float64`: the result is the infinity of the sign. -/
theorem F64.round_overflow (x : ℚ) (e n : ℤ) (q : ℚ) (hq : (2 : ℚ) ^ (e - 52) = q)
    (h1 : q * 2 ^ (52 : ℕ) ≤ |x|) (h2 : |x| < q * 2 ^ (53 : ℕ)) (he : -1022 ≤ e)
    (hlo : ((n : ℚ) - 1 / 2) * q < x) (hhi : x < ((n : ℚ) + 1 / 2) * q)
    (hbig : (2 : ℚ) ^ (1024 : ℕ) ≤ |(n : ℚ) * q|) (hpos : 0 ≤ x) :
    F64.round x = F64.posInf := by
  have hqpos : 0 < q := by rw [← hq]; positivity
  have e1 : (2 : ℚ) ^ e = q * 2 ^ (52 : ℕ) := by
    rw [← hq, zpow_sub₀ (by norm_num)]
    have : (2 : ℚ) ^ (52 : ℤ) = 2 ^ (52 : ℕ) := by norm_cast
    rw [this]; field_simp
  have e2 : (2 : ℚ) ^ (e + 1) = q * 2 ^ (53 : ℕ) := by
    rw [zpow_add_one₀ (by norm_num), e1]; ring
  have hbin : F64.binade x = e :=
    F64.binade_eq x e (by rw [e1]; exact h1) (by rw [e2]; exact h2) he
  have hquant : F64.quantum x = q := by
    unfold F64.quantum; rw [hbin, hq]
  have hn : roundHalfEven (x / q) = n := by
    apply roundHalfEven_eq
    · rw [lt_div_iff₀ hqpos]; exact hlo
    · rw [div_lt_iff₀ hqpos]; exact hhi
  unfold F64.round
  rw [hquant, hn, if_pos hbig, if_neg (not_lt.2 hpos)]

/-- A positive exact result in the normal range rounds to a number within the unit roundoff
of it, relatively. -/
theorem F64.round_pos_bounds (x : ℚ) (hlo : 1 / 2 ^ (1022 : ℕ) ≤ x)
    (hhi : x < 2 ^ (1023 : ℕ)) :
    ∃ r : ℚ, F64.round x = F64.finite r ∧
      x * (1 - unitRoundoff) ≤ r ∧ r ≤ x * (1 + unitRoundoff) := by
  unfold unitRoundoff
  have hx : 0 < x := lt_of_lt_of_le (by positivity) hlo
  have habs : |x| = x := abs_of_pos hx
  have hb1 : (2 : ℚ) ^ Int.log 2 x ≤ x := by
    have := Int.zpow_log_le_self (b := 2) (r := x) (by norm_num) hx
    exact_mod_cast this
  have hb3 : -1022 ≤ Int.log 2 x := by
    apply (Int.zpow_le_iff_le_log (b := 2) (by norm_num) hx).1
    have : ((2 : ℕ) : ℚ) ^ (-1022 : ℤ) = 1 / 2 ^ (1022 : ℕ) := by
      rw [zpow_neg, one_div]; norm_cast
    rw [this]; exact hlo
  have hbin : F64.binade x = Int.log 2 x := by
    unfold F64.binade
    rw [habs]
    exact max_eq_left hb3
  have hq : F64.quantum x = (2 : ℚ) ^ Int.log 2 x / 2 ^ (52 : ℕ) := by
    unfold F64.quantum
    rw [hbin, zpow_sub₀ (by norm_num)]
    norm_cast
  have hqpos : 0 < F64.quantum x := by rw [hq]; positivity
  have hqle : F64.quantum x ≤ x / 2 ^ (52 : ℕ) := by
    rw [hq]
    exact div_le_div_of_nonneg_right hb1 (by positivity)
  have hn := roundHalfEven_sub_le (x / F64.quantum x)
  rw [abs_le] at hn
  have hxq : x / F64.quantum x * F64.quantum x = x := div_mul_cancel₀ x (ne_of_gt hqpos)
  have hr1 : x - F64.quantum x / 2 ≤
      ((roundHalfEven (x / F64.quantum x) : ℤ) : ℚ) * F64.quantum x := by
    have := mul_le_mul_of_nonneg_right hn.1 (le_of_lt hqpos)
    nlinarith
  have hr2 : ((roundHalfEven (x / F64.quantum x) : ℤ) : ℚ) * F64.quantum x ≤
      x + F64.quantum x / 2 := by
    have := mul_le_mul_of_nonneg_right hn.2 (le_of_lt hqpos)
    nlinarith
  have hhalf : F64.quantum x / 2 ≤ x * (1 / 2 ^ (53 : ℕ)) := by
    have e : x * (1 / 2 ^ (53 : ℕ)) = x / 2 ^ (52 : ℕ) / 2 := by ring
    rw [e]; linarith
  have hlow : x * (1 - 1 / 2 ^ (53 : ℕ)) ≤
      ((roundHalfEven (x / F64.quantum x) : ℤ) : ℚ) * F64.quantum x := by linarith
  have hup : ((roundHalfEven (x / F64.quantum x) : ℤ) : ℚ) * F64.quantum x ≤
      x * (1 + 1 / 2 ^ (53 : ℕ)) := by linarith
  have hrpos : 0 ≤ ((roundHalfEven (x / F64.quantum x) : ℤ) : ℚ) * F64.quantum x := by
    have : (0 : ℚ) ≤ x * (1 - 1 / 2 ^ (53 : ℕ)) := by
      apply mul_nonneg (le_of_lt hx); norm_num
    linarith
  have hfin : ¬ ((2 : ℚ) ^ (1024 : ℕ) ≤
      |((roundHalfEven (x / F64.quantum x) : ℤ) : ℚ) * F64.quantum x|) := by
    rw [abs_of_nonneg hrpos, not_le]
    have h2 : x * (1 + 1 / 2 ^ (53 : ℕ)) ≤ x * 2 := by
      apply mul_le_mul_of_nonneg_left _ (le_of_lt hx); norm_num
    have h3 : x * 2 < 2 ^ (1023 : ℕ) * 2 := by linarith
    have e : (2 : ℚ) ^ (1023 : ℕ) * 2 = 2 ^ (1024 : ℕ) := by norm_num
    linarith
  refine ⟨_, ?_, hlow, hup⟩
  unfold F64.round
  rw [if_neg hfin]

/-- Each `float64` constant of the price rules has a 53-bit significand and lies within
half a unit in the last place of its decimal: it is the `float64` nearest to the decimal. -/
theorem float64_constants_nearest :
    (float64_0_15 = 5404319552844595 / 2 ^ 55 ∧ |float64_0_15 - 15 / 100| < 1 / 2 ^ 56) ∧
      (float64_0_1 = 7205759403792794 / 2 ^ 56 ∧ |float64_0_1 - 1 / 10| < 1 / 2 ^ 57) ∧
      (float64_1_1 = 4953959590107546 / 2 ^ 52 ∧ |float64_1_1 - 11 / 10| < 1 / 2 ^ 53) ∧
      (float64_1_2 = 5404319552844595 / 2 ^ 52 ∧ |float64_1_2 - 12 / 10| < 1 / 2 ^ 53) ∧
      (float64_0_85 = 7656119366529843 / 2 ^ 53 ∧ |float64_0_85 - 85 / 100| < 1 / 2 ^ 54) ∧
      (float64_0_9 = 8106479329266893 / 2 ^ 53 ∧ |float64_0_9 - 9 / 10| < 1 / 2 ^ 54) ∧
      (float64_1_32 = 5944751508129055 / 2 ^ 52 ∧ |float64_1_32 - 132 / 100| < 1 / 2 ^ 53) := by
  simp only [float64_0_15, float64_0_1, float64_1_1, float64_1_2, float64_0_85, float64_0_9,
    float64_1_32, abs_lt]
  norm_num

/-- In `float64`, `1 - 0.15` is `0.85`. -/
theorem F64.sub_one_0_15 :
    F64.sub (F64.finite 1) (F64.finite float64_0_15) = F64.finite float64_0_85 := by
  unfold F64.sub float64_0_15 float64_0_85
  exact F64.round_eq _ _ (-1) 7656119366529843 (1 / 2 ^ (53 : ℕ)) (by norm_num)
    (by norm_num [abs_of_pos]) (by norm_num [abs_of_pos]) (by norm_num) (by norm_num)
    (by norm_num) (by norm_num [abs_of_pos]) (by norm_num)

/-- In `float64`, `1 - 0.1` is `0.9`. -/
theorem F64.sub_one_0_1 :
    F64.sub (F64.finite 1) (F64.finite float64_0_1) = F64.finite float64_0_9 := by
  unfold F64.sub float64_0_1 float64_0_9
  exact F64.round_eq _ _ (-1) 8106479329266893 (1 / 2 ^ (53 : ℕ)) (by norm_num)
    (by norm_num [abs_of_pos]) (by norm_num [abs_of_pos]) (by norm_num) (by norm_num)
    (by norm_num) (by norm_num [abs_of_pos]) (by norm_num)

/-- In `float64`, `1.1 * 1.2` is `1.32`. -/
theorem F64.mul_1_1_1_2 :
    F64.mul (F64.finite float64_1_1) (F64.finite float64_1_2) = F64.finite float64_1_32 := by
  unfold F64.mul float64_1_1 float64_1_2 float64_1_32
  exact F64.round_eq _ _ 0 5944751508129055 (1 / 2 ^ (52 : ℕ)) (by norm_num)
    (by norm_num [abs_of_pos]) (by norm_num [abs_of_pos]) (by norm_num) (by norm_num)
    (by norm_num) (by norm_num [abs_of_pos]) (by norm_num)

/-- In `float64`, `1 * 1.2` is `1.2`. -/
theorem F64.mul_1_1_2 :
    F64.mul (F64.finite 1) (F64.finite float64_1_2) = F64.finite float64_1_2 := by
  unfold F64.mul float64_1_2
  exact F64.round_eq _ _ 0 5404319552844595 (1 / 2 ^ (52 : ℕ)) (by norm_num)
    (by norm_num [abs_of_pos]) (by norm_num [abs_of_pos]) (by norm_num) (by norm_num)
    (by norm_num) (by norm_num [abs_of_pos]) (by norm_num)

/-! ## The chain of products of the price -/

theorem unitRoundoff_facts :
    0 ≤ unitRoundoff ∧ 0 ≤ 1 - unitRoundoff ∧ 1 / 2 ≤ 1 - unitRoundoff ∧
      1 + unitRoundoff ≤ 2 ∧ 0 ≤ 1 + unitRoundoff := by
  unfold unitRoundoff
  norm_num

/-- One product of the chain: a number `r` known between `L` and `U`, times a constant
between 1/2 and 2. -/
theorem F64.mul_step (r c L U : ℚ) (hc1 : 1 / 2 ≤ c) (hc2 : c ≤ 2) (hL : L ≤ r)
    (hU : r ≤ U) (hlo : 1 / 2 ^ (1020 : ℕ) ≤ r) (hhi : r ≤ 2 ^ (1020 : ℕ)) :
    ∃ t : ℚ, F64.mul (F64.finite r) (F64.finite c) = F64.finite t ∧
      L * c * (1 - unitRoundoff) ≤ t ∧ t ≤ U * c * (1 + unitRoundoff) ∧
      r / 4 ≤ t ∧ t ≤ 4 * r := by
  obtain ⟨hu0, hu1, hu2, hu3, hu4⟩ := unitRoundoff_facts
  have hr : 0 < r := lt_of_lt_of_le (by positivity) hlo
  have hc0 : 0 ≤ c := by linarith
  have hx1 : 1 / 2 ^ (1022 : ℕ) ≤ r * c := by
    have h1 : r * (1 / 2) ≤ r * c := mul_le_mul_of_nonneg_left hc1 (le_of_lt hr)
    have h2 : (1 : ℚ) / 2 ^ (1022 : ℕ) ≤ 1 / 2 ^ (1020 : ℕ) * (1 / 2) := by norm_num
    have h3 : (1 : ℚ) / 2 ^ (1020 : ℕ) * (1 / 2) ≤ r * (1 / 2) :=
      mul_le_mul_of_nonneg_right hlo (by norm_num)
    linarith
  have hx2 : r * c < 2 ^ (1023 : ℕ) := by
    have h1 : r * c ≤ r * 2 := mul_le_mul_of_nonneg_left hc2 (le_of_lt hr)
    have h2 : r * 2 ≤ 2 ^ (1020 : ℕ) * 2 := mul_le_mul_of_nonneg_right hhi (by norm_num)
    have h3 : (2 : ℚ) ^ (1020 : ℕ) * 2 < 2 ^ (1023 : ℕ) := by norm_num
    linarith
  obtain ⟨t, ht, ht1, ht2⟩ := F64.round_pos_bounds (r * c) hx1 hx2
  refine ⟨t, by unfold F64.mul; exact ht, ?_, ?_, ?_, ?_⟩
  · have h1 : L * c * (1 - unitRoundoff) ≤ r * c * (1 - unitRoundoff) :=
      mul_le_mul_of_nonneg_right (mul_le_mul_of_nonneg_right hL hc0) hu1
    linarith
  · have h1 : r * c * (1 + unitRoundoff) ≤ U * c * (1 + unitRoundoff) :=
      mul_le_mul_of_nonneg_right (mul_le_mul_of_nonneg_right hU hc0) hu4
    linarith
  · have h1 : r * (1 / 2) ≤ r * c := mul_le_mul_of_nonneg_left hc1 (le_of_lt hr)
    have h2 : r * c * (1 / 2) ≤ r * c * (1 - unitRoundoff) :=
      mul_le_mul_of_nonneg_left hu2 (by positivity)
    linarith
  · have h1 : r * c ≤ r * 2 := mul_le_mul_of_nonneg_left hc2 (le_of_lt hr)
    have h2 : r * c * (1 + unitRoundoff) ≤ r * c * 2 :=
      mul_le_mul_of_nonneg_left hu3 (by positivity)
    linarith

/-- A product of the chain that is taken only under a condition. -/
theorem F64.mul_step_if (p : Prop) [Decidable p] (r c L U : ℚ) (hc1 : 1 / 2 ≤ c)
    (hc2 : c ≤ 2) (hL : L ≤ r) (hU : r ≤ U)
    (hlo : 1 / 2 ^ (1020 : ℕ) ≤ r) (hhi : r ≤ 2 ^ (1020 : ℕ)) :
    ∃ t : ℚ, (if p then F64.mul (F64.finite r) (F64.finite c) else F64.finite r) =
        F64.finite t ∧
      L * (if p then c else 1) * (1 - unitRoundoff) ≤ t ∧
      t ≤ U * (if p then c else 1) * (1 + unitRoundoff) ∧
      r / 4 ≤ t ∧ t ≤ 4 * r := by
  obtain ⟨hu0, hu1, hu2, hu3, hu4⟩ := unitRoundoff_facts
  have hr : 0 < r := lt_of_lt_of_le (by positivity) hlo
  by_cases hp : p
  · simp only [hp, if_true]
    exact F64.mul_step r c L U hc1 hc2 hL hU hlo hhi
  · simp only [hp, if_false]
    refine ⟨r, rfl, ?_, ?_, by linarith, by linarith⟩
    · rcases le_total 0 L with hL0 | hL0
      · have : L * 1 * (1 - unitRoundoff) ≤ L * 1 * 1 :=
          mul_le_mul_of_nonneg_left (by linarith) (by linarith)
        linarith
      · have : L * 1 * (1 - unitRoundoff) ≤ 0 :=
          mul_nonpos_of_nonpos_of_nonneg (by linarith) hu1
        linarith
    · have hU0 : 0 ≤ U := by linarith
      have : U * 1 * 1 ≤ U * 1 * (1 + unitRoundoff) :=
        mul_le_mul_of_nonneg_left (by linarith) (by linarith)
      linarith

theorem float64_factor_range (h : Nat) :
    (1 / 2 ≤ timeFactor64 h ∧ timeFactor64 h ≤ 2) ∧
      (1 / 2 ≤ float64_0_9 ∧ float64_0_9 ≤ 2) ∧ (1 / 2 ≤ float64_1_2 ∧ float64_1_2 ≤ 2) := by
  unfold timeFactor64 float64_0_85 float64_1_1 float64_0_9 float64_1_2
  refine ⟨?_, by norm_num, by norm_num⟩
  split_ifs <;> norm_num

/-- The first products of `CalculatePriceHandler`, whichever branch is taken: the base
total times the time-of-day factor. -/
theorem total1_eq (a : F64) (h : Nat) :
    (if h ≥ 14 ∧ h < 16 then
        F64.mul a (F64.sub (F64.finite 1)
          (if h ≥ 14 ∧ h < 16 then F64.finite float64_0_15 else F64.finite 0))
      else
        F64.mul a (if (h ≥ 7 ∧ h < 9) ∨ (h ≥ 12 ∧ h < 13) then F64.finite float64_1_1
          else F64.finite 1)) =
      F64.mul a (F64.finite (timeFactor64 h)) := by
  unfold timeFactor64
  by_cases h1 : 14 ≤ h ∧ h < 16
  · simp only [ge_iff_le, h1, and_self, if_true, F64.sub_one_0_15]
  · by_cases h2 : (7 ≤ h ∧ h < 9) ∨ (12 ≤ h ∧ h < 13)
    · simp only [ge_iff_le, h1, h2, if_true, if_false]
    · simp only [ge_iff_le, h1, h2, if_false]

/-- The total before rounding, for a request whose products stay in the normal range of
`float64`: it is a number, within five roundings of the exact product of the base total and
the three `float64` factors. -/
theorem unroundedTotal_bounds (req : CalculatePriceRequest) (h : Nat) (surge : ℚ)
    (hq : 0 < req.Quantity) (hqmax : req.Quantity ≤ maxInt64)
    (hlo : 1 / 2 ^ (1000 : ℕ) ≤ req.BasePrice)
    (hhi : req.BasePrice * (req.Quantity : ℚ) ≤ 2 ^ (1000 : ℕ)) :
    ∃ t : ℚ, unroundedTotal req h surge = F64.finite t ∧
      req.BasePrice * (req.Quantity : ℚ) * timeFactor64 h * bulkFactor64 req.Quantity *
          surgeFactor64 surge * (1 - unitRoundoff) ^ 5 ≤ t ∧
      t ≤ req.BasePrice * (req.Quantity : ℚ) * timeFactor64 h * bulkFactor64 req.Quantity *
          surgeFactor64 surge * (1 + unitRoundoff) ^ 5 ∧
      1 / 2 ^ (1010 : ℕ) ≤ t ∧ t ≤ 2 ^ (1010 : ℕ) := by
  obtain ⟨hu0, hu1, hu2, hu3, hu4⟩ := unitRoundoff_facts
  obtain ⟨⟨hT1, hT2⟩, ⟨hB1, hB2⟩, ⟨hS1, hS2⟩⟩ := float64_factor_range h
  have hbp : 0 < req.BasePrice := lt_of_lt_of_le (by positivity) hlo
  have hq1 : (1 : ℚ) ≤ (req.Quantity : ℚ) := by exact_mod_cast hq
  have hq2 : (req.Quantity : ℚ) ≤ 9223372036854775807 := by
    simp only [maxInt64] at hqmax
    exact_mod_cast hqmax
  -- the conversion of the quantity
  obtain ⟨q', hq', hq'1, hq'2⟩ := F64.round_pos_bounds (req.Quantity : ℚ)
    (le_trans (by norm_num) hq1) (lt_of_le_of_lt hq2 (by norm_num))
  -- the base total
  have hX0lo : 1 / 2 ^ (1000 : ℕ) ≤ req.BasePrice * (req.Quantity : ℚ) := by
    have : req.BasePrice * 1 ≤ req.BasePrice * (req.Quantity : ℚ) :=
      mul_le_mul_of_nonneg_left hq1 (le_of_lt hbp)
    linarith
  have hx1 : req.BasePrice * (req.Quantity : ℚ) * (1 - unitRoundoff) ≤ req.BasePrice * q' := by
    have := mul_le_mul_of_nonneg_left hq'1 (le_of_lt hbp)
    linarith
  have hx2 : req.BasePrice * q' ≤ req.BasePrice * (req.Quantity : ℚ) * (1 + unitRoundoff) := by
    have := mul_le_mul_of_nonneg_left hq'2 (le_of_lt hbp)
    linarith
  have hX0pos : 0 < req.BasePrice * (req.Quantity : ℚ) := by positivity
  have hx3 : 1 / 2 ^ (1001 : ℕ) ≤ req.BasePrice * q' := by
    have h1 : req.BasePrice * (req.Quantity : ℚ) * (1 / 2) ≤
        req.BasePrice * (req.Quantity : ℚ) * (1 - unitRoundoff) :=
      mul_le_mul_of_nonneg_left hu2 (le_of_lt hX0pos)
    have h2 : (1 : ℚ) / 2 ^ (1001 : ℕ) = 1 / 2 ^ (1000 : ℕ) * (1 / 2) := by norm_num
    have h3 : (1 : ℚ) / 2 ^ (1000 : ℕ) * (1 / 2) ≤
        req.BasePrice * (req.Quantity : ℚ) * (1 / 2) :=
      mul_le_mul_of_nonneg_right hX0lo (by norm_num)
    linarith
  have hx4 : req.BasePrice * q' ≤ 2 ^ (1001 : ℕ) := by
    have h1 : req.BasePrice * (req.Quantity : ℚ) * (1 + unitRoundoff) ≤
        req.BasePrice * (req.Quantity : ℚ) * 2 :=
      mul_le_mul_of_nonneg_left hu3 (le_of_lt hX0pos)
    have h2 : (2 : ℚ) ^ (1001 : ℕ) = 2 ^ (1000 : ℕ) * 2 := by norm_num
    have h3 : req.BasePrice * (req.Quantity : ℚ) * 2 ≤ 2 ^ (1000 : ℕ) * 2 :=
      mul_le_mul_of_nonneg_right hhi (by norm_num)
    linarith
  obtain ⟨t0, ht0, ht01, ht02⟩ := F64.round_pos_bounds (req.BasePrice * q')
    (le_trans (by norm_num) hx3) (lt_of_le_of_lt hx4 (by norm_num))
  have hx5 : 0 < req.BasePrice * q' := lt_of_lt_of_le (by positivity) hx3
  have ht0lo : 1 / 2 ^ (1002 : ℕ) ≤ t0 := by
    have h1 : req.BasePrice * q' * (1 / 2) ≤ req.BasePrice * q' * (1 - unitRoundoff) :=
      mul_le_mul_of_nonneg_left hu2 (le_of_lt hx5)
    have h2 : (1 : ℚ) / 2 ^ (1002 : ℕ) = 1 / 2 ^ (1001 : ℕ) * (1 / 2) := by norm_num
    have h3 : (1 : ℚ) / 2 ^ (1001 : ℕ) * (1 / 2) ≤ req.BasePrice * q' * (1 / 2) :=
      mul_le_mul_of_nonneg_right hx3 (by norm_num)
    linarith
  have ht0hi : t0 ≤ 2 ^ (1002 : ℕ) := by
    have h1 : req.BasePrice * q' * (1 + unitRoundoff) ≤ req.BasePrice * q' * 2 :=
      mul_le_mul_of_nonneg_left hu3 (le_of_lt hx5)
    have h2 : (2 : ℚ) ^ (1002 : ℕ) = 2 ^ (1001 : ℕ) * 2 := by norm_num
    have h3 : req.BasePrice * q' * 2 ≤ 2 ^ (1001 : ℕ) * 2 :=
      mul_le_mul_of_nonneg_right hx4 (by norm_num)
    linarith
  have ht0L : req.BasePrice * (req.Quantity : ℚ) * (1 - unitRoundoff) ^ 2 ≤ t0 := by
    have := mul_le_mul_of_nonneg_right hx1 hu1
    nlinarith
  have ht0U : t0 ≤ req.BasePrice * (req.Quantity : ℚ) * (1 + unitRoundoff) ^ 2 := by
    have := mul_le_mul_of_nonneg_right hx2 hu4
    nlinarith
  have h0 : F64.mul (F64.finite req.BasePrice) (F64.ofInt req.Quantity) = F64.finite t0 := by
    unfold F64.ofInt
    rw [hq']
    unfold F64.mul
    exact ht0
  -- the time-of-day factor
  obtain ⟨t1, ht1, ht1L, ht1U, ht1lo, ht1hi⟩ := F64.mul_step t0 (timeFactor64 h) _ _ hT1 hT2
    ht0L ht0U (le_trans (by norm_num) ht0lo) (le_trans ht0hi (by norm_num))
  have ht1lo' : 1 / 2 ^ (1004 : ℕ) ≤ t1 := by
    have : (1 : ℚ) / 2 ^ (1004 : ℕ) = 1 / 2 ^ (1002 : ℕ) / 4 := by norm_num
    linarith
  have ht1hi' : t1 ≤ 2 ^ (1004 : ℕ) := by
    have : (2 : ℚ) ^ (1004 : ℕ) = 4 * 2 ^ (1002 : ℕ) := by norm_num
    linarith
  -- the bulk factor
  obtain ⟨t2, ht2, ht2L, ht2U, ht2lo, ht2hi⟩ := F64.mul_step_if (req.Quantity ≥ 5) t1
    float64_0_9 _ _ hB1 hB2 ht1L ht1U (le_trans (by norm_num) ht1lo')
    (le_trans ht1hi' (by norm_num))
  have ht2lo' : 1 / 2 ^ (1006 : ℕ) ≤ t2 := by
    have : (1 : ℚ) / 2 ^ (1006 : ℕ) = 1 / 2 ^ (1004 : ℕ) / 4 := by norm_num
    linarith
  have ht2hi' : t2 ≤ 2 ^ (1006 : ℕ) := by
    have : (2 : ℚ) ^ (1006 : ℕ) = 4 * 2 ^ (1004 : ℕ) := by norm_num
    linarith
  -- the surge factor
  obtain ⟨t3, ht3, ht3L, ht3U, ht3lo, ht3hi⟩ := F64.mul_step_if (surge < float32_0_1) t2
    float64_1_2 _ _ hS1 hS2 ht2L ht2U (le_trans (by norm_num) ht2lo')
    (le_trans ht2hi' (by norm_num))
  refine ⟨t3, ?_, ?_, ?_, ?_, ?_⟩
  · unfold unroundedTotal
    simp only
    rw [total1_eq, F64.sub_one_0_1, h0, ht1, ht2, ht3]
  · unfold bulkFactor64 surgeFactor64
    simp only [ge_iff_le] at ht3L
    calc _ = req.BasePrice * (req.Quantity : ℚ) * (1 - unitRoundoff) ^ 2 * timeFactor64 h *
          (1 - unitRoundoff) * (if 5 ≤ req.Quantity then float64_0_9 else 1) *
          (1 - unitRoundoff) * (if surge < float32_0_1 then float64_1_2 else 1) *
          (1 - unitRoundoff) := by ring
      _ ≤ t3 := ht3L
  · unfold bulkFactor64 surgeFactor64
    simp only [ge_iff_le] at ht3U
    calc t3 ≤ req.BasePrice * (req.Quantity : ℚ) * (1 + unitRoundoff) ^ 2 * timeFactor64 h *
          (1 + unitRoundoff) * (if 5 ≤ req.Quantity then float64_0_9 else 1) *
          (1 + unitRoundoff) * (if surge < float32_0_1 then float64_1_2 else 1) *
          (1 + unitRoundoff) := ht3U
      _ = _ := by ring
  · have : (1 : ℚ) / 2 ^ (1010 : ℕ) ≤ 1 / 2 ^ (1006 : ℕ) / 4 := by norm_num
    linarith
  · have : (4 : ℚ) * 2 ^ (1006 : ℕ) ≤ 2 ^ (1010 : ℕ) := by norm_num
    linarith

/-- A request that passes both guards is answered by `respondWithJSON` with status 200 and the
response struct `priceResponse`. -/
theorem CalculatePriceHandler_valid (req : CalculatePriceRequest) (h : Nat) (surge : ℚ)
    (hbp : 0 < req.BasePrice) (hq : 0 < req.Quantity) :
    CalculatePriceHandler (some req) h surge =
      respondWithJSON 200 (priceResponse req h surge) := by
  have hd : F64.finite float64_0_15 ≠ F64.finite 0 := by
    rw [Ne, F64.finite.injEq]; norm_num [float64_0_15]
  unfold CalculatePriceHandler priceResponse roundedTotal unroundedTotal discount64 multiplier64
  simp only [not_le.2 hbp, not_le.2 hq, if_false, ge_iff_le]
  congr 2
  · by_cases h1 : 14 ≤ h ∧ h < 16
    · simp only [h1, and_self, if_true, hd, if_false, ite_self]
    · simp only [h1, if_false, if_true]
      split_ifs <;> rfl
  · by_cases h2 : (7 ≤ h ∧ h < 9) ∨ (12 ≤ h ∧ h < 13)
    · simp only [h2, if_true, F64.mul_1_1_1_2]
      split_ifs <;> rfl
    · simp only [h2, if_false, F64.mul_1_1_2]
      split_ifs <;> rfl

/-- What `respondWithJSON` writes for that struct: `json.Marshal` fails exactly when the
rounded total is not a number. -/
theorem respondWithJSON_price (req : CalculatePriceRequest) (h : Nat) (surge : ℚ) :
    respondWithJSON 200 (priceResponse req h surge) =
      if (roundedTotal req h surge).isFinite = true then
        { code := 200, payload := Payload.json (priceResponse req h surge) }
      else { code := 200, payload := Payload.empty } := by
  unfold respondWithJSON
  have : Marshals.ok (priceResponse req h surge) = (roundedTotal req h surge).isFinite := by
    show ((roundedTotal req h surge).isFinite && true && true) = _
    simp
  rw [this]

theorem mathRound_nonneg (y : ℚ) (hy : 0 ≤ y) : mathRound y = ((⌊y + 1 / 2⌋ : ℤ) : ℚ) := by
  unfold mathRound
  rw [if_pos hy]

/-- The quotient of a whole number of cents that is not negative and below 2^1022 by 100 is a
number, within the unit roundoff of the exact quotient, relatively. -/
theorem F64.round_cents_finite (k : ℤ) (hk : 0 ≤ k) (hhi : (k : ℚ) < 2 ^ (1022 : ℕ)) :
    ∃ r : ℚ, F64.round ((k : ℚ) / 100) = F64.finite r ∧
      |r - (k : ℚ) / 100| ≤ (k : ℚ) / 100 * unitRoundoff := by
  rcases eq_or_lt_of_le hk with h0 | hpos
  · refine ⟨0, ?_, ?_⟩
    · rw [← h0]
      simp only [Int.cast_zero, zero_div]
      exact F64.round_zero
    · rw [← h0]
      simp
  · have h1 : (1 : ℚ) ≤ (k : ℚ) := by exact_mod_cast hpos
    obtain ⟨r, hr, hr1, hr2⟩ := F64.round_pos_bounds ((k : ℚ) / 100)
      (by
        have : (1 : ℚ) / 2 ^ (1022 : ℕ) ≤ 1 / 100 := by norm_num
        have h2 : (1 : ℚ) / 100 ≤ (k : ℚ) / 100 := by linarith
        linarith)
      (by
        have h2 : (k : ℚ) / 100 ≤ (k : ℚ) := by linarith
        have h3 : (2 : ℚ) ^ (1022 : ℕ) < 2 ^ (1023 : ℕ) := by norm_num
        linarith)
    refine ⟨r, hr, ?_⟩
    rw [abs_le]
    constructor <;> linarith

/-- The rounding to cents of line 85, for a request whose products stay in the normal
range: the total times 100 is a number `y` within one rounding of the exact product, and
the rounded total is the `float64` nearest to the whole number of cents nearest to `y`,
over 100. -/
theorem roundedTotal_bounds (req : CalculatePriceRequest) (h : Nat) (surge : ℚ)
    (hq : 0 < req.Quantity) (hqmax : req.Quantity ≤ maxInt64)
    (hlo : 1 / 2 ^ (1000 : ℕ) ≤ req.BasePrice)
    (hhi : req.BasePrice * (req.Quantity : ℚ) ≤ 2 ^ (1000 : ℕ)) :
    ∃ y : ℚ, 0 < y ∧
      100 * exactTotal64 req h surge * (1 - unitRoundoff) ^ 6 ≤ y ∧
      y ≤ 100 * exactTotal64 req h surge * (1 + unitRoundoff) ^ 6 ∧
      roundedTotal req h surge = F64.round (((⌊y + 1 / 2⌋ : ℤ) : ℚ) / 100) ∧
      ∃ r : ℚ, F64.round (((⌊y + 1 / 2⌋ : ℤ) : ℚ) / 100) = F64.finite r ∧
        |r - ((⌊y + 1 / 2⌋ : ℤ) : ℚ) / 100| ≤
          ((⌊y + 1 / 2⌋ : ℤ) : ℚ) / 100 * unitRoundoff := by
  obtain ⟨hu0, hu1, hu2, hu3, hu4⟩ := unitRoundoff_facts
  obtain ⟨t, ht, htL, htU, htlo, hthi⟩ := unroundedTotal_bounds req h surge hq hqmax hlo hhi
  have htpos : 0 < t := lt_of_lt_of_le (by positivity) htlo
  have hx1 : 1 / 2 ^ (1022 : ℕ) ≤ t * 100 := by
    have : (1 : ℚ) / 2 ^ (1022 : ℕ) ≤ 1 / 2 ^ (1010 : ℕ) := by norm_num
    linarith
  have hx2 : t * 100 < 2 ^ (1020 : ℕ) := by
    have : (2 : ℚ) ^ (1010 : ℕ) * 100 < 2 ^ (1020 : ℕ) := by norm_num
    linarith
  obtain ⟨y, hy, hy1, hy2⟩ := F64.round_pos_bounds (t * 100) hx1
    (lt_trans hx2 (by norm_num))
  have hypos : 0 < y := by
    have : 0 < t * 100 * (1 - unitRoundoff) :=
      mul_pos (mul_pos htpos (by norm_num)) (by linarith)
    linarith
  have hkpos : 0 ≤ ⌊y + 1 / 2⌋ := Int.floor_nonneg.2 (by linarith)
  have hkhi : ((⌊y + 1 / 2⌋ : ℤ) : ℚ) < 2 ^ (1022 : ℕ) := by
    have h1 : ((⌊y + 1 / 2⌋ : ℤ) : ℚ) ≤ y + 1 / 2 := Int.floor_le _
    have h2 : t * 100 * (1 + unitRoundoff) ≤ t * 100 * 2 :=
      mul_le_mul_of_nonneg_left hu3 (le_of_lt (mul_pos htpos (by norm_num)))
    have h3 : (2 : ℚ) ^ (1020 : ℕ) * 2 + 1 / 2 < 2 ^ (1022 : ℕ) := by norm_num
    linarith
  have hE : exactTotal64 req h surge =
      req.BasePrice * (req.Quantity : ℚ) * timeFactor64 h * bulkFactor64 req.Quantity *
        surgeFactor64 surge := rfl
  refine ⟨y, hypos, ?_, ?_, ?_, F64.round_cents_finite _ hkpos hkhi⟩
  · have h1 : exactTotal64 req h surge * (1 - unitRoundoff) ^ 5 * 100 * (1 - unitRoundoff) ≤
        t * 100 * (1 - unitRoundoff) := by
      rw [hE]
      exact mul_le_mul_of_nonneg_right (mul_le_mul_of_nonneg_right htL (by norm_num)) hu1
    calc 100 * exactTotal64 req h surge * (1 - unitRoundoff) ^ 6
        = exactTotal64 req h surge * (1 - unitRoundoff) ^ 5 * 100 * (1 - unitRoundoff) := by
          ring
      _ ≤ y := by linarith
  · have h1 : t * 100 * (1 + unitRoundoff) ≤
        exactTotal64 req h surge * (1 + unitRoundoff) ^ 5 * 100 * (1 + unitRoundoff) := by
      rw [hE]
      exact mul_le_mul_of_nonneg_right (mul_le_mul_of_nonneg_right htU (by norm_num)) hu4
    calc y ≤ exactTotal64 req h surge * (1 + unitRoundoff) ^ 5 * 100 * (1 + unitRoundoff) := by
          linarith
      _ = 100 * exactTotal64 req h surge * (1 + unitRoundoff) ^ 6 := by ring
  · unfold roundedTotal
    rw [ht]
    have hm : F64.mul (F64.finite t) (F64.finite 100) = F64.finite y := by
      unfold F64.mul; exact hy
    rw [hm]
    unfold F64.mathRound
    simp only
    rw [mathRound_nonneg y (le_of_lt hypos)]
    unfold F64.div
    simp only
    rw [if_neg (by norm_num)]

/-- The three `float64` factors against the decimal factors of the specification: their
product, with six roundings more, stays within 2^-49 of the decimal product, relatively. -/
theorem factor64_close (h : Nat) (q : Int) (surge : ℚ) :
    timeFactor h * bulkFactor q * surgeFactor surge * (1 - 1 / 2 ^ 49) ≤
        timeFactor64 h * bulkFactor64 q * surgeFactor64 surge * (1 - unitRoundoff) ^ 6 ∧
      timeFactor64 h * bulkFactor64 q * surgeFactor64 surge * (1 + unitRoundoff) ^ 6 ≤
        timeFactor h * bulkFactor q * surgeFactor surge * (1 + 1 / 2 ^ 49) := by
  unfold timeFactor bulkFactor surgeFactor timeFactor64 bulkFactor64 surgeFactor64
    unitRoundoff float64_0_85 float64_1_1 float64_0_9 float64_1_2
  split_ifs <;> norm_num

/-- The number of cents before `math.Round`, against the decimal product of the
specification. -/
theorem cents_close (req : CalculatePriceRequest) (h : Nat) (surge : ℚ) (y : ℚ)
    (hbp : 0 ≤ req.BasePrice) (hq : 0 ≤ req.Quantity)
    (h1 : 100 * exactTotal64 req h surge * (1 - unitRoundoff) ^ 6 ≤ y)
    (h2 : y ≤ 100 * exactTotal64 req h surge * (1 + unitRoundoff) ^ 6) :
    |y - 100 * decimalTotal req h surge| ≤ 100 * decimalTotal req h surge / 2 ^ 49 := by
  obtain ⟨hc1, hc2⟩ := factor64_close h req.Quantity surge
  have hq0 : (0 : ℚ) ≤ (req.Quantity : ℚ) := by exact_mod_cast hq
  have hX : 0 ≤ 100 * (req.BasePrice * (req.Quantity : ℚ)) := by positivity
  have e1 := mul_le_mul_of_nonneg_left hc1 hX
  have e2 := mul_le_mul_of_nonneg_left hc2 hX
  unfold exactTotal64 at h1 h2
  unfold decimalTotal
  rw [abs_le]
  constructor
  · nlinarith
  · nlinarith

/-- The chain of products of `unroundedTotal`, one rounding at a time. -/
theorem unroundedTotal_of (req : CalculatePriceRequest) (h : Nat) (surge : ℚ)
    (q t0 t1 t2 t3 : ℚ) (h0 : F64.ofInt req.Quantity = F64.finite q)
    (h1 : F64.mul (F64.finite req.BasePrice) (F64.finite q) = F64.finite t0)
    (h2 : F64.mul (F64.finite t0) (F64.finite (timeFactor64 h)) = F64.finite t1)
    (h3 : (if req.Quantity ≥ 5 then F64.mul (F64.finite t1) (F64.finite float64_0_9)
      else F64.finite t1) = F64.finite t2)
    (h4 : (if surge < float32_0_1 then F64.mul (F64.finite t2) (F64.finite float64_1_2)
      else F64.finite t2) = F64.finite t3) :
    unroundedTotal req h surge = F64.finite t3 := by
  unfold unroundedTotal
  simp only
  rw [total1_eq, F64.sub_one_0_1, h0, h1, h2, h3, h4]

/-- The rounding to cents of line 85, one rounding at a time. -/
theorem roundedTotal_of (req : CalculatePriceRequest) (h : Nat) (surge : ℚ)
    (t y r : ℚ) (k : ℤ) (ht : unroundedTotal req h surge = F64.finite t)
    (hy : F64.mul (F64.finite t) (F64.finite 100) = F64.finite y) (hy0 : 0 ≤ y)
    (hk1 : (k : ℚ) ≤ y + 1 / 2) (hk2 : y + 1 / 2 < (k : ℚ) + 1)
    (hr : F64.round ((k : ℚ) / 100) = F64.finite r) :
    roundedTotal req h surge = F64.finite r := by
  have hk : ⌊y + 1 / 2⌋ = k := Int.floor_eq_iff.2 ⟨hk1, hk2⟩
  unfold roundedTotal
  rw [ht, hy]
  unfold F64.mathRound
  simp only
  rw [mathRound_nonneg y hy0, hk]
  unfold F64.div
  simp only
  rw [if_neg (by norm_num), hr]

/-- The sample (10, 1, h=10) with the surge off: the total is 10. -/
theorem price_sample_plain (item : String) (surge : ℚ) (hoff : ¬ surge < float32_0_1) :
    unroundedTotal { ItemID := item, Quantity := 1, BasePrice := 10 } 10 surge =
        F64.finite 10 ∧
      roundedTotal { ItemID := item, Quantity := 1, BasePrice := 10 } 10 surge =
        F64.finite 10 := by
  have hT : timeFactor64 10 = 1 := by
    unfold timeFactor64
    norm_num
  have ht : unroundedTotal { ItemID := item, Quantity := 1, BasePrice := 10 } 10 surge =
      F64.finite 10 := by
    refine unroundedTotal_of _ _ _ 1 10 10 10 10 ?_ ?_ ?_ ?_ ?_
    · show F64.round _ = _
      exact F64.round_eq _ _ 0 4503599627370496 (1 / 2 ^ (52 : ℕ)) (by norm_num)
        (by norm_num [abs_of_pos]) (by norm_num [abs_of_pos]) (by norm_num) (by norm_num)
        (by norm_num) (by norm_num [abs_of_pos]) (by norm_num)
    · unfold F64.mul
      exact F64.round_eq _ _ 3 5629499534213120 (1 / 2 ^ (49 : ℕ)) (by norm_num)
        (by norm_num [abs_of_pos]) (by norm_num [abs_of_pos]) (by norm_num) (by norm_num)
        (by norm_num) (by norm_num [abs_of_pos]) (by norm_num)
    · rw [hT]
      unfold F64.mul
      exact F64.round_eq _ _ 3 5629499534213120 (1 / 2 ^ (49 : ℕ)) (by norm_num)
        (by norm_num [abs_of_pos]) (by norm_num [abs_of_pos]) (by norm_num) (by norm_num)
        (by norm_num) (by norm_num [abs_of_pos]) (by norm_num)
    · rw [if_neg (show ¬ (1 : Int) ≥ 5 by decide)]
    · rw [if_neg hoff]
  refine ⟨ht, roundedTotal_of _ _ _ _ 1000 _ 1000 ht ?_ (by norm_num) (by norm_num)
    (by norm_num) ?_⟩
  · unfold F64.mul
    exact F64.round_eq _ _ 9 8796093022208000 (1 / 2 ^ (43 : ℕ)) (by norm_num)
      (by norm_num [abs_of_pos]) (by norm_num [abs_of_pos]) (by norm_num) (by norm_num)
      (by norm_num) (by norm_num [abs_of_pos]) (by norm_num)
  · exact F64.round_eq _ _ 3 5629499534213120 (1 / 2 ^ (49 : ℕ)) (by norm_num)
      (by norm_num [abs_of_pos]) (by norm_num [abs_of_pos]) (by norm_num) (by norm_num)
      (by norm_num) (by norm_num [abs_of_pos]) (by norm_num)

/-- The sample (10, 6, h=10) with the surge off: the total is 54. -/
theorem price_sample_bulk (item : String) (surge : ℚ) (hoff : ¬ surge < float32_0_1) :
    unroundedTotal { ItemID := item, Quantity := 6, BasePrice := 10 } 10 surge =
        F64.finite 54 ∧
      roundedTotal { ItemID := item, Quantity := 6, BasePrice := 10 } 10 surge =
        F64.finite 54 := by
  have hT : timeFactor64 10 = 1 := by
    unfold timeFactor64
    norm_num
  have ht : unroundedTotal { ItemID := item, Quantity := 6, BasePrice := 10 } 10 surge =
      F64.finite 54 := by
    refine unroundedTotal_of _ _ _ 6 60 60 54 54 ?_ ?_ ?_ ?_ ?_
    · show F64.round _ = _
      exact F64.round_eq _ _ 2 6755399441055744 (1 / 2 ^ (50 : ℕ)) (by norm_num)
        (by norm_num [abs_of_pos]) (by norm_num [abs_of_pos]) (by norm_num) (by norm_num)
        (by norm_num) (by norm_num [abs_of_pos]) (by norm_num)
    · unfold F64.mul
      exact F64.round_eq _ _ 5 8444249301319680 (1 / 2 ^ (47 : ℕ)) (by norm_num)
        (by norm_num [abs_of_pos]) (by norm_num [abs_of_pos]) (by norm_num) (by norm_num)
        (by norm_num) (by norm_num [abs_of_pos]) (by norm_num)
    · rw [hT]
      unfold F64.mul
      exact F64.round_eq _ _ 5 8444249301319680 (1 / 2 ^ (47 : ℕ)) (by norm_num)
        (by norm_num [abs_of_pos]) (by norm_num [abs_of_pos]) (by norm_num) (by norm_num)
        (by norm_num) (by norm_num [abs_of_pos]) (by norm_num)
    · rw [if_pos (show (6 : Int) ≥ 5 by decide)]
      unfold F64.mul float64_0_9
      exact F64.round_eq _ _ 5 7599824371187712 (1 / 2 ^ (47 : ℕ)) (by norm_num)
        (by norm_num [abs_of_pos]) (by norm_num [abs_of_pos]) (by norm_num) (by norm_num)
        (by norm_num) (by norm_num [abs_of_pos]) (by norm_num)
    · rw [if_neg hoff]
  refine ⟨ht, roundedTotal_of _ _ _ _ 5400 _ 5400 ht ?_ (by norm_num) (by norm_num)
    (by norm_num) ?_⟩
  · unfold F64.mul
    exact F64.round_eq _ _ 12 5937362789990400 (1 / 2 ^ (40 : ℕ)) (by norm_num)
      (by norm_num [abs_of_pos]) (by norm_num [abs_of_pos]) (by norm_num) (by norm_num)
      (by norm_num) (by norm_num [abs_of_pos]) (by norm_num)
  · exact F64.round_eq _ _ 5 7599824371187712 (1 / 2 ^ (47 : ℕ)) (by norm_num)
      (by norm_num [abs_of_pos]) (by norm_num [abs_of_pos]) (by norm_num) (by norm_num)
      (by norm_num) (by norm_num [abs_of_pos]) (by norm_num)

/-- The sample (10, 1, h=15) with the surge off: the total is 8.5. -/
theorem price_sample_offpeak (item : String) (surge : ℚ) (hoff : ¬ surge < float32_0_1) :
    unroundedTotal { ItemID := item, Quantity := 1, BasePrice := 10 } 15 surge =
        F64.finite (17 / 2) ∧
      roundedTotal { ItemID := item, Quantity := 1, BasePrice := 10 } 15 surge =
        F64.finite (17 / 2) := by
  have hT : timeFactor64 15 = float64_0_85 := by
    unfold timeFactor64
    norm_num
  have ht : unroundedTotal { ItemID := item, Quantity := 1, BasePrice := 10 } 15 surge =
      F64.finite (17 / 2) := by
    refine unroundedTotal_of _ _ _ 1 10 (17 / 2) (17 / 2) (17 / 2) ?_ ?_ ?_ ?_ ?_
    · show F64.round _ = _
      exact F64.round_eq _ _ 0 4503599627370496 (1 / 2 ^ (52 : ℕ)) (by norm_num)
        (by norm_num [abs_of_pos]) (by norm_num [abs_of_pos]) (by norm_num) (by norm_num)
        (by norm_num) (by norm_num [abs_of_pos]) (by norm_num)
    · unfold F64.mul
      exact F64.round_eq _ _ 3 5629499534213120 (1 / 2 ^ (49 : ℕ)) (by norm_num)
        (by norm_num [abs_of_pos]) (by norm_num [abs_of_pos]) (by norm_num) (by norm_num)
        (by norm_num) (by norm_num [abs_of_pos]) (by norm_num)
    · rw [hT]
      unfold F64.mul float64_0_85
      exact F64.round_eq _ _ 3 4785074604081152 (1 / 2 ^ (49 : ℕ)) (by norm_num)
        (by norm_num [abs_of_pos]) (by norm_num [abs_of_pos]) (by norm_num) (by norm_num)
        (by norm_num) (by norm_num [abs_of_pos]) (by norm_num)
    · rw [if_neg (show ¬ (1 : Int) ≥ 5 by decide)]
    · rw [if_neg hoff]
  refine ⟨ht, roundedTotal_of _ _ _ _ 850 _ 850 ht ?_ (by norm_num) (by norm_num)
    (by norm_num) ?_⟩
  · unfold F64.mul
    exact F64.round_eq _ _ 9 7476679068876800 (1 / 2 ^ (43 : ℕ)) (by norm_num)
      (by norm_num [abs_of_pos]) (by norm_num [abs_of_pos]) (by norm_num) (by norm_num)
      (by norm_num) (by norm_num [abs_of_pos]) (by norm_num)
  · exact F64.round_eq _ _ 3 4785074604081152 (1 / 2 ^ (49 : ℕ)) (by norm_num)
      (by norm_num [abs_of_pos]) (by norm_num [abs_of_pos]) (by norm_num) (by norm_num)
      (by norm_num) (by norm_num [abs_of_pos]) (by norm_num)

/-- Three at 7 units in the off-peak window with the surge off: the products give
16.064999999999998 and the total is the `float64` of 16.06. -/
theorem price_sample_both (item : String) (surge : ℚ) (hoff : ¬ surge < float32_0_1) :
    unroundedTotal { ItemID := item, Quantity := 7, BasePrice := 3 } 15 surge =
        F64.finite (282618468803543 / 17592186044416) ∧
      roundedTotal { ItemID := item, Quantity := 7, BasePrice := 3 } 15 surge =
        F64.finite (4520488125973135 / 281474976710656) := by
  have hT : timeFactor64 15 = float64_0_85 := by
    unfold timeFactor64
    norm_num
  have ht : unroundedTotal { ItemID := item, Quantity := 7, BasePrice := 3 } 15 surge =
      F64.finite (282618468803543 / 17592186044416) := by
    refine unroundedTotal_of _ _ _ 7 21 (5024328334285209 / 281474976710656) (282618468803543 / 17592186044416) (282618468803543 / 17592186044416) ?_ ?_ ?_ ?_ ?_
    · show F64.round _ = _
      exact F64.round_eq _ _ 2 7881299347898368 (1 / 2 ^ (50 : ℕ)) (by norm_num)
        (by norm_num [abs_of_pos]) (by norm_num [abs_of_pos]) (by norm_num) (by norm_num)
        (by norm_num) (by norm_num [abs_of_pos]) (by norm_num)
    · unfold F64.mul
      exact F64.round_eq _ _ 4 5910974510923776 (1 / 2 ^ (48 : ℕ)) (by norm_num)
        (by norm_num [abs_of_pos]) (by norm_num [abs_of_pos]) (by norm_num) (by norm_num)
        (by norm_num) (by norm_num [abs_of_pos]) (by norm_num)
    · rw [hT]
      unfold F64.mul float64_0_85
      exact F64.round_eq _ _ 4 5024328334285209 (1 / 2 ^ (48 : ℕ)) (by norm_num)
        (by norm_num [abs_of_pos]) (by norm_num [abs_of_pos]) (by norm_num) (by norm_num)
        (by norm_num) (by norm_num [abs_of_pos]) (by norm_num)
    · rw [if_pos (show (7 : Int) ≥ 5 by decide)]
      unfold F64.mul float64_0_9
      exact F64.round_eq _ _ 4 4521895500856688 (1 / 2 ^ (48 : ℕ)) (by norm_num)
        (by norm_num [abs_of_pos]) (by norm_num [abs_of_pos]) (by norm_num) (by norm_num)
        (by norm_num) (by norm_num [abs_of_pos]) (by norm_num)
    · rw [if_neg hoff]
  refine ⟨ht, roundedTotal_of _ _ _ _ (7065461720088575 / 4398046511104) _ 1606 ht ?_ (by norm_num) (by norm_num)
    (by norm_num) ?_⟩
  · unfold F64.mul
    exact F64.round_eq _ _ 10 7065461720088575 (1 / 2 ^ (42 : ℕ)) (by norm_num)
      (by norm_num [abs_of_pos]) (by norm_num [abs_of_pos]) (by norm_num) (by norm_num)
      (by norm_num) (by norm_num [abs_of_pos]) (by norm_num)
  · exact F64.round_eq _ _ 4 4520488125973135 (1 / 2 ^ (48 : ℕ)) (by norm_num)
      (by norm_num [abs_of_pos]) (by norm_num [abs_of_pos]) (by norm_num) (by norm_num)
      (by norm_num) (by norm_num [abs_of_pos]) (by norm_num)

/-- Ten at 1 unit in a rush hour with the surge on: the products give
13.199999999999999. -/
theorem price_sample_rush_surge (item : String) (surge : ℚ) (hon : surge < float32_0_1) :
    unroundedTotal { ItemID := item, Quantity := 1, BasePrice := 10 } 8 surge =
        F64.finite (3715469692580659 / 281474976710656) ∧
      roundedTotal { ItemID := item, Quantity := 1, BasePrice := 10 } 8 surge =
        F64.finite (3715469692580659 / 281474976710656) := by
  have hT : timeFactor64 8 = float64_1_1 := by
    unfold timeFactor64
    norm_num
  have ht : unroundedTotal { ItemID := item, Quantity := 1, BasePrice := 10 } 8 surge =
      F64.finite (3715469692580659 / 281474976710656) := by
    refine unroundedTotal_of _ _ _ 1 10 11 11 (3715469692580659 / 281474976710656) ?_ ?_ ?_ ?_ ?_
    · show F64.round _ = _
      exact F64.round_eq _ _ 0 4503599627370496 (1 / 2 ^ (52 : ℕ)) (by norm_num)
        (by norm_num [abs_of_pos]) (by norm_num [abs_of_pos]) (by norm_num) (by norm_num)
        (by norm_num) (by norm_num [abs_of_pos]) (by norm_num)
    · unfold F64.mul
      exact F64.round_eq _ _ 3 5629499534213120 (1 / 2 ^ (49 : ℕ)) (by norm_num)
        (by norm_num [abs_of_pos]) (by norm_num [abs_of_pos]) (by norm_num) (by norm_num)
        (by norm_num) (by norm_num [abs_of_pos]) (by norm_num)
    · rw [hT]
      unfold F64.mul float64_1_1
      exact F64.round_tie _ _ 3 6192449487634432 (1 / 2 ^ (49 : ℕ)) (by norm_num)
        (by norm_num [abs_of_pos]) (by norm_num [abs_of_pos]) (by norm_num) (by norm_num)
        (by decide) (by norm_num [abs_of_pos]) (by norm_num)
    · rw [if_neg (show ¬ (1 : Int) ≥ 5 by decide)]
    · rw [if_pos hon]
      unfold F64.mul float64_1_2
      exact F64.round_eq _ _ 3 7430939385161318 (1 / 2 ^ (49 : ℕ)) (by norm_num)
        (by norm_num [abs_of_pos]) (by norm_num [abs_of_pos]) (by norm_num) (by norm_num)
        (by norm_num) (by norm_num [abs_of_pos]) (by norm_num)
  refine ⟨ht, roundedTotal_of _ _ _ _ 1320 _ 1320 ht ?_ (by norm_num) (by norm_num)
    (by norm_num) ?_⟩
  · unfold F64.mul
    exact F64.round_eq _ _ 10 5805421394657280 (1 / 2 ^ (42 : ℕ)) (by norm_num)
      (by norm_num [abs_of_pos]) (by norm_num [abs_of_pos]) (by norm_num) (by norm_num)
      (by norm_num) (by norm_num [abs_of_pos]) (by norm_num)
  · exact F64.round_eq _ _ 3 7430939385161318 (1 / 2 ^ (49 : ℕ)) (by norm_num)
      (by norm_num [abs_of_pos]) (by norm_num [abs_of_pos]) (by norm_num) (by norm_num)
      (by norm_num) (by norm_num [abs_of_pos]) (by norm_num)

/-- The reply to a request that passes both guards: the response struct when its total is a
number, an empty body otherwise. -/
theorem CalculatePriceHandler_reply (req : CalculatePriceRequest) (h : Nat) (surge : ℚ)
    (hbp : 0 < req.BasePrice) (hq : 0 < req.Quantity) :
    CalculatePriceHandler (some req) h surge =
      if (roundedTotal req h surge).isFinite = true then
        { code := 200, payload := Payload.json (priceResponse req h surge) }
      else { code := 200, payload := Payload.empty } := by
  rw [CalculatePriceHandler_valid req h surge hbp hq, respondWithJSON_price]

theorem roundedTotal_finite (req : CalculatePriceRequest) (h : Nat) (surge : ℚ)
    (hq : 0 < req.Quantity) (hqmax : req.Quantity ≤ maxInt64)
    (hlo : 1 / 2 ^ (1000 : ℕ) ≤ req.BasePrice)
    (hhi : req.BasePrice * (req.Quantity : ℚ) ≤ 2 ^ (1000 : ℕ)) :
    (roundedTotal req h surge).isFinite = true := by
  obtain ⟨y, _, _, _, hr, r, hfin, _⟩ := roundedTotal_bounds req h surge hq hqmax hlo hhi
  rw [hr, hfin]
  rfl

theorem F64.mul_posInf (c : ℚ) (hc : 0 < c) : F64.mul F64.posInf (F64.finite c) = F64.posInf := by
  unfold F64.mul
  simp only [ne_of_gt hc, if_false, hc, if_true]

theorem timeFactor64_pos (h : Nat) : 0 < timeFactor64 h := by
  have := (float64_factor_range h).1.1
  linarith

/-- Two units at 2^1023 each: the base total leaves the range of `float64` and the total
stays infinite to the end, at every hour and whatever the surge draw. -/
theorem roundedTotal_overflow (item : String) (h : Nat) (surge : ℚ) :
    roundedTotal { ItemID := item, Quantity := 2, BasePrice := 2 ^ 1023 } h surge =
      F64.posInf := by
  have c0 : F64.ofInt 2 = F64.finite 2 := by
    unfold F64.ofInt
    exact F64.round_eq _ _ 1 4503599627370496 (1 / 2 ^ (51 : ℕ)) (by norm_num)
      (by norm_num [abs_of_pos]) (by norm_num [abs_of_pos]) (by norm_num) (by norm_num)
      (by norm_num) (by norm_num [abs_of_pos]) (by norm_num)
  have c1 : F64.mul (F64.finite (2 ^ 1023)) (F64.finite 2) = F64.posInf := by
    unfold F64.mul
    exact F64.round_overflow _ 1024 4503599627370496 (2 ^ (972 : ℕ)) (by norm_num)
      (by norm_num [abs_of_pos]) (by norm_num [abs_of_pos]) (by norm_num) (by norm_num)
      (by norm_num) (by norm_num [abs_of_pos]) (by norm_num)
  have ht : unroundedTotal { ItemID := item, Quantity := 2, BasePrice := 2 ^ 1023 } h surge =
      F64.posInf := by
    unfold unroundedTotal
    simp only
    rw [total1_eq, F64.sub_one_0_1, c0, c1, F64.mul_posInf _ (timeFactor64_pos h),
      if_neg (show ¬ (2 : Int) ≥ 5 by decide)]
    split_ifs
    · exact F64.mul_posInf _ (by norm_num [float64_1_2])
    · rfl
  unfold roundedTotal
  rw [ht, F64.mul_posInf _ (by norm_num)]
  unfold F64.mathRound F64.div
  simp only
  rw [if_pos (by norm_num)]

/-- In `float64`, a multiplier times 1 is the multiplier. -/
theorem F64.mul_one_multiplier :
    F64.mul (F64.finite float64_1_1) (F64.finite 1) = F64.finite float64_1_1 ∧
      F64.mul (F64.finite 1) (F64.finite 1) = F64.finite 1 := by
  constructor
  · unfold F64.mul float64_1_1
    exact F64.round_eq _ _ 0 4953959590107546 (1 / 2 ^ (52 : ℕ)) (by norm_num)
      (by norm_num [abs_of_pos]) (by norm_num [abs_of_pos]) (by norm_num) (by norm_num)
      (by norm_num) (by norm_num [abs_of_pos]) (by norm_num)
  · unfold F64.mul
    exact F64.round_eq _ _ 0 4503599627370496 (1 / 2 ^ (52 : ℕ)) (by norm_num)
      (by norm_num [abs_of_pos]) (by norm_num [abs_of_pos]) (by norm_num) (by norm_num)
      (by norm_num) (by norm_num [abs_of_pos]) (by norm_num)

/-! ## Price calculation -/

/-- CLAIM C10 (amended). For a decoded request the response is 400 if and only if
basePrice <= 0 or quantity <= 0; it is then the error "Base price must be greater than 0"
when basePrice <= 0 and "Quantity must be greater than 0" otherwise, carrying no price.
Otherwise the status is 200 and the handler hands `respondWithJSON` a response struct that
echoes basePrice and quantity unchanged; the struct is the body exactly when its totalPrice is
a number: when the total has overflowed to an infinity `json.Marshal` fails and the body is
empty. The total is a number whenever quantity is a 64-bit integer, basePrice >= 2^-1000
and basePrice * quantity <= 2^1000. -/
theorem price_rejects_iff (req : CalculatePriceRequest) (hour : Nat) (surge : ℚ) :
    ((CalculatePriceHandler (some req) hour surge).code = 400 ↔
        (req.BasePrice ≤ 0 ∨ req.Quantity ≤ 0)) ∧
      (req.BasePrice ≤ 0 ∨ req.Quantity ≤ 0 →
        CalculatePriceHandler (some req) hour surge =
          respondWithError 400
            (if req.BasePrice ≤ 0 then "Base price must be greater than 0"
              else "Quantity must be greater than 0")) ∧
      (¬ (req.BasePrice ≤ 0 ∨ req.Quantity ≤ 0) →
        ∃ resp : CalculatePriceResponse,
          CalculatePriceHandler (some req) hour surge = respondWithJSON 200 resp ∧
          (CalculatePriceHandler (some req) hour surge).code = 200 ∧
          resp.BasePrice = req.BasePrice ∧ resp.Quantity = req.Quantity ∧
          (resp.TotalPrice.isFinite = true →
            CalculatePriceHandler (some req) hour surge =
              { code := 200, payload := Payload.json resp }) ∧
          (resp.TotalPrice.isFinite = false →
            CalculatePriceHandler (some req) hour surge =
              { code := 200, payload := Payload.empty }) ∧
          (req.Quantity ≤ maxInt64 → 1 / 2 ^ (1000 : ℕ) ≤ req.BasePrice →
            req.BasePrice * (req.Quantity : ℚ) ≤ 2 ^ (1000 : ℕ) →
            resp.TotalPrice.isFinite = true)) := by
  by_cases h1 : req.BasePrice ≤ 0
  · unfold CalculatePriceHandler
    simp [h1, respondWithError]
  · by_cases h2 : req.Quantity ≤ 0
    · unfold CalculatePriceHandler
      simp [h1, h2, respondWithError]
    · have hrep := CalculatePriceHandler_reply req hour surge (not_le.1 h1) (not_le.1 h2)
      have hcode : (CalculatePriceHandler (some req) hour surge).code = 200 := by
        rw [hrep]
        split_ifs <;> rfl
      refine ⟨?_, ?_, ?_⟩
      · rw [hcode]
        simp [h1, h2]
      · intro h
        rcases h with h | h
        · exact absurd h h1
        · exact absurd h h2
      · intro _
        refine ⟨priceResponse req hour surge,
          CalculatePriceHandler_valid req hour surge (not_le.1 h1) (not_le.1 h2), hcode,
          rfl, rfl, ?_, ?_, ?_⟩
        · intro hfin
          have hfin2 : (roundedTotal req hour surge).isFinite = true := hfin
          rw [hrep, if_pos hfin2]
        · intro hinf
          have hinf2 : (roundedTotal req hour surge).isFinite = false := hinf
          rw [hrep, hinf2, if_neg (by decide)]
        · intro hqmax hlo hhi
          exact roundedTotal_finite req hour surge (not_le.1 h2) hqmax hlo hhi

/-- Witness of C10: a base price of 0, then two units at 10 each at 10 o'clock. -/
theorem price_rejects_iff_witness :
    CalculatePriceHandler (some { ItemID := "a", Quantity := 2, BasePrice := 0 }) 10 (1 / 2) =
        respondWithError 400 "Base price must be greater than 0" ∧
      ∃ resp : CalculatePriceResponse,
        CalculatePriceHandler (some { ItemID := "a", Quantity := 2, BasePrice := 10 }) 10
            (1 / 2) = { code := 200, payload := Payload.json resp } ∧
          resp.BasePrice = 10 ∧ resp.Quantity = 2 :=
  ⟨by
      have h := (price_rejects_iff { ItemID := "a", Quantity := 2, BasePrice := 0 } 10
        (1 / 2)).2.1 (Or.inl (le_refl (0 : ℚ)))
      simpa using h,
    by
      obtain ⟨resp, _, _, h2, h3, h4, _, h6⟩ :=
        (price_rejects_iff { ItemID := "a", Quantity := 2, BasePrice := 10 } 10
          (1 / 2)).2.2 (by norm_num)
      exact ⟨resp, h4 (h6 (by decide) (by norm_num) (by norm_num)), h2, h3⟩⟩

/-- COUNTEREXAMPLE to C10 as stated. Two units at 2^1023 each pass both guards, the total
overflows, `json.Marshal` fails, and the 200 is written with an empty body: neither
basePrice nor quantity is echoed. -/
theorem price_overflow_echoes_nothing :
    CalculatePriceHandler (some { ItemID := "a", Quantity := 2, BasePrice := 2 ^ 1023 }) 10 1 =
      { code := 200, payload := Payload.empty } := by
  rw [CalculatePriceHandler_reply _ _ _ (by norm_num) (by norm_num), roundedTotal_overflow]
  rfl

/-- CLAIM C12 (amended). The reported discount is the first discount met, never a sum. For
every valid request, hour and surge draw the handler hands `respondWithJSON` a response
struct whose discount is the `float64` of 0.15 in the off-peak window [14,16) whatever the
quantity, the `float64` of 0.10 outside that window when quantity >= 5, and 0 otherwise.
The struct is the body, and the discount is reported, exactly when its totalPrice is a
number, which it is whenever quantity is a 64-bit integer, basePrice >= 2^-1000 and
basePrice * quantity <= 2^1000; a valid request whose total has overflowed is answered
with an empty body. -/
theorem price_discount_first (req : CalculatePriceRequest) (h : Nat) (surge : ℚ)
    (hbp : 0 < req.BasePrice) (hq : 0 < req.Quantity) :
    (∃ resp : CalculatePriceResponse,
        CalculatePriceHandler (some req) h surge = respondWithJSON 200 resp ∧
        resp.Discount =
          F64.finite
            (if 14 ≤ h ∧ h < 16 then float64_0_15
              else if 5 ≤ req.Quantity then float64_0_1
              else 0) ∧
        (resp.TotalPrice.isFinite = true →
          CalculatePriceHandler (some req) h surge =
            { code := 200, payload := Payload.json resp }) ∧
        (resp.TotalPrice.isFinite = false →
          CalculatePriceHandler (some req) h surge =
            { code := 200, payload := Payload.empty }) ∧
        (req.Quantity ≤ maxInt64 → 1 / 2 ^ (1000 : ℕ) ≤ req.BasePrice →
          req.BasePrice * (req.Quantity : ℚ) ≤ 2 ^ (1000 : ℕ) →
          resp.TotalPrice.isFinite = true)) ∧
      |float64_0_15 - 15 / 100| < 1 / 2 ^ 56 ∧ |float64_0_1 - 10 / 100| < 1 / 2 ^ 57 := by
  have hrep := CalculatePriceHandler_reply req h surge hbp hq
  refine ⟨⟨priceResponse req h surge, CalculatePriceHandler_valid req h surge hbp hq, rfl,
    ?_, ?_, ?_⟩, ?_, ?_⟩
  · intro hfin
    have hfin2 : (roundedTotal req h surge).isFinite = true := hfin
    rw [hrep, if_pos hfin2]
  · intro hinf
    have hinf2 : (roundedTotal req h surge).isFinite = false := hinf
    rw [hrep, hinf2, if_neg (by decide)]
  · intro hqmax hlo hhi
    exact roundedTotal_finite req h surge hq hqmax hlo hhi
  · rw [abs_lt]
    norm_num [float64_0_15]
  · rw [abs_lt]
    norm_num [float64_0_1]

/-- Witness of C12: six items at 15 o'clock report the off-peak discount alone. -/
theorem price_discount_first_witness :
    ∃ resp : CalculatePriceResponse,
      CalculatePriceHandler (some { ItemID := "a", Quantity := 6, BasePrice := 10 }) 15
          (1 / 2) = { code := 200, payload := Payload.json resp } ∧
      resp.Discount = F64.finite float64_0_15 :=
  (price_discount_first { ItemID := "a", Quantity := 6, BasePrice := 10 } 15 (1 / 2)
    (by norm_num) (by norm_num)).1.elim
    fun resp h =>
      ⟨resp, h.2.2.1 (h.2.2.2.2 (by decide) (by norm_num) (by norm_num)),
        by rw [h.2.1]; norm_num⟩

/-- COUNTEREXAMPLE to C12 as stated. Two units at 2^1023 each at 15 o'clock are a valid
request in the off-peak window, and the response has no body, so no discount of 0.15 is
reported. -/
theorem price_overflow_reports_no_discount :
    CalculatePriceHandler (some { ItemID := "a", Quantity := 2, BasePrice := 2 ^ 1023 }) 15 1 =
      { code := 200, payload := Payload.empty } := by
  rw [CalculatePriceHandler_reply _ _ _ (by norm_num) (by norm_num), roundedTotal_overflow]
  rfl

/-- CLAIM C13 (amended). The reported priceMultiplier is the multiplier chain without the
off-peak factor. For every valid request, hour and surge draw the handler hands
`respondWithJSON` a response struct whose priceMultiplier is the `float64` product R * S,
with R the `float64` of 1.1 in the rush windows [7,9) and [12,13), else 1, and S the
`float64` of 1.2 when the surge draw fires, else 1. It takes only the `float64` values of
1.0, 1.1, 1.2 and 1.32, and in the off-peak window [14,16) it is 1.0 or 1.2. The struct is
the body, and the priceMultiplier is reported, exactly when its totalPrice is a number,
which it is whenever quantity is a 64-bit integer, basePrice >= 2^-1000 and
basePrice * quantity <= 2^1000; a valid request whose total has overflowed is answered
with an empty body. -/
theorem price_multiplier_chain (req : CalculatePriceRequest) (h : Nat) (surge : ℚ)
    (hbp : 0 < req.BasePrice) (hq : 0 < req.Quantity) :
    (∃ resp : CalculatePriceResponse,
        CalculatePriceHandler (some req) h surge = respondWithJSON 200 resp ∧
        resp.PriceMultiplier =
          F64.mul
            (F64.finite (if (7 ≤ h ∧ h < 9) ∨ (12 ≤ h ∧ h < 13) then float64_1_1 else 1))
            (F64.finite (if surge < float32_0_1 then float64_1_2 else 1)) ∧
        (resp.PriceMultiplier = F64.finite 1 ∨
          resp.PriceMultiplier = F64.finite float64_1_1 ∨
          resp.PriceMultiplier = F64.finite float64_1_2 ∨
          resp.PriceMultiplier = F64.finite float64_1_32) ∧
        (14 ≤ h ∧ h < 16 →
          resp.PriceMultiplier = F64.finite 1 ∨
            resp.PriceMultiplier = F64.finite float64_1_2) ∧
        (resp.TotalPrice.isFinite = true →
          CalculatePriceHandler (some req) h surge =
            { code := 200, payload := Payload.json resp }) ∧
        (resp.TotalPrice.isFinite = false →
          CalculatePriceHandler (some req) h surge =
            { code := 200, payload := Payload.empty }) ∧
        (req.Quantity ≤ maxInt64 → 1 / 2 ^ (1000 : ℕ) ≤ req.BasePrice →
          req.BasePrice * (req.Quantity : ℚ) ≤ 2 ^ (1000 : ℕ) →
          resp.TotalPrice.isFinite = true)) ∧
      |float64_1_1 - 11 / 10| < 1 / 2 ^ 53 ∧ |float64_1_2 - 12 / 10| < 1 / 2 ^ 53 ∧
      |float64_1_32 - 132 / 100| < 1 / 2 ^ 53 := by
  have hrep := CalculatePriceHandler_reply req h surge hbp hq
  refine ⟨⟨priceResponse req h surge, CalculatePriceHandler_valid req h surge hbp hq,
    ?_, ?_, ?_, ?_, ?_, ?_⟩, ?_, ?_, ?_⟩
  · show F64.finite (multiplier64 h surge) = _
    unfold multiplier64
    split_ifs
    · exact F64.mul_1_1_1_2.symm
    · exact F64.mul_one_multiplier.1.symm
    · exact F64.mul_1_1_2.symm
    · exact F64.mul_one_multiplier.2.symm
  · show F64.finite (multiplier64 h surge) = _ ∨ F64.finite (multiplier64 h surge) = _ ∨
      F64.finite (multiplier64 h surge) = _ ∨ F64.finite (multiplier64 h surge) = _
    unfold multiplier64
    split_ifs
    · exact Or.inr (Or.inr (Or.inr rfl))
    · exact Or.inr (Or.inl rfl)
    · exact Or.inr (Or.inr (Or.inl rfl))
    · exact Or.inl rfl
  · intro hoff
    have h2 : ¬ ((7 ≤ h ∧ h < 9) ∨ (12 ≤ h ∧ h < 13)) := by omega
    show F64.finite (multiplier64 h surge) = _ ∨ F64.finite (multiplier64 h surge) = _
    unfold multiplier64
    rw [if_neg h2]
    split_ifs
    · exact Or.inr rfl
    · exact Or.inl rfl
  · intro hfin
    have hfin2 : (roundedTotal req h surge).isFinite = true := hfin
    rw [hrep, if_pos hfin2]
  · intro hinf
    have hinf2 : (roundedTotal req h surge).isFinite = false := hinf
    rw [hrep, hinf2, if_neg (by decide)]
  · intro hqmax hlo hhi
    exact roundedTotal_finite req h surge hq hqmax hlo hhi
  · rw [abs_lt]
    norm_num [float64_1_1]
  · rw [abs_lt]
    norm_num [float64_1_2]
  · rw [abs_lt]
    norm_num [float64_1_32]

/-- Witness of C13: at 8 o'clock with the surge draw firing the multiplier is the `float64`
of 1.32. -/
theorem price_multiplier_chain_witness :
    ∃ resp : CalculatePriceResponse,
      CalculatePriceHandler (some { ItemID := "a", Quantity := 1, BasePrice := 10 }) 8 0 =
        { code := 200, payload := Payload.json resp } ∧
      resp.PriceMultiplier = F64.finite float64_1_32 :=
  (price_multiplier_chain { ItemID := "a", Quantity := 1, BasePrice := 10 } 8 0
    (by norm_num) (by norm_num)).1.elim
    fun resp h =>
      ⟨resp, h.2.2.2.2.1 (h.2.2.2.2.2.2 (by decide) (by norm_num) (by norm_num)), by
        rw [h.2.1]
        norm_num [float32_0_1]
        exact F64.mul_1_1_1_2⟩

/-- COUNTEREXAMPLE to C13 as stated. Two units at 2^1023 each at 8 o'clock with the surge
draw firing are a valid request, and the response has no body, so no priceMultiplier is
reported. -/
theorem price_overflow_reports_no_multiplier :
    CalculatePriceHandler (some { ItemID := "a", Quantity := 2, BasePrice := 2 ^ 1023 }) 8 0 =
      { code := 200, payload := Payload.empty } := by
  rw [CalculatePriceHandler_reply _ _ _ (by norm_num) (by norm_num), roundedTotal_overflow]
  rfl

/-- Away from the half cents, the whole number of cents nearest to `y` is the one nearest
to the decimal product. -/
theorem floor_cents_eq (y p d : ℚ) (hy : |y - p| ≤ d)
    (hfar : ∀ m : ℤ, d < |p - ((m : ℚ) + 1 / 2)|) :
    ⌊y + 1 / 2⌋ = ⌊p + 1 / 2⌋ := by
  have h1 := Int.floor_le (p + 1 / 2)
  have h2 := Int.lt_floor_add_one (p + 1 / 2)
  have ha := hfar ⌊p + 1 / 2⌋
  have hb := hfar (⌊p + 1 / 2⌋ - 1)
  rw [abs_of_neg (by linarith)] at ha
  push_cast at hb
  rw [abs_of_nonneg (by linarith)] at hb
  rw [abs_le] at hy
  rw [Int.floor_eq_iff]
  constructor <;> linarith

/-- CLAIM C11 (amended). With the clock hour `h` and the surge draw as inputs, the total is
computed in `float64`, every product rounded. Write p = basePrice * quantity * T * B * S
for the decimal product: T = 0.85 for h in [14,16), 1.1 for h in [7,9) or [12,13), else 1;
B = 0.9 if quantity >= 5, else 1; S = 1.2 if the surge draw fires, else 1. For a request
with a 64-bit quantity > 0, basePrice >= 2^-1000 and basePrice * quantity <= 2^1000 the
response is 200 with a body whose totalPrice is the `float64` nearest to k / 100, for a
whole number of cents k with |k - 100 p| <= 1/2 + 100 p / 2^49; and k / 100 is round2(p),
the rounding half up to two decimals, whenever 100 p is farther than 100 p / 2^49 from
every half cent. With surge off, (10, 1, h=10) gives 10, (10, 6, h=10) gives 54 and
(10, 1, h=15) gives 8.5. The response depends only on basePrice, quantity, the hour and
the surge draw. -/
theorem price_total_formula :
    (∀ (req : CalculatePriceRequest) (h : Nat) (surge : ℚ),
        0 < req.Quantity → req.Quantity ≤ maxInt64 →
        1 / 2 ^ (1000 : ℕ) ≤ req.BasePrice →
        req.BasePrice * (req.Quantity : ℚ) ≤ 2 ^ (1000 : ℕ) →
        ∃ (resp : CalculatePriceResponse) (k : ℤ) (r : ℚ),
          CalculatePriceHandler (some req) h surge =
            { code := 200, payload := Payload.json resp } ∧
          resp.TotalPrice = F64.round ((k : ℚ) / 100) ∧
          F64.round ((k : ℚ) / 100) = F64.finite r ∧
          |r - (k : ℚ) / 100| ≤ (k : ℚ) / 100 * unitRoundoff ∧
          |(k : ℚ) - 100 * decimalTotal req h surge| ≤
            1 / 2 + 100 * decimalTotal req h surge / 2 ^ 49 ∧
          ((∀ m : ℤ, 100 * decimalTotal req h surge / 2 ^ 49 <
              |100 * decimalTotal req h surge - ((m : ℚ) + 1 / 2)|) →
            (k : ℚ) / 100 = round2 (decimalTotal req h surge))) ∧
      (∀ (item : String) (surge : ℚ), ¬ surge < float32_0_1 →
        (∃ resp : CalculatePriceResponse,
          CalculatePriceHandler (some { ItemID := item, Quantity := 1, BasePrice := 10 }) 10
              surge = { code := 200, payload := Payload.json resp } ∧
            resp.TotalPrice = F64.finite 10) ∧
        (∃ resp : CalculatePriceResponse,
          CalculatePriceHandler (some { ItemID := item, Quantity := 6, BasePrice := 10 }) 10
              surge = { code := 200, payload := Payload.json resp } ∧
            resp.TotalPrice = F64.finite 54) ∧
        (∃ resp : CalculatePriceResponse,
          CalculatePriceHandler (some { ItemID := item, Quantity := 1, BasePrice := 10 }) 15
              surge = { code := 200, payload := Payload.json resp } ∧
            resp.TotalPrice = F64.finite (85 / 10))) ∧
      (∀ (req req2 : CalculatePriceRequest) (h : Nat) (surge : ℚ),
        req.BasePrice = req2.BasePrice → req.Quantity = req2.Quantity →
        CalculatePriceHandler (some req) h surge =
          CalculatePriceHandler (some req2) h surge) := by
  refine ⟨?_, ?_, ?_⟩
  · intro req h surge hq hqmax hlo hhi
    have hbp : 0 < req.BasePrice := lt_of_lt_of_le (by positivity) hlo
    obtain ⟨y, hy0, hy1, hy2, hr, r, hfin, hrk⟩ :=
      roundedTotal_bounds req h surge hq hqmax hlo hhi
    have hclose := cents_close req h surge y (le_of_lt hbp) (le_of_lt hq) hy1 hy2
    have hisfin : (roundedTotal req h surge).isFinite = true := by
      rw [hr, hfin]
      rfl
    refine ⟨priceResponse req h surge, ⌊y + 1 / 2⌋, r, ?_, hr, hfin, hrk, ?_, ?_⟩
    · rw [CalculatePriceHandler_reply req h surge hbp hq, if_pos hisfin]
    · have h1 := Int.floor_le (y + 1 / 2)
      have h2 := Int.lt_floor_add_one (y + 1 / 2)
      rw [abs_le] at hclose ⊢
      constructor <;> linarith
    · intro hfar
      have hk := floor_cents_eq y _ _ hclose hfar
      rw [hk]
      unfold round2
      rw [mul_comm]
  · intro item surge hoff
    refine ⟨?_, ?_, ?_⟩
    · refine ⟨priceResponse { ItemID := item, Quantity := 1, BasePrice := 10 } 10 surge, ?_,
        (price_sample_plain item surge hoff).2⟩
      rw [CalculatePriceHandler_reply _ _ _ (by norm_num) (by norm_num),
        (price_sample_plain item surge hoff).2]
      rfl
    · refine ⟨priceResponse { ItemID := item, Quantity := 6, BasePrice := 10 } 10 surge, ?_,
        (price_sample_bulk item surge hoff).2⟩
      rw [CalculatePriceHandler_reply _ _ _ (by norm_num) (by norm_num),
        (price_sample_bulk item surge hoff).2]
      rfl
    · refine ⟨priceResponse { ItemID := item, Quantity := 1, BasePrice := 10 } 15 surge, ?_,
        ?_⟩
      · rw [CalculatePriceHandler_reply _ _ _ (by norm_num) (by norm_num),
          (price_sample_offpeak item surge hoff).2]
        rfl
      · show roundedTotal _ _ _ = _
        rw [(price_sample_offpeak item surge hoff).2]
        norm_num
  · intro req req2 h surge hb hqq
    unfold CalculatePriceHandler
    simp only [hb, hqq]

/-- Witness of C11: ten units at 4.50 at 8 o'clock with surge off. -/
theorem price_total_formula_witness :
    ∃ (resp : CalculatePriceResponse) (k : ℤ),
      CalculatePriceHandler (some { ItemID := "a", Quantity := 10, BasePrice := 45 / 10 }) 8
          (1 / 2) = { code := 200, payload := Payload.json resp } ∧
      resp.TotalPrice = F64.round ((k : ℚ) / 100) :=
  (price_total_formula.1 { ItemID := "a", Quantity := 10, BasePrice := 45 / 10 } 8 (1 / 2)
    (by decide) (by decide) (by norm_num) (by norm_num)).elim
    fun resp h => h.elim fun k h2 => h2.elim fun _ h3 => ⟨resp, k, h3.1, h3.2.1⟩

/-- COUNTEREXAMPLE to C11 as stated. Seven units at 3 each at 15 o'clock, surge off. The
decimal product is 16.065 and round2 gives 16.07; the `float64` products give
16.064999999999998, the number of cents is 1606.4999999999998 and the response carries the
`float64` of 16.06. -/
theorem price_total_below_half_cent :
    (∃ resp : CalculatePriceResponse,
        CalculatePriceHandler (some { ItemID := "a", Quantity := 7, BasePrice := 3 }) 15 1 =
          { code := 200, payload := Payload.json resp } ∧
        resp.TotalPrice = F64.finite (4520488125973135 / 281474976710656) ∧
        resp.TotalPrice = F64.round (1606 / 100)) ∧
      round2 (decimalTotal { ItemID := "a", Quantity := 7, BasePrice := 3 } 15 1) =
        1607 / 100 ∧
      F64.round (1606 / 100) ≠ F64.round (1607 / 100) := by
  have hoff : ¬ (1 : ℚ) < float32_0_1 := by norm_num [float32_0_1]
  have h1606 : F64.round (1606 / 100) = F64.finite (4520488125973135 / 281474976710656) :=
    F64.round_eq _ _ 4 4520488125973135 (1 / 2 ^ (48 : ℕ)) (by norm_num)
      (by norm_num [abs_of_pos]) (by norm_num [abs_of_pos]) (by norm_num) (by norm_num)
      (by norm_num) (by norm_num [abs_of_pos]) (by norm_num)
  have h1607 : F64.round (1607 / 100) = F64.finite (4523302875740242 / 281474976710656) :=
    F64.round_eq _ _ 4 4523302875740242 (1 / 2 ^ (48 : ℕ)) (by norm_num)
      (by norm_num [abs_of_pos]) (by norm_num [abs_of_pos]) (by norm_num) (by norm_num)
      (by norm_num) (by norm_num [abs_of_pos]) (by norm_num)
  refine ⟨⟨priceResponse { ItemID := "a", Quantity := 7, BasePrice := 3 } 15 1, ?_,
    (price_sample_both "a" 1 hoff).2, ?_⟩, ?_, ?_⟩
  · rw [CalculatePriceHandler_reply _ _ _ (by norm_num) (by norm_num),
      (price_sample_both "a" 1 hoff).2]
    rfl
  · rw [h1606]
    exact (price_sample_both "a" 1 hoff).2
  · unfold round2 decimalTotal timeFactor bulkFactor surgeFactor
    norm_num [float32_0_1]
  · rw [h1606, h1607, Ne, F64.finite.injEq]
    norm_num

/-- The product of the reported multiplier and of one minus the reported discount, against
the three `float64` factors of the total with five roundings more, when at most one
discount applies. -/
theorem explained_close (h : Nat) (q : Int) (surge : ℚ)
    (hcase : ¬ (14 ≤ h ∧ h < 16) ∨ q < 5) :
    multiplier64 h surge * (1 - discount64 h q) * (1 - 1 / 2 ^ 50) ≤
        timeFactor64 h * bulkFactor64 q * surgeFactor64 surge * (1 - unitRoundoff) ^ 5 ∧
      timeFactor64 h * bulkFactor64 q * surgeFactor64 surge * (1 + unitRoundoff) ^ 5 ≤
        multiplier64 h surge * (1 - discount64 h q) * (1 + 1 / 2 ^ 50) := by
  unfold multiplier64 discount64 timeFactor64 bulkFactor64 surgeFactor64 unitRoundoff
    float64_0_85 float64_1_1 float64_0_9 float64_1_2 float64_1_32 float64_0_15 float64_0_1
  by_cases h1 : 14 ≤ h ∧ h < 16
  · have h3 : ¬ 5 ≤ q := by
      rcases hcase with hc | hc
      · exact absurd h1 hc
      · exact not_le.2 hc
    have h2 : ¬ ((7 ≤ h ∧ h < 9) ∨ (12 ≤ h ∧ h < 13)) := by omega
    simp only [h1, h2, h3, and_self, if_true, if_false]
    split_ifs <;> norm_num
  · simp only [h1, if_false]
    split_ifs <;> norm_num

/-- The same comparison when both discounts apply: the three factors against the reported
multiplier times 0.85 times 0.9, and strictly below the reported multiplier times one
minus the reported discount. -/
theorem double_discount_close (h : Nat) (q : Int) (surge : ℚ)
    (h1 : 14 ≤ h ∧ h < 16) (h3 : 5 ≤ q) :
    multiplier64 h surge * (85 / 100) * (9 / 10) * (1 - 1 / 2 ^ 50) ≤
        timeFactor64 h * bulkFactor64 q * surgeFactor64 surge * (1 - unitRoundoff) ^ 5 ∧
      timeFactor64 h * bulkFactor64 q * surgeFactor64 surge * (1 + unitRoundoff) ^ 5 ≤
        multiplier64 h surge * (85 / 100) * (9 / 10) * (1 + 1 / 2 ^ 50) ∧
      timeFactor64 h * bulkFactor64 q * surgeFactor64 surge * (1 + unitRoundoff) ^ 5 <
        multiplier64 h surge * (1 - discount64 h q) := by
  have h2 : ¬ ((7 ≤ h ∧ h < 9) ∨ (12 ≤ h ∧ h < 13)) := by omega
  unfold multiplier64 discount64 timeFactor64 bulkFactor64 surgeFactor64 unitRoundoff
    float64_0_85 float64_0_9 float64_1_2 float64_0_15
  simp only [h1, h2, h3, and_self, if_true, if_false]
  split_ifs <;> norm_num

/-- A total between two multiples of the base total lies within the tolerance of a third
that the two multiples enclose. -/
theorem total_close (x t a b c e : ℚ) (hx : 0 ≤ x) (h1 : x * a ≤ t) (h2 : t ≤ x * b)
    (ha : c * (1 - e) ≤ a) (hb : b ≤ c * (1 + e)) :
    |t - x * c| ≤ x * c * e := by
  have e1 := mul_le_mul_of_nonneg_left ha hx
  have e2 := mul_le_mul_of_nonneg_left hb hx
  rw [abs_le]
  constructor <;> nlinarith

/-- CLAIM C19 (amended). The reported fields explain the total, up to the roundings of
`float64`, except when both discounts apply. For a request with a 64-bit quantity > 0,
basePrice >= 2^-1000 and basePrice * quantity <= 2^1000 the response carries the rounding
to cents of the unrounded total t, a multiplier pm and a discount d. Outside the off-peak
window [14,16), or with quantity < 5, t is within 2^-50, relatively, of
basePrice * quantity * pm * (1 - d); the rush and off-peak windows are disjoint, so no rush
multiplier is lost in the off-peak branch. In the off-peak window with quantity >= 5 the
reported discount is the `float64` of 0.15, t is within 2^-50, relatively, of
basePrice * quantity * pm * 0.85 * 0.9, and it is strictly less than
basePrice * quantity * pm * (1 - d). -/
theorem price_fields_explain_total (req : CalculatePriceRequest) (h : Nat) (surge : ℚ)
    (hq : 0 < req.Quantity) (hqmax : req.Quantity ≤ maxInt64)
    (hlo : 1 / 2 ^ (1000 : ℕ) ≤ req.BasePrice)
    (hhi : req.BasePrice * (req.Quantity : ℚ) ≤ 2 ^ (1000 : ℕ)) :
    ∃ (resp : CalculatePriceResponse) (t pm d : ℚ),
      CalculatePriceHandler (some req) h surge =
        { code := 200, payload := Payload.json resp } ∧
      unroundedTotal req h surge = F64.finite t ∧
      resp.TotalPrice =
        F64.div (F64.mathRound (F64.mul (F64.finite t) (F64.finite 100))) (F64.finite 100) ∧
      resp.PriceMultiplier = F64.finite pm ∧ resp.Discount = F64.finite d ∧
      (¬ (14 ≤ h ∧ h < 16) ∨ req.Quantity < 5 →
        |t - req.BasePrice * (req.Quantity : ℚ) * pm * (1 - d)| ≤
          req.BasePrice * (req.Quantity : ℚ) * pm * (1 - d) / 2 ^ 50) ∧
      (14 ≤ h ∧ h < 16 → ¬ ((7 ≤ h ∧ h < 9) ∨ (12 ≤ h ∧ h < 13))) ∧
      (14 ≤ h ∧ h < 16 → 5 ≤ req.Quantity →
        d = float64_0_15 ∧
        |t - req.BasePrice * (req.Quantity : ℚ) * pm * (85 / 100) * (9 / 10)| ≤
          req.BasePrice * (req.Quantity : ℚ) * pm * (85 / 100) * (9 / 10) / 2 ^ 50 ∧
        t < req.BasePrice * (req.Quantity : ℚ) * pm * (1 - d)) := by
  have hbp : 0 < req.BasePrice := lt_of_lt_of_le (by positivity) hlo
  have hq0 : (0 : ℚ) < (req.Quantity : ℚ) := by exact_mod_cast hq
  have hX : 0 < req.BasePrice * (req.Quantity : ℚ) := mul_pos hbp hq0
  obtain ⟨t, ht, htL, htU, _, _⟩ := unroundedTotal_bounds req h surge hq hqmax hlo hhi
  have hisfin := roundedTotal_finite req h surge hq hqmax hlo hhi
  have htL2 : req.BasePrice * (req.Quantity : ℚ) *
      (timeFactor64 h * bulkFactor64 req.Quantity * surgeFactor64 surge *
        (1 - unitRoundoff) ^ 5) ≤ t := by
    calc _ = req.BasePrice * (req.Quantity : ℚ) * timeFactor64 h *
          bulkFactor64 req.Quantity * surgeFactor64 surge * (1 - unitRoundoff) ^ 5 := by ring
      _ ≤ t := htL
  have htU2 : t ≤ req.BasePrice * (req.Quantity : ℚ) *
      (timeFactor64 h * bulkFactor64 req.Quantity * surgeFactor64 surge *
        (1 + unitRoundoff) ^ 5) := by
    calc t ≤ req.BasePrice * (req.Quantity : ℚ) * timeFactor64 h *
          bulkFactor64 req.Quantity * surgeFactor64 surge * (1 + unitRoundoff) ^ 5 := htU
      _ = _ := by ring
  refine ⟨priceResponse req h surge, t, multiplier64 h surge, discount64 h req.Quantity,
    ?_, ht, ?_, rfl, rfl, ?_, ?_, ?_⟩
  · rw [CalculatePriceHandler_reply req h surge hbp (by exact_mod_cast hq), if_pos hisfin]
  · show roundedTotal req h surge = _
    unfold roundedTotal
    rw [ht]
  · intro hcase
    obtain ⟨hc1, hc2⟩ := explained_close h req.Quantity surge hcase
    have := total_close (req.BasePrice * (req.Quantity : ℚ)) t _ _
      (multiplier64 h surge * (1 - discount64 h req.Quantity)) (1 / 2 ^ 50)
      (le_of_lt hX) htL2 htU2 hc1 hc2
    have e : req.BasePrice * (req.Quantity : ℚ) * multiplier64 h surge *
        (1 - discount64 h req.Quantity) =
        req.BasePrice * (req.Quantity : ℚ) *
          (multiplier64 h surge * (1 - discount64 h req.Quantity)) := by ring
    rw [e, div_eq_mul_one_div]
    exact this
  · intro h1
    omega
  · intro h1 h3
    obtain ⟨hc1, hc2, hc3⟩ := double_discount_close h req.Quantity surge h1 h3
    refine ⟨?_, ?_, ?_⟩
    · unfold discount64
      rw [if_pos h1]
    · have := total_close (req.BasePrice * (req.Quantity : ℚ)) t _ _
        (multiplier64 h surge * (85 / 100) * (9 / 10)) (1 / 2 ^ 50)
        (le_of_lt hX) htL2 htU2 hc1 hc2
      have e : req.BasePrice * (req.Quantity : ℚ) * multiplier64 h surge * (85 / 100) *
          (9 / 10) =
          req.BasePrice * (req.Quantity : ℚ) *
            (multiplier64 h surge * (85 / 100) * (9 / 10)) := by ring
      rw [e, div_eq_mul_one_div (req.BasePrice * (req.Quantity : ℚ) *
        (multiplier64 h surge * (85 / 100) * (9 / 10)))]
      exact this
    · have e := mul_lt_mul_of_pos_left hc3 hX
      calc t ≤ _ := htU2
        _ < _ := e
        _ = _ := by ring

/-- Witness of C19: six items at 10 each at 15 o'clock, surge off. -/
theorem price_fields_explain_total_witness :
    ∃ (resp : CalculatePriceResponse) (t pm d : ℚ),
      CalculatePriceHandler (some { ItemID := "a", Quantity := 6, BasePrice := 10 }) 15
          (1 / 2) = { code := 200, payload := Payload.json resp } ∧
      unroundedTotal { ItemID := "a", Quantity := 6, BasePrice := 10 } 15 (1 / 2) =
        F64.finite t ∧
      resp.PriceMultiplier = F64.finite pm ∧ resp.Discount = F64.finite d ∧
      t < (10 : ℚ) * ((6 : Int) : ℚ) * pm * (1 - d) :=
  (price_fields_explain_total { ItemID := "a", Quantity := 6, BasePrice := 10 } 15 (1 / 2)
    (by decide) (by decide) (by norm_num) (by norm_num)).elim
    fun resp h => h.elim fun t h => h.elim fun pm h => h.elim fun d h =>
      ⟨resp, t, pm, d, h.1, h.2.1, h.2.2.2.1, h.2.2.2.2.1,
        (h.2.2.2.2.2.2.2 (by norm_num) (by norm_num)).2.2⟩

/-- COUNTEREXAMPLE to C19 as stated. One unit at 10 at 8 o'clock with the surge draw
firing. The reported multiplier is the `float64` of 1.32 and the reported discount is 0,
and the unrounded total ((10 * 1) * 1.1) * 1.2 is 13.199999999999999, which is not
10 * 1 * 1.32 * (1 - 0) = 13.200000000000001. -/
theorem price_total_not_product_of_fields :
    ∃ resp : CalculatePriceResponse,
      CalculatePriceHandler (some { ItemID := "a", Quantity := 1, BasePrice := 10 }) 8 0 =
        { code := 200, payload := Payload.json resp } ∧
      resp.PriceMultiplier = F64.finite float64_1_32 ∧ resp.Discount = F64.finite 0 ∧
      unroundedTotal { ItemID := "a", Quantity := 1, BasePrice := 10 } 8 0 =
        F64.finite (3715469692580659 / 281474976710656) ∧
      (3715469692580659 / 281474976710656 : ℚ) ≠
        10 * ((1 : Int) : ℚ) * float64_1_32 * (1 - 0) ∧
      F64.mul (F64.mul (F64.mul (F64.finite 10) (F64.ofInt 1)) (F64.finite float64_1_32))
          (F64.sub (F64.finite 1) (F64.finite 0)) ≠
        F64.finite (3715469692580659 / 281474976710656) := by
  have hon : (0 : ℚ) < float32_0_1 := by norm_num [float32_0_1]
  have c0 : F64.ofInt 1 = F64.finite 1 := by
    unfold F64.ofInt
    exact F64.round_eq _ _ 0 4503599627370496 (1 / 2 ^ (52 : ℕ)) (by norm_num)
      (by norm_num [abs_of_pos]) (by norm_num [abs_of_pos]) (by norm_num) (by norm_num)
      (by norm_num) (by norm_num [abs_of_pos]) (by norm_num)
  have c1 : F64.mul (F64.finite 10) (F64.finite 1) = F64.finite 10 := by
    unfold F64.mul
    exact F64.round_eq _ _ 3 5629499534213120 (1 / 2 ^ (49 : ℕ)) (by norm_num)
      (by norm_num [abs_of_pos]) (by norm_num [abs_of_pos]) (by norm_num) (by norm_num)
      (by norm_num) (by norm_num [abs_of_pos]) (by norm_num)
  have c2 : F64.mul (F64.finite 10) (F64.finite float64_1_32) =
      F64.finite (7430939385161319 / 562949953421312) := by
    unfold F64.mul float64_1_32
    exact F64.round_eq _ _ 3 7430939385161319 (1 / 2 ^ (49 : ℕ)) (by norm_num)
      (by norm_num [abs_of_pos]) (by norm_num [abs_of_pos]) (by norm_num) (by norm_num)
      (by norm_num) (by norm_num [abs_of_pos]) (by norm_num)
  have c3 : F64.sub (F64.finite 1) (F64.finite 0) = F64.finite 1 := by
    unfold F64.sub
    exact F64.round_eq _ _ 0 4503599627370496 (1 / 2 ^ (52 : ℕ)) (by norm_num)
      (by norm_num [abs_of_pos]) (by norm_num [abs_of_pos]) (by norm_num) (by norm_num)
      (by norm_num) (by norm_num [abs_of_pos]) (by norm_num)
  have c4 : F64.mul (F64.finite (7430939385161319 / 562949953421312)) (F64.finite 1) =
      F64.finite (7430939385161319 / 562949953421312) := by
    unfold F64.mul
    exact F64.round_eq _ _ 3 7430939385161319 (1 / 2 ^ (49 : ℕ)) (by norm_num)
      (by norm_num [abs_of_pos]) (by norm_num [abs_of_pos]) (by norm_num) (by norm_num)
      (by norm_num) (by norm_num [abs_of_pos]) (by norm_num)
  refine ⟨priceResponse { ItemID := "a", Quantity := 1, BasePrice := 10 } 8 0, ?_, ?_, ?_,
    (price_sample_rush_surge "a" 0 hon).1, ?_, ?_⟩
  · rw [CalculatePriceHandler_reply _ _ _ (by norm_num) (by norm_num),
      (price_sample_rush_surge "a" 0 hon).2]
    rfl
  · show F64.finite (multiplier64 8 0) = _
    unfold multiplier64
    rw [if_pos (by decide), if_pos hon]
  · show F64.finite (discount64 8 1) = _
    unfold discount64
    rw [if_neg (by decide), if_neg (by decide)]
  · norm_num [float64_1_32]
  · rw [c0, c1, c2, c3, c4, Ne, F64.finite.injEq]
    norm_num

/-! ## Start-up seeding -/

theorem Exists_reachable (c : Client) (key : String) (hreach : c.faults = []) :
    (c.Exists key).1.1 = (match c.data key with | none => 0 | some _ => 1) ∧
      (c.Exists key).2.faults = [] ∧ (c.Exists key).2.data = c.data := by
  unfold Client.Exists
  rw [issue_fst, hreach]
  simp only [List.headD_nil, Bool.false_eq_true, if_false]
  cases c.data key with
  | none => exact ⟨rfl, by rw [issue_faults, hreach]; rfl, issue_data _ _⟩
  | some v => exact ⟨rfl, by rw [issue_faults, hreach]; rfl, issue_data _ _⟩

/-- One turn of the seeding loop on a reachable store: a present key is left alone, an absent
key receives 200 plus the next draw. -/
theorem initializeItem_reachable (rng : Nat → Fin 101) (st : Client × Nat) (item : String)
    (hreach : st.1.faults = []) :
    (initializeItem rng st item).1.faults = [] ∧
      (initializeItem rng st item).1.data =
        (match st.1.data (inventoryKey item) with
          | none => st.1.data.put (inventoryKey item) (Itoa (200 + ((rng st.2).val : Int)))
          | some _ => st.1.data) := by
  obtain ⟨h1, h2, h3⟩ := Exists_reachable st.1 (inventoryKey item) hreach
  have hd := (rng st.2).isLt
  have hw : wrapInt64 (200 + ((rng st.2).val : Int)) = 200 + ((rng st.2).val : Int) := by
    apply wrapInt64_of_range <;> simp only [minInt64, maxInt64] <;> omega
  unfold initializeItem
  rw [h1, hw]
  cases hk : st.1.data (inventoryKey item) with
  | none =>
    simp only [if_true]
    refine ⟨by rw [Set_faults, h2]; rfl, ?_⟩
    rw [Set_data, h2, h3]
    simp
  | some v =>
    simp only [one_ne_zero, if_false]
    exact ⟨h2, h3⟩

/-- The seeding loop over any list of items, on a reachable store. -/
theorem initialize_loop (rng : Nat → Fin 101) (items : List String) :
    ∀ st : Client × Nat, st.1.faults = [] →
      (items.foldl (initializeItem rng) st).1.faults = [] ∧
      (∀ k v, st.1.data k = some v →
        (items.foldl (initializeItem rng) st).1.data k = some v) ∧
      (∀ k, st.1.data k = none →
        (k ∈ items.map inventoryKey →
          ∃ j, (items.foldl (initializeItem rng) st).1.data k =
            some (Itoa (200 + ((rng j).val : Int)))) ∧
        (k ∉ items.map inventoryKey →
          (items.foldl (initializeItem rng) st).1.data k = none)) := by
  induction items with
  | nil =>
    intro st hreach
    exact ⟨hreach, fun k v h => h, fun k h => ⟨fun hm => by simp at hm, fun _ => h⟩⟩
  | cons item rest ih =>
    intro st hreach
    obtain ⟨hf1, hd1⟩ := initializeItem_reachable rng st item hreach
    obtain ⟨ihf, ihp, iha⟩ := ih (initializeItem rng st item) hf1
    simp only [List.foldl_cons]
    have hkeep : ∀ k v, st.1.data k = some v →
        (initializeItem rng st item).1.data k = some v := by
      intro k v hk
      rw [hd1]
      cases hi : st.1.data (inventoryKey item) with
      | none =>
        simp only
        have hne : k ≠ inventoryKey item := by
          intro he
          rw [he, hi] at hk
          exact absurd hk (by simp)
        rw [put_other _ _ _ _ hne]
        exact hk
      | some w => exact hk
    refine ⟨ihf, fun k v hk => ihp k v (hkeep k v hk), ?_⟩
    intro k hk
    by_cases hki : k = inventoryKey item
    · subst hki
      have hseed : (initializeItem rng st item).1.data (inventoryKey item) =
          some (Itoa (200 + ((rng st.2).val : Int))) := by
        rw [hd1, hk]
        exact put_same _ _ _
      exact ⟨fun _ => ⟨st.2, ihp _ _ hseed⟩, fun hm => absurd (by simp) hm⟩
    · have hnone : (initializeItem rng st item).1.data k = none := by
        rw [hd1]
        cases hi : st.1.data (inventoryKey item) with
        | none =>
          simp only
          rw [put_other _ _ _ _ hki]
          exact hk
        | some w => exact hk
      obtain ⟨ia1, ia2⟩ := iha k hnone
      refine ⟨fun hm => ia1 ?_, fun hm => ia2 ?_⟩
      · simp only [List.map_cons, List.mem_cons] at hm
        exact hm.resolve_left hki
      · intro hm2
        exact hm (by simp only [List.map_cons, List.mem_cons]; exact Or.inr hm2)

/-- CLAIM C14. On a reachable store, after `initializeInventory` each of the 8 seed keys is
present; every key that was present, seed key or not, keeps its value; a seed key that was
absent holds the text of an integer in [200,300], 200 plus one of the draws in 0..100; and
every key that is not a seed key is unchanged. -/
theorem initializeInventory_seeds (rng : Nat → Fin 101) (c : Client)
    (hreach : c.faults = []) :
    seedItems.length = 8 ∧
      (∀ item ∈ seedItems, (initializeInventory rng c).data (inventoryKey item) ≠ none) ∧
      (∀ k v, c.data k = some v → (initializeInventory rng c).data k = some v) ∧
      (∀ item ∈ seedItems, c.data (inventoryKey item) = none →
        ∃ n : Int, 200 ≤ n ∧ n ≤ 300 ∧ (∃ j, n = 200 + ((rng j).val : Int)) ∧
          (initializeInventory rng c).data (inventoryKey item) = some (Itoa n)) ∧
      (∀ k, (∀ item ∈ seedItems, k ≠ inventoryKey item) →
        (initializeInventory rng c).data k = c.data k) := by
  obtain ⟨_, hp, ha⟩ := initialize_loop rng seedItems (c, 0) hreach
  have hseedAbsent : ∀ item ∈ seedItems, c.data (inventoryKey item) = none →
      ∃ n : Int, 200 ≤ n ∧ n ≤ 300 ∧ (∃ j, n = 200 + ((rng j).val : Int)) ∧
        (initializeInventory rng c).data (inventoryKey item) = some (Itoa n) := by
    intro item hmem hnone
    obtain ⟨j, hj⟩ := (ha _ hnone).1 (List.mem_map_of_mem inventoryKey hmem)
    have hd := (rng j).isLt
    exact ⟨200 + ((rng j).val : Int), by omega, by omega, ⟨j, rfl⟩, hj⟩
  refine ⟨rfl, ?_, hp, hseedAbsent, ?_⟩
  · intro item hmem
    cases hi : c.data (inventoryKey item) with
    | none =>
      obtain ⟨n, _, _, _, hn⟩ := hseedAbsent item hmem hi
      rw [hn]
      simp
    | some v =>
      have := hp _ _ hi
      unfold initializeInventory
      rw [this]
      simp
  · intro k hk
    cases hi : c.data k with
    | none =>
      refine (ha k hi).2 ?_
      intro hm
      obtain ⟨item, hmem, heq⟩ := List.mem_map.1 hm
      exact hk item hmem heq.symm
    | some v => exact hp k v hi

/-- Witness of C14: seeding an empty store with every draw equal to 7. -/
theorem initializeInventory_seeds_witness :
    (initializeInventory (fun _ => 7) (emptyClient [])).data (inventoryKey "rocket-fuel") ≠
      none :=
  (initializeInventory_seeds (fun _ => 7) (emptyClient []) rfl).2.1 "rocket-fuel"
    (by simp [seedItems])

/-! ## The commands of the inventory check -/

/-- The commands issued by the second half of the handler. -/
theorem deductAndRespond_calls (req : CheckInventoryRequest) (rnd : Draws) (key : String)
    (stock : Int) (c : Client) (hq : 0 < req.Quantity) (hhi : stock ≤ maxInt64) :
    (deductAndRespond req rnd key stock c).2.calls =
      c.calls ++
        (if req.Quantity ≤ stock then
          Cmd.SET key (stock - req.Quantity) ::
            (if stock - req.Quantity < 50 ∧ rnd.replenish < float32_0_8 then
              [Cmd.INCRBY key (100 + (rnd.amount.val : Int))]
             else [])
         else []) := by
  rw [deductAndRespond_snd]
  by_cases h1 : req.Quantity ≤ stock
  · have hlo : minInt64 ≤ stock - req.Quantity := by simp only [minInt64]; omega
    have hhi1 : stock - req.Quantity ≤ maxInt64 := by omega
    rw [wrapInt64_of_range _ hlo hhi1, wrapInt64_amount]
    simp only [h1, if_true]
    split_ifs
    · rw [IncrBy_calls, Set_calls]
      simp
    · rw [Set_calls]
  · simp only [h1, if_false, List.append_nil]

/-- The commands issued by a valid inventory check, whatever the outcome of each. -/
theorem CheckInventoryHandler_calls (req : CheckInventoryRequest) (rnd : Draws) (c : Client)
    (hid : req.ItemID ≠ "") (hq : 0 < req.Quantity) :
    (CheckInventoryHandler (some req) rnd c).2.calls =
      c.calls ++ checkCommands (inventoryKey req.ItemID) req.Quantity rnd c.faults
        (c.data (inventoryKey req.ItemID)) := by
  rw [CheckInventoryHandler_valid req rnd c hid hq]
  unfold checkCommands
  by_cases hf : c.faults.headD false = true
  · simp only [hf, if_true]
    rw [issue_calls]
  · have hf2 : c.faults.headD false = false := by simpa using hf
    simp only [hf2, Bool.false_eq_true, if_false]
    cases hd : c.data (inventoryKey req.ItemID) with
    | none =>
      simp only
      rw [deductAndRespond_calls _ _ _ _ _ hq (by decide), Set_calls, issue_calls]
      simp
    | some v =>
      simp only
      rw [deductAndRespond_calls _ _ _ _ _ hq (Atoi_range v).2, issue_calls]
      simp

theorem checkCommands_key (key : String) (quantity : Int) (rnd : Draws) (faults : List Bool)
    (stored : Option String) :
    ∀ cmd ∈ checkCommands key quantity rnd faults stored, cmd.key = key := by
  intro cmd hmem
  unfold checkCommands at hmem
  simp only [List.mem_cons] at hmem
  rcases hmem with h | hmem
  · rw [h]; rfl
  · split_ifs at hmem with h1 h2 h3
    · simp at hmem
    · simp only [List.mem_append, List.mem_cons] at hmem
      rcases hmem with h | h | h
      · cases stored with
        | none =>
          simp only [List.mem_singleton] at h
          rw [h]; rfl
        | some v => simp at h
      · rw [h]; rfl
      · simp only [List.mem_singleton, List.not_mem_nil, or_false] at h
        rw [h]; rfl
    · simp only [List.mem_append, List.mem_cons, List.not_mem_nil, or_false] at hmem
      rcases hmem with h | h
      · cases stored with
        | none =>
          simp only [List.mem_singleton] at h
          rw [h]; rfl
        | some v => simp at h
      · rw [h]; rfl
    · simp only [List.append_nil] at hmem
      cases stored with
      | none =>
        simp only [List.mem_singleton] at hmem
        rw [hmem]; rfl
      | some v => simp at hmem

theorem inventoryKey_injective (a b : String) (h : inventoryKey a = inventoryKey b) :
    a = b := by
  unfold inventoryKey at h
  have h2 := congrArg String.data h
  simp only [String.data_append, List.append_cancel_left_eq] at h2
  exact String.ext h2

theorem deductAndRespond_faults_reachable (req : CheckInventoryRequest) (rnd : Draws)
    (key : String) (stock : Int) (c : Client) (hreach : c.faults = []) :
    (deductAndRespond req rnd key stock c).2.faults = [] := by
  rw [deductAndRespond_snd]
  split_ifs
  · rw [IncrBy_faults, Set_faults, hreach]; rfl
  · rw [Set_faults, hreach]; rfl
  · exact hreach

/-- A valid check on a reachable store: the store it leaves, and the store stays reachable. -/
theorem CheckInventoryHandler_data_reachable (req : CheckInventoryRequest) (rnd : Draws)
    (c : Client) (hid : req.ItemID ≠ "") (hq : 0 < req.Quantity) (hreach : c.faults = []) :
    (CheckInventoryHandler (some req) rnd c).2.faults = [] ∧
      (CheckInventoryHandler (some req) rnd c).2.data =
        if req.Quantity ≤ readStock c.data (inventoryKey req.ItemID) then
          if readStock c.data (inventoryKey req.ItemID) - req.Quantity < 50 ∧
              rnd.replenish < float32_0_8 then
            c.data.put (inventoryKey req.ItemID)
              (Itoa (readStock c.data (inventoryKey req.ItemID) - req.Quantity +
                (100 + (rnd.amount.val : Int))))
          else
            c.data.put (inventoryKey req.ItemID)
              (Itoa (readStock c.data (inventoryKey req.ItemID) - req.Quantity))
        else
          (match c.data (inventoryKey req.ItemID) with
            | none => c.data.put (inventoryKey req.ItemID) (Itoa 250)
            | some _ => c.data) := by
  rw [CheckInventoryHandler_reachable req rnd c hid hq hreach]
  unfold readStock
  cases hd : c.data (inventoryKey req.ItemID) with
  | none =>
    simp only
    refine ⟨deductAndRespond_faults_reachable _ _ _ _ _ rfl, ?_⟩
    rw [deductAndRespond_data_reachable _ _ _ _ _ rfl hq (by decide)]
    simp only [put_put]
  | some v =>
    simp only
    refine ⟨deductAndRespond_faults_reachable _ _ _ _ _ rfl, ?_⟩
    rw [deductAndRespond_data_reachable _ _ _ _ _ rfl hq (Atoi_range v).2]

/-- CLAIM C15 (amended). Replenishment, sequential execution on a reachable store, that is
when no command of the request fails. For a valid request
that the stock covers, with newStock = currentStock - quantity: the commands are the read,
the lazy seed of an absent key, the Set of newStock and, if and only if newStock < 50 and
the replenish draw is below the constant 0.8, one IncrBy of 100 plus the amount draw. When
it fires the key ends at newStock + r with r in [100,200], the increment being applied to
the decremented value already written, so the final value lies in [100,249]; when
newStock >= 50, or the draw does not fire, the key ends at newStock. The response reports
the stock before the deduction, whatever the draws. -/
theorem replenishment_rule (req : CheckInventoryRequest) (rnd : Draws) (c : Client)
    (hid : req.ItemID ≠ "") (hq : 0 < req.Quantity) (hreach : c.faults = [])
    (havail : req.Quantity ≤ readStock c.data (inventoryKey req.ItemID)) :
    (CheckInventoryHandler (some req) rnd c).1 =
        respondWithJSON 200
          { Available := true
            CurrentStock := readStock c.data (inventoryKey req.ItemID)
            RequestedAmount := req.Quantity
            Message := "Inventory available" } ∧
      (CheckInventoryHandler (some req) rnd c).2.calls =
        c.calls ++
          (Cmd.GET (inventoryKey req.ItemID) ::
            ((match c.data (inventoryKey req.ItemID) with
                | none => [Cmd.SET (inventoryKey req.ItemID) 250]
                | some _ => []) ++
              (Cmd.SET (inventoryKey req.ItemID)
                  (readStock c.data (inventoryKey req.ItemID) - req.Quantity) ::
                (if readStock c.data (inventoryKey req.ItemID) - req.Quantity < 50 ∧
                    rnd.replenish < float32_0_8 then
                  [Cmd.INCRBY (inventoryKey req.ItemID) (100 + (rnd.amount.val : Int))]
                 else [])))) ∧
      (readStock c.data (inventoryKey req.ItemID) - req.Quantity < 50 ∧
          rnd.replenish < float32_0_8 →
        (CheckInventoryHandler (some req) rnd c).2.data (inventoryKey req.ItemID) =
            some (Itoa (readStock c.data (inventoryKey req.ItemID) - req.Quantity +
              (100 + (rnd.amount.val : Int)))) ∧
          100 ≤ 100 + (rnd.amount.val : Int) ∧ 100 + (rnd.amount.val : Int) ≤ 200 ∧
          100 ≤ readStock c.data (inventoryKey req.ItemID) - req.Quantity +
              (100 + (rnd.amount.val : Int)) ∧
          readStock c.data (inventoryKey req.ItemID) - req.Quantity +
              (100 + (rnd.amount.val : Int)) ≤ 249) ∧
      (50 ≤ readStock c.data (inventoryKey req.ItemID) - req.Quantity ∨
          ¬ rnd.replenish < float32_0_8 →
        (CheckInventoryHandler (some req) rnd c).2.data (inventoryKey req.ItemID) =
          some (Itoa (readStock c.data (inventoryKey req.ItemID) - req.Quantity))) := by
  obtain ⟨_, hdata⟩ := CheckInventoryHandler_data_reachable req rnd c hid hq hreach
  have ha := rnd.amount.isLt
  refine ⟨?_, ?_, ?_, ?_⟩
  · rw [CheckInventoryHandler_fst_of_read req rnd c hid hq (by simp [hreach])]
    simp [havail]
  · rw [CheckInventoryHandler_calls req rnd c hid hq]
    unfold checkCommands readStock at *
    simp only [hreach, List.headD_nil, Bool.false_eq_true, if_false]
    cases hd : c.data (inventoryKey req.ItemID) with
    | none =>
      rw [hd] at havail
      simp only at havail ⊢
      simp only [havail, if_true]
    | some v =>
      rw [hd] at havail
      simp only at havail ⊢
      simp only [havail, if_true]
  · intro hfire
    rw [hdata]
    simp only [havail, if_true, hfire, and_self, put_same]
    refine ⟨trivial, by omega, by omega, by omega, by omega⟩
  · intro hno
    have hnot : ¬ (readStock c.data (inventoryKey req.ItemID) - req.Quantity < 50 ∧
        rnd.replenish < float32_0_8) := by
      rintro ⟨h1, h2⟩
      rcases hno with h | h
      · omega
      · exact h h2
    rw [hdata]
    simp only [havail, if_true, hnot, if_false, put_same]

/-- Witness of C15: stock 10, quantity 3, the draw firing with amount 5: the key ends at
7 + 105. -/
theorem replenishment_rule_witness :
    (CheckInventoryHandler (some { ItemID := "a", Quantity := 3 })
        { replenish := 0, amount := 5 } (stockedClient "a" (Itoa 10) [])).2.calls =
      [Cmd.GET (inventoryKey "a"), Cmd.SET (inventoryKey "a") 7,
        Cmd.INCRBY (inventoryKey "a") 105] := by
  have hs : readStock (stockedClient "a" (Itoa 10) []).data (inventoryKey "a") = 10 := by
    decide
  have h := (replenishment_rule { ItemID := "a", Quantity := 3 }
    { replenish := 0, amount := 5 } (stockedClient "a" (Itoa 10) [])
    (by decide) (by decide) rfl (by rw [hs]; decide)).2.1
  rw [h, hs]
  have hd : (stockedClient "a" (Itoa 10) []).data (inventoryKey "a") = some (Itoa 10) := by
    simp [stockedClient]
  rw [hd]
  norm_num [stockedClient, float32_0_8]
  rfl

/-- COUNTEREXAMPLE to C15 as stated. The key holds 10, the read succeeds, the Set of the
new stock 6 fails and the increment of 100 succeeds. The check is valid and available, the
draw fires, and the key ends at 10 + 100 = 110: the increment was applied to the value
before the deduction, not to newStock, and 110 is not newStock + r = 106. -/
theorem replenishment_after_failed_write :
    (CheckInventoryHandler (some { ItemID := "a", Quantity := 4 })
        { replenish := 0, amount := 0 } (stockedClient "a" (Itoa 10) [false, true, false])).1 =
      respondWithJSON 200
        { Available := true
          CurrentStock := 10
          RequestedAmount := 4
          Message := "Inventory available" } ∧
      (CheckInventoryHandler (some { ItemID := "a", Quantity := 4 })
        { replenish := 0, amount := 0 }
        (stockedClient "a" (Itoa 10) [false, true, false])).2.calls =
        [Cmd.GET (inventoryKey "a"), Cmd.SET (inventoryKey "a") 6,
          Cmd.INCRBY (inventoryKey "a") 100] ∧
      (CheckInventoryHandler (some { ItemID := "a", Quantity := 4 })
        { replenish := 0, amount := 0 }
        (stockedClient "a" (Itoa 10) [false, true, false])).2.data (inventoryKey "a") =
        some (Itoa 110) ∧
      Itoa 110 ≠ Itoa (10 - 4 + 100) := by
  have hd : (stockedClient "a" (Itoa 10) [false, true, false]).data (inventoryKey "a") =
      some (Itoa 10) := by
    simp [stockedClient]
  have hs : (Atoi (Itoa 10)).1 = 10 := by decide
  have hw : wrapInt64 (10 - 4) = 6 ∧ wrapInt64 (100 + ((0 : Fin 101).val : Int)) = 100 := by
    decide
  have hfire : (0 : ℚ) < float32_0_8 := by norm_num [float32_0_8]
  refine ⟨by decide, ?_, ?_, by decide⟩
  · rw [CheckInventoryHandler_calls _ _ _ (by decide) (by decide), hd]
    unfold checkCommands
    simp only [hs]
    norm_num [stockedClient, float32_0_8]
  · rw [CheckInventoryHandler_valid _ _ _ (by decide) (by decide)]
    rw [if_neg (by decide), hd]
    simp only [hs]
    rw [deductAndRespond_snd, if_pos (by decide), hw.1, hw.2,
      if_pos ⟨by decide, hfire⟩, IncrBy_data, Set_faults, Set_data, issue_faults,
      issue_data, if_neg (by decide), if_pos (by decide)]
    unfold incrData
    rw [hd]
    have h2 : string2ll (Itoa 10) = some 10 := by decide
    simp only [h2]
    rw [if_pos (by decide), put_same]
    decide

/-- CLAIM C16. No endpoint answers 5xx: for every body (decoded or not), every store
content, every outcome of the store commands and every draw, the status written by
ValidateOrderHandler, CalculatePriceHandler and CheckInventoryHandler is 200 or 400, and
ValidateOrderHandler answers 400 only for a body that fails to decode. -/
theorem no_server_error (vbody : Option ValidateOrderRequest) (draw : ℚ)
    (pbody : Option CalculatePriceRequest) (hour : Nat) (surge : ℚ)
    (ibody : Option CheckInventoryRequest) (rnd : Draws) (c : Client) :
    ((ValidateOrderHandler vbody draw).code = 200 ∨
        (ValidateOrderHandler vbody draw).code = 400) ∧
      ((ValidateOrderHandler vbody draw).code = 400 ↔ vbody = none) ∧
      ((CalculatePriceHandler pbody hour surge).code = 200 ∨
        (CalculatePriceHandler pbody hour surge).code = 400) ∧
      ((CheckInventoryHandler ibody rnd c).1.code = 200 ∨
        (CheckInventoryHandler ibody rnd c).1.code = 400) := by
  refine ⟨?_, ?_, ?_, ?_⟩
  · unfold ValidateOrderHandler
    cases vbody with
    | none => exact Or.inr rfl
    | some req => simp only; split_ifs <;> exact Or.inl rfl
  · unfold ValidateOrderHandler
    cases vbody with
    | none => simp [respondWithError]
    | some req => simp only; split_ifs <;> simp [respondWithJSON_validate]
  · unfold CalculatePriceHandler
    cases pbody with
    | none => exact Or.inr rfl
    | some req =>
      by_cases h1 : req.BasePrice ≤ 0
      · simp only [h1, if_true]
        exact Or.inr rfl
      · by_cases h2 : req.Quantity ≤ 0
        · simp only [h1, h2, if_true, if_false]
          exact Or.inr rfl
        · simp only [h1, h2, if_false]
          exact Or.inl (respondWithJSON_code _ _)
  · cases ibody with
    | none => exact Or.inr rfl
    | some req =>
      by_cases hid : req.ItemID = ""
      · simp only [CheckInventoryHandler, hid, if_true]
        exact Or.inr rfl
      · by_cases hq : req.Quantity ≤ 0
        · simp only [CheckInventoryHandler, hid, hq, if_true, if_false]
          exact Or.inr rfl
        · rw [CheckInventoryHandler_valid req rnd c hid (not_le.1 hq)]
          split_ifs
          · exact Or.inl rfl
          · cases c.data (inventoryKey req.ItemID) with
            | none => simp only; rw [deductAndRespond_fst]; exact Or.inl rfl
            | some v => simp only; rw [deductAndRespond_fst]; exact Or.inl rfl

/-- CLAIM C17. Frame of the inventory check. For every request about item `a`, every store,
every draw and every outcome of the store commands: each command the handler issues is
about the key of `a`; every other key, in particular the key of any item b other than a,
holds after the request what it held before; and the response is the same on any other
store that holds the same at the key of `a`. -/
theorem check_touches_one_key (req : CheckInventoryRequest) (rnd : Draws) (c : Client) :
    (∃ cmds : List Cmd,
        (CheckInventoryHandler (some req) rnd c).2.calls = c.calls ++ cmds ∧
        ∀ cmd ∈ cmds, cmd.key = inventoryKey req.ItemID) ∧
      (∀ k, k ≠ inventoryKey req.ItemID →
        (CheckInventoryHandler (some req) rnd c).2.data k = c.data k) ∧
      (∀ b, b ≠ req.ItemID →
        (CheckInventoryHandler (some req) rnd c).2.data (inventoryKey b) =
          c.data (inventoryKey b)) ∧
      (∀ c2 : Client, c2.faults = c.faults →
        c2.data (inventoryKey req.ItemID) = c.data (inventoryKey req.ItemID) →
        (CheckInventoryHandler (some req) rnd c2).1 =
          (CheckInventoryHandler (some req) rnd c).1) := by
  have hframe : ∀ k, k ≠ inventoryKey req.ItemID →
      (CheckInventoryHandler (some req) rnd c).2.data k = c.data k := by
    intro k hk
    rcases CheckInventoryHandler_NonNegativeWrite req rnd c with h | ⟨n, _, _, h⟩
    · rw [h]
    · rw [h, put_other _ _ _ _ hk]
  refine ⟨?_, hframe, ?_, ?_⟩
  · by_cases hid : req.ItemID = ""
    · exact ⟨[], by simp [CheckInventoryHandler, hid], by simp⟩
    · by_cases hq : req.Quantity ≤ 0
      · exact ⟨[], by simp [CheckInventoryHandler, hid, hq], by simp⟩
      · exact ⟨_, CheckInventoryHandler_calls req rnd c hid (not_le.1 hq),
          checkCommands_key _ _ _ _ _⟩
  · intro b hb
    exact hframe _ (fun h => hb (inventoryKey_injective _ _ h))
  · intro c2 hf hd
    by_cases hid : req.ItemID = ""
    · simp [CheckInventoryHandler, hid]
    · by_cases hq : req.Quantity ≤ 0
      · simp [CheckInventoryHandler, hid, hq]
      · rw [CheckInventoryHandler_valid req rnd c hid (not_le.1 hq),
          CheckInventoryHandler_valid req rnd c2 hid (not_le.1 hq), hf, hd]
        split_ifs
        · rfl
        · cases c.data (inventoryKey req.ItemID) with
          | none => simp only [deductAndRespond_fst]
          | some v => simp only [deductAndRespond_fst]

/-- Witness of C17: a check of item "a" leaves the key of item "b" absent. -/
theorem check_touches_one_key_witness :
    (CheckInventoryHandler (some { ItemID := "a", Quantity := 3 })
        { replenish := 0, amount := 5 } (stockedClient "a" (Itoa 10) [])).2.data
        (inventoryKey "b") =
      (stockedClient "a" (Itoa 10) []).data (inventoryKey "b") :=
  (check_touches_one_key { ItemID := "a", Quantity := 3 } { replenish := 0, amount := 5 }
    (stockedClient "a" (Itoa 10) [])).2.2.1 "b" (by decide)

/-! ## Consecutive checks -/

/-- A valid check, with replenishment off, on a reachable store that holds the text of `s`
at the key. -/
theorem CheckInventoryHandler_stored_off (req : CheckInventoryRequest) (rnd : Draws)
    (c : Client) (s : Int) (hid : req.ItemID ≠ "") (hq : 0 < req.Quantity)
    (hreach : c.faults = []) (hstored : c.data (inventoryKey req.ItemID) = some (Itoa s))
    (hlo : minInt64 ≤ s) (hhi : s ≤ maxInt64) (hoff : ¬ rnd.replenish < float32_0_8) :
    (CheckInventoryHandler (some req) rnd c).1 =
        respondWithJSON 200
          { Available := decide (req.Quantity ≤ s)
            CurrentStock := s
            RequestedAmount := req.Quantity
            Message :=
              if req.Quantity ≤ s then "Inventory available" else "Insufficient inventory" } ∧
      (CheckInventoryHandler (some req) rnd c).2.faults = [] ∧
      (CheckInventoryHandler (some req) rnd c).2.data =
        if req.Quantity ≤ s then c.data.put (inventoryKey req.ItemID) (Itoa (s - req.Quantity))
        else c.data := by
  have hread : readStock c.data (inventoryKey req.ItemID) = s := by
    simp [readStock, hstored, Atoi_Itoa s hlo hhi]
  obtain ⟨hf, hd⟩ := CheckInventoryHandler_data_reachable req rnd c hid hq hreach
  refine ⟨?_, hf, ?_⟩
  · rw [CheckInventoryHandler_fst_of_read req rnd c hid hq (by simp [hreach]), hread]
  · rw [hd, hread, hstored]
    simp only [hoff, and_false, if_false]

/-- CLAIM C18. Sequential decrements compose additively, on a reachable store with
replenishment off. With the text of `s` stored for the item and q1, q2 > 0, the checks of
q1 then q2 are both answered available=true if and only if q1 + q2 <= s. In that case the
second check reports currentStock = s - q1, the key ends at s - q1 - q2, and the final store
is the store left by a single check of q1 + q2. -/
theorem checks_compose (itemID : String) (q1 q2 s : Int) (rnd1 rnd2 rnd3 : Draws)
    (c : Client) (hid : itemID ≠ "") (hq1 : 0 < q1) (hq2 : 0 < q2) (hreach : c.faults = [])
    (hstored : c.data (inventoryKey itemID) = some (Itoa s))
    (hlo : minInt64 ≤ s) (hhi : s ≤ maxInt64)
    (hoff1 : ¬ rnd1.replenish < float32_0_8) (hoff2 : ¬ rnd2.replenish < float32_0_8)
    (hoff3 : ¬ rnd3.replenish < float32_0_8) :
    ((answersAvailable (checkTwice itemID q1 q2 rnd1 rnd2 c).1.1 = true ∧
        answersAvailable (checkTwice itemID q1 q2 rnd1 rnd2 c).1.2 = true) ↔ q1 + q2 ≤ s) ∧
      (q1 + q2 ≤ s →
        (checkTwice itemID q1 q2 rnd1 rnd2 c).1.2 =
            respondWithJSON 200
              { Available := true
                CurrentStock := s - q1
                RequestedAmount := q2
                Message := "Inventory available" } ∧
          (checkTwice itemID q1 q2 rnd1 rnd2 c).2.data (inventoryKey itemID) =
            some (Itoa (s - q1 - q2)) ∧
          (checkTwice itemID q1 q2 rnd1 rnd2 c).2.data =
            (CheckInventoryHandler (some { ItemID := itemID, Quantity := q1 + q2 }) rnd3
              c).2.data) := by
  obtain ⟨hr1, hf1, hd1⟩ := CheckInventoryHandler_stored_off
    { ItemID := itemID, Quantity := q1 } rnd1 c s hid hq1 hreach hstored hlo hhi hoff1
  obtain ⟨_, _, hd3⟩ := CheckInventoryHandler_stored_off
    { ItemID := itemID, Quantity := q1 + q2 } rnd3 c s hid (by simp only; omega) hreach
    hstored hlo hhi hoff3
  simp only at hr1 hf1 hd1 hd3
  unfold checkTwice
  simp only
  by_cases h1 : q1 ≤ s
  · rw [if_pos h1] at hd1
    have hstored2 : (CheckInventoryHandler (some { ItemID := itemID, Quantity := q1 }) rnd1
        c).2.data (inventoryKey itemID) = some (Itoa (s - q1)) := by
      rw [hd1, put_same]
    obtain ⟨hr2, _, hd2⟩ := CheckInventoryHandler_stored_off
      { ItemID := itemID, Quantity := q2 } rnd2 _ (s - q1) hid hq2 hf1 hstored2
      (by simp only [minInt64] at hlo ⊢; omega) (by omega) hoff2
    simp only at hr2 hd2
    rw [hr1, hr2]
    constructor
    · simp only [answersAvailable, respondWithJSON_check, decide_eq_true_eq]
      constructor
      · rintro ⟨_, h2⟩; omega
      · intro h; exact ⟨h1, by omega⟩
    · intro hsum
      have h2 : q2 ≤ s - q1 := by omega
      refine ⟨by simp [h2], ?_, ?_⟩
      · rw [hd2, if_pos h2, put_same]
      · have hsub : s - q1 - q2 = s - (q1 + q2) := by omega
        rw [hd2, if_pos h2, hd1, put_put, hd3, if_pos hsum, hsub]
  · rw [hr1]
    constructor
    · simp only [answersAvailable, respondWithJSON_check, decide_eq_true_eq]
      constructor
      · rintro ⟨h, _⟩; exact absurd h h1
      · intro h; omega
    · intro hsum
      omega

/-- Witness of C18: stock 10, checks of 3 then 4: the second reports 7 and the key ends
at 3. -/
theorem checks_compose_witness :
    (checkTwice "a" 3 4 { replenish := 9 / 10, amount := 0 } { replenish := 9 / 10, amount := 0 }
        (stockedClient "a" (Itoa 10) [])).1.2 =
      respondWithJSON 200
        { Available := true
          CurrentStock := 10 - 3
          RequestedAmount := 4
          Message := "Inventory available" } ∧
    (checkTwice "a" 3 4 { replenish := 9 / 10, amount := 0 } { replenish := 9 / 10, amount := 0 }
        (stockedClient "a" (Itoa 10) [])).2.data (inventoryKey "a") =
      some (Itoa (10 - 3 - 4)) :=
  have h := (checks_compose "a" 3 4 10 { replenish := 9 / 10, amount := 0 }
    { replenish := 9 / 10, amount := 0 } { replenish := 9 / 10, amount := 0 }
    (stockedClient "a" (Itoa 10) []) (by decide) (by decide) (by decide) rfl
    (by simp [stockedClient]) (by decide) (by decide) (by norm_num [float32_0_8])
    (by norm_num [float32_0_8]) (by norm_num [float32_0_8])).2 (by decide)
  ⟨h.1, h.2.1⟩

/-! ## Stored strings that are not integers -/

theorem leadingValue_ge (ds : List Char) : ∀ n : Nat, n ≤ leadingValue ds n := by
  induction ds with
  | nil => intro n; exact le_refl n
  | cons ch rest ih =>
    intro n
    unfold leadingValue
    cases digitVal ch with
    | none => exact le_refl n
    | some d =>
      simp only
      have := ih (n * 10 + d)
      omega

/-- A character that is not a digit, met before the digits read so far leave the `uint64`
range, ends `ParseUint` with the error of an invalid text. -/
theorem parseUintLoop_invalid (ds : List Char) : ∀ n : Nat,
    (∃ ch ∈ ds, digitVal ch = none) → leadingValue ds n ≤ maxUint64 →
    parseUintLoop ds n = ParseResult.invalid := by
  induction ds with
  | nil => intro n h _; simp at h
  | cons ch rest ih =>
    intro n hbad hfit
    unfold parseUintLoop
    unfold leadingValue at hfit
    cases hd : digitVal ch with
    | none => rfl
    | some d =>
      rw [hd] at hfit
      simp only at hfit ⊢
      have hge := leadingValue_ge rest (n * 10 + d)
      simp only [maxUint64] at hfit ⊢
      have h1 : ¬ (1844674407370955162 ≤ n) := by omega
      have h2 : ¬ (18446744073709551615 < n * 10 + d) := by omega
      simp only [h1, h2, if_false]
      apply ih
      · obtain ⟨c, hc, hcn⟩ := hbad
        simp only [List.mem_cons] at hc
        rcases hc with hc | hc
        · rw [hc, hd] at hcn
          exact absurd hcn (by simp)
        · exact ⟨c, hc, hcn⟩
      · simpa [maxUint64] using hfit

/-- Digits that leave the `uint64` range before any other character is met end `ParseUint`
with the range error. -/
theorem parseUintLoop_overflow (ds : List Char) : ∀ n : Nat, n ≤ maxUint64 →
    maxUint64 < leadingValue ds n → parseUintLoop ds n = ParseResult.overflow := by
  induction ds with
  | nil => intro n h1 h2; unfold leadingValue at h2; omega
  | cons ch rest ih =>
    intro n h1 h2
    unfold parseUintLoop
    unfold leadingValue at h2
    cases hd : digitVal ch with
    | none => rw [hd] at h2; simp only at h2; omega
    | some d =>
      rw [hd] at h2
      simp only at h2 ⊢
      split_ifs with h3 h4
      · rfl
      · rfl
      · exact ih _ (not_lt.1 h4) h2

/-- The value `strconv.Atoi` gives for a text that is not an integer in syntax: 0 when the
first character out of place is met before the digits leave the `uint64` range, and a bound
of the `int` range otherwise. -/
theorem Atoi_of_not_IntegerText (v : String) (hnot : ¬ IntegerText v) :
    (leadingValue (splitSign v.data).2 0 ≤ maxUint64 → Atoi v = (0, true)) ∧
      (maxUint64 < leadingValue (splitSign v.data).2 0 →
        Atoi v = (if (splitSign v.data).1 = true then minInt64 else maxInt64, true)) := by
  unfold Atoi
  by_cases hnil : (splitSign v.data).2 = []
  · simp only [hnil, if_true, leadingValue]
    exact ⟨fun _ => trivial, fun h => by simp only [maxUint64] at h; omega⟩
  · have hbad : ∃ ch ∈ (splitSign v.data).2, digitVal ch = none := by
      by_contra hall
      apply hnot
      refine ⟨hnil, fun ch hch hn => hall ⟨ch, hch, hn⟩⟩
    simp only [hnil, if_false]
    constructor
    · intro hfit
      rw [parseUintLoop_invalid _ 0 hbad hfit]
    · intro hover
      rw [parseUintLoop_overflow _ 0 (by simp only [maxUint64]; omega) hover]
      simp only
      split_ifs <;> rfl

/-- COUNTEREXAMPLE to C20 as stated. The key holds "99999999999999999999x", which is not an
integer in syntax. `strconv.Atoi` takes its slow path, `ParseUint` meets the twentieth digit
with 9999999999999999999 read, which is past its cutoff, and returns the range error before
it reaches the "x"; `ParseInt` turns it into the largest `int`. A check of 3 units is
answered available=true with currentStock=9223372036854775807, and the stored string is
replaced by the text of 9223372036854775804. -/
theorem check_overlong_text_is_not_zero :
    ¬ IntegerText "99999999999999999999x" ∧
      Atoi "99999999999999999999x" = (9223372036854775807, true) ∧
      (CheckInventoryHandler (some { ItemID := "a", Quantity := 3 })
          { replenish := 9 / 10, amount := 0 }
          (stockedClient "a" "99999999999999999999x" [])).1 =
        respondWithJSON 200
          { Available := true
            CurrentStock := 9223372036854775807
            RequestedAmount := 3
            Message := "Inventory available" } ∧
      (CheckInventoryHandler (some { ItemID := "a", Quantity := 3 })
          { replenish := 9 / 10, amount := 0 }
          (stockedClient "a" "99999999999999999999x" [])).2.data (inventoryKey "a") =
        some "9223372036854775804" := by
  have hatoi : Atoi "99999999999999999999x" = (9223372036854775807, true) := by decide
  have hstored : (stockedClient "a" "99999999999999999999x" []).data (inventoryKey "a") =
      some "99999999999999999999x" := by simp [stockedClient]
  have hs : readStock (stockedClient "a" "99999999999999999999x" []).data
      (inventoryKey "a") = 9223372036854775807 := by
    simp only [readStock, hstored, hatoi]
  refine ⟨?_, hatoi, ?_, ?_⟩
  · unfold IntegerText
    decide
  · rw [CheckInventoryHandler_fst_of_read { ItemID := "a", Quantity := 3 }
      { replenish := 9 / 10, amount := 0 } (stockedClient "a" "99999999999999999999x" [])
      (by decide) (by decide) rfl]
    simp only [hs]
    simp
  · rw [(CheckInventoryHandler_data_reachable { ItemID := "a", Quantity := 3 }
      { replenish := 9 / 10, amount := 0 } (stockedClient "a" "99999999999999999999x" [])
      (by decide) (by decide) rfl).2]
    simp only [hs]
    norm_num [put_same]
    decide

/-- CLAIM C20 (amended). For a valid request whose read succeeds and whose key holds a
string that is not an integer in syntax, with the digits before its first character out of
place within the `uint64` range: the parse error is discarded, the stock is taken as 0, the
response is 200 with available=false, currentStock=0 and "Insufficient inventory", the read
is the only command issued and the stored string is left as it was (neither repaired nor
seeded to 250). -/
theorem check_invalid_text_is_zero (req : CheckInventoryRequest) (rnd : Draws) (c : Client)
    (v : String) (hid : req.ItemID ≠ "") (hq : 0 < req.Quantity)
    (hread : c.faults.headD false = false)
    (hstored : c.data (inventoryKey req.ItemID) = some v)
    (hnot : ¬ IntegerText v)
    (hfit : leadingValue (splitSign v.data).2 0 ≤ maxUint64) :
    Atoi v = (0, true) ∧
      (CheckInventoryHandler (some req) rnd c).1 =
        respondWithJSON 200
          { Available := false
            CurrentStock := 0
            RequestedAmount := req.Quantity
            Message := "Insufficient inventory" } ∧
      (CheckInventoryHandler (some req) rnd c).2.calls =
        c.calls ++ [Cmd.GET (inventoryKey req.ItemID)] ∧
      (CheckInventoryHandler (some req) rnd c).2.data = c.data := by
  have hatoi := (Atoi_of_not_IntegerText v hnot).1 hfit
  have hs : readStock c.data (inventoryKey req.ItemID) = 0 := by
    simp only [readStock, hstored, hatoi]
  have hshort : ¬ req.Quantity ≤ 0 := not_le.2 hq
  refine ⟨hatoi, ?_, ?_, ?_⟩
  · rw [CheckInventoryHandler_fst_of_read req rnd c hid hq hread, hs]
    simp [hshort]
  · rw [CheckInventoryHandler_calls req rnd c hid hq]
    unfold checkCommands
    simp only [hread, Bool.false_eq_true, if_false, hstored, hatoi, hshort, List.nil_append]
  · rw [CheckInventoryHandler_valid req rnd c hid hq]
    simp only [hread, Bool.false_eq_true, if_false, hstored, hatoi, deductAndRespond_snd,
      hshort, issue_data]

/-- Witness of C20 (amended): the key holds "12x". -/
theorem check_invalid_text_is_zero_witness :
    (CheckInventoryHandler (some { ItemID := "a", Quantity := 3 })
        { replenish := 0, amount := 0 } (stockedClient "a" "12x" [])).1 =
      respondWithJSON 200
        { Available := false
          CurrentStock := 0
          RequestedAmount := 3
          Message := "Insufficient inventory" } ∧
    (CheckInventoryHandler (some { ItemID := "a", Quantity := 3 })
        { replenish := 0, amount := 0 } (stockedClient "a" "12x" [])).2.data =
      (stockedClient "a" "12x" []).data :=
  have h := check_invalid_text_is_zero { ItemID := "a", Quantity := 3 }
    { replenish := 0, amount := 0 } (stockedClient "a" "12x" []) "12x"
    (by decide) (by decide) rfl (by simp [stockedClient])
    (by unfold IntegerText; decide) (by decide)
  ⟨h.2.1, h.2.2.2⟩

end Handlers
